import Mathlib

/-! Verification of the version-evolving autopart directive
    (pykickstart, commands/autopart.py): parsing, conflict validation and
    serialization across the release classes FC3 .. F26. -/

/-- Python strings are modelled as lists of characters. -/
abbrev Str := List Char

/-- Characters treated as whitespace by Python str.strip and str.split. -/
def isPySpace (c : Char) : Bool :=
  c == ' ' || c == '\t' || c == '\n' || c == '\r' || c == '\x0b' || c == '\x0c'

/-- Drop leading whitespace, as Python str.lstrip. -/
def lstrip (l : Str) : Str := l.dropWhile isPySpace

/-- Drop trailing whitespace, as Python str.rstrip. -/
def rstrip (l : Str) : Str := (l.reverse.dropWhile isPySpace).reverse

/-- Python str.strip with no arguments: drop whitespace at both ends; the
    serializer layers use it to remove the trailing newline before appending. -/
def pyStrip (l : Str) : Str := rstrip (lstrip l)

/-- Python str.lower on ASCII data, as used by the _type_cb coercion. -/
def pyLower (l : Str) : Str := l.map Char.toLower

/-- The AUTOPART_TYPE_LVM, _BTRFS, _PLAIN and _LVM_THINP constants.
    Modelled from the spec: constants.py is not under src; the spec
    describes the scheme selector as an enumerated value, with plain and
    partition naming the same constant. -/
inductive ATy where
  | lvm
  | btrfs
  | plain
  | thinp
deriving DecidableEq, Repr

/-- Directive State: the attribute bag of one autopart command object,
    collecting every attribute introduced along the class chain
    FC3_AutoPart .. F26_AutoPart, with the defaults of the __init__ methods. -/
structure AutoPart where
  autopart : Bool := false
  encrypted : Bool := false
  passphrase : Str := []
  escrowcert : Str := []
  backuppassphrase : Bool := false
  cipher : Str := []
  lvm : Bool := true
  type : Option ATy := none
  fstype : Str := []
  nohome : Bool := false
  noboot : Bool := false
  noswap : Bool := false
deriving DecidableEq, Repr

/-- Document Context: the seen flags of the sibling directives consulted by
    the conflict checks, plus the seen flag of autopart itself. -/
structure Ctx where
  partition_seen : Bool := false
  raid_seen : Bool := false
  volgroup_seen : Bool := false
  logvol_seen : Bool := false
  reqpart_seen : Bool := false
  autopart_seen : Bool := false
deriving DecidableEq, Repr

/-- Structured parse errors, one constructor per error kind of the spec
    error taxonomy.  conflictingDirectives carries the other keyword; the
    autopart keyword itself is implicit since these are autopart errors. -/
inductive PErr where
  | unexpectedArgument
  | unknownOption (name : Str)
  | invalidOptionValue (name : Str)
  | conflictingDirectives (other : Str)
  | invalidOptionCombination
deriving DecidableEq, Repr

/-- The fresh state built at handler construction. -/
def initS : AutoPart := {}

/-- The fresh document context. -/
def initCtx : Ctx := {}

instance : Nonempty AutoPart := ⟨initS⟩

instance : Nonempty Ctx := ⟨initCtx⟩

/-- Modelled from the spec: the KickstartCommand base serializer (base.py
    is not under src) contributes nothing to the command line; per spec 4.4
    a directive with present = false serializes to the empty string. -/
def kickstartCommand_str (_ : AutoPart) : Str := []

/-- Embedding of FC3_AutoPart.__str__. -/
def FC3_str (s : AutoPart) : Str :=
  let retval := kickstartCommand_str s
  if s.autopart then retval ++ ("autopart\n").data else retval

/-- Embedding of F9_AutoPart.__str__. -/
def F9_str (s : AutoPart) : Str :=
  let retval := kickstartCommand_str s
  if ¬ s.autopart then retval else
    let r := retval ++ ("autopart").data
    let r := if s.encrypted then
        let r2 := r ++ (" --encrypted").data
        if s.passphrase ≠ [] then
          r2 ++ (" --passphrase=\"").data ++ s.passphrase ++ ("\"").data
        else r2
      else r
    r ++ ("\n").data

/-- Embedding of F12_AutoPart.__str__. -/
def F12_str (s : AutoPart) : Str :=
  let retval := F9_str s
  if ¬ s.autopart then retval else
    if s.encrypted ∧ s.escrowcert ≠ [] then
      let r := pyStrip retval
      let r := r ++ (" --escrowcert=\"").data ++ s.escrowcert ++ ("\"").data
      let r := if s.backuppassphrase then r ++ (" --backuppassphrase").data else r
      r ++ ("\n").data
    else retval

/-- Embedding of RHEL6_AutoPart.__str__. -/
def RHEL6_str (s : AutoPart) : Str :=
  let retval := F12_str s
  if ¬ s.autopart then retval else
    if s.encrypted ∧ s.cipher ≠ [] then
      pyStrip retval ++ (" --cipher=\"").data ++ s.cipher ++ ("\"\n").data
    else retval

/-- Embedding of F16_AutoPart.__str__. -/
def F16_str (s : AutoPart) : Str :=
  let retval := F12_str s
  if ¬ s.autopart then retval else
    if ¬ s.lvm then pyStrip retval ++ (" --nolvm\n").data else retval

/-- The typeMap dict built in F17_AutoPart.__init__, in insertion order. -/
def tmF17 : List (Str × ATy) :=
  [(("lvm").data, ATy.lvm), (("btrfs").data, ATy.btrfs),
   (("plain").data, ATy.plain), (("partition").data, ATy.plain)]

/-- F20_AutoPart.__init__ adds thinp to the inherited typeMap. -/
def tmF20 : List (Str × ATy) := tmF17 ++ [(("thinp").data, ATy.thinp)]

/-- Embedding of F17_AutoPart._typeAsStr: the first typeMap key whose value
    matches the type attribute, with partition rewritten to plain. -/
def typeAsStr (tm : List (Str × ATy)) (t : Option ATy) : Option Str :=
  match t with
  | none => none
  | some v =>
    match (tm.find? (fun kv => kv.2 == v)).map (fun kv => kv.1) with
    | some k => if k = ("partition").data then some (("plain").data) else some k
    | none => none

/-- Embedding of F17_AutoPart.__str__, parametric in the typeMap held by the
    object (tmF17 for F17 and F18 objects, tmF20 from F20 on). -/
def F17_str (tm : List (Str × ATy)) (s : AutoPart) : Str :=
  let retval := F16_str s
  if ¬ s.autopart then retval else
    match typeAsStr tm s.type with
    | some ty => pyStrip retval ++ (" --type=").data ++ ty ++ ("\n").data
    | none => retval

/-- Embedding of F18_AutoPart.__str__ (also the serializer of F20 and F23
    objects, which override neither __str__ nor the F18/F21 layers). -/
def F18_str (tm : List (Str × ATy)) (s : AutoPart) : Str :=
  let retval := F17_str tm s
  if ¬ s.autopart then retval else
    if s.encrypted ∧ s.cipher ≠ [] then
      pyStrip retval ++ (" --cipher=\"").data ++ s.cipher ++ ("\"\n").data
    else retval

/-- Embedding of F21_AutoPart.__str__. -/
def F21_str (tm : List (Str × ATy)) (s : AutoPart) : Str :=
  let retval := F18_str tm s
  if ¬ s.autopart then retval else
    if s.fstype ≠ [] then
      pyStrip retval ++ (" --fstype=").data ++ s.fstype ++ ("\n").data
    else retval

/-- Embedding of RHEL7_AutoPart.__str__. -/
def RHEL7_str (s : AutoPart) : Str :=
  let retval := F21_str tmF20 s
  if ¬ s.autopart then retval else
    if s.nohome then pyStrip retval ++ (" --nohome\n").data else retval

/-- Embedding of F26_AutoPart.__str__. -/
def F26_str (s : AutoPart) : Str :=
  let retval := F21_str tmF20 s
  if ¬ s.autopart then retval else
    let r := if s.nohome then pyStrip retval ++ (" --nohome\n").data else retval
    let r := if s.noboot then pyStrip r ++ (" --noboot\n").data else r
    if s.noswap then pyStrip r ++ (" --noswap\n").data else r

/-- One declared option of a schema: the flag name, the namespace write
    performed when the option is absent (its declared default), and the
    write performed when it is supplied with a raw value (none for a bare
    flag token).  Modelled from the spec (3, Option Schema): the option
    parsing machinery, KSOptionParser in options.py, is not under src. -/
structure OptSpec where
  name : Str
  applyAbsent : AutoPart → AutoPart
  applyTok : Option Str → Except PErr (AutoPart → AutoPart)

/-- Split a raw token at its first equals sign, as in --name=value. -/
def splitEq : Str → Str × Option Str
  | [] => ([], none)
  | c :: rest =>
    if c = '=' then ([], some rest)
    else
      let p := splitEq rest
      (c :: p.1, p.2)

/-- Modelled from the spec (4.2): resolve one raw token against the
    effective schema.  A token that is not of option form is an unexpected
    positional argument; an option name absent from the schema is an
    unknown option. -/
def matchTok (sch : List OptSpec) (t : Str) : Except PErr (Str × Option Str) :=
  match t with
  | '-' :: '-' :: _ =>
    if sch.any (fun o => o.name == (splitEq t).1) then
      Except.ok ((splitEq t).1, (splitEq t).2)
    else Except.error (PErr.unknownOption (splitEq t).1)
  | _ => Except.error PErr.unexpectedArgument

/-- Scan all raw tokens into (name, raw value) occurrences. -/
def scan (sch : List OptSpec) (args : List Str) : Except PErr (List (Str × Option Str)) :=
  args.mapM (matchTok sch)

/-- The raw value of the last occurrence of option nm among the scanned
    tokens, if any. -/
def lastOcc (nm : Str) (occs : List (Str × Option Str)) : Option (Option Str) :=
  ((occs.filter (fun pr => pr.1 == nm)).getLast?).map (fun pr => pr.2)

/-- Modelled from the spec (4.2): resolve the scanned occurrences against
    the schema.  First every schema option writes the declared default of
    its destination; then, in registration order, every supplied option
    writes the coerced value of its last occurrence.  Since
    later-registered options write later, two supplied options sharing a
    destination resolve by last-schema-registration-order, the documented
    tie-break. -/
def optparse (sch : List OptSpec) (args : List Str) :
    Except PErr (AutoPart → AutoPart) := do
  let occs ← scan sch args
  let ups ← sch.mapM (fun o =>
    match lastOcc o.name occs with
    | none => Except.ok (fun s => s)
    | some v => o.applyTok v)
  return fun s =>
    let s0 := sch.foldl (fun s o => o.applyAbsent s) s
    ups.foldl (fun s u => u s) s0

/-- add_argument of --encrypted (F9): store_true with default False. -/
def encryptedOpt : OptSpec where
  name := ("--encrypted").data
  applyAbsent := fun s => { s with encrypted := false }
  applyTok := fun v =>
    match v with
    | none => Except.ok (fun s => { s with encrypted := true })
    | some _ => Except.error (PErr.invalidOptionValue (("--encrypted").data))

/-- add_argument of --passphrase (F9): a string valued option. -/
def passphraseOpt : OptSpec where
  name := ("--passphrase").data
  applyAbsent := fun s => { s with passphrase := [] }
  applyTok := fun v =>
    match v with
    | some raw => Except.ok (fun s => { s with passphrase := raw })
    | none => Except.error (PErr.invalidOptionValue (("--passphrase").data))

/-- add_argument of --escrowcert (F12): a string valued option. -/
def escrowcertOpt : OptSpec where
  name := ("--escrowcert").data
  applyAbsent := fun s => { s with escrowcert := [] }
  applyTok := fun v =>
    match v with
    | some raw => Except.ok (fun s => { s with escrowcert := raw })
    | none => Except.error (PErr.invalidOptionValue (("--escrowcert").data))

/-- add_argument of --backuppassphrase (F12): store_true with default False. -/
def backuppassphraseOpt : OptSpec where
  name := ("--backuppassphrase").data
  applyAbsent := fun s => { s with backuppassphrase := false }
  applyTok := fun v =>
    match v with
    | none => Except.ok (fun s => { s with backuppassphrase := true })
    | some _ => Except.error (PErr.invalidOptionValue (("--backuppassphrase").data))

/-- add_argument of --cipher (RHEL6 and F18): a string valued option. -/
def cipherOpt : OptSpec where
  name := ("--cipher").data
  applyAbsent := fun s => { s with cipher := [] }
  applyTok := fun v =>
    match v with
    | some raw => Except.ok (fun s => { s with cipher := raw })
    | none => Except.error (PErr.invalidOptionValue (("--cipher").data))

/-- add_argument of --nolvm at F16: store_false into dest lvm, default True. -/
def nolvmF16Opt : OptSpec where
  name := ("--nolvm").data
  applyAbsent := fun s => { s with lvm := true }
  applyTok := fun v =>
    match v with
    | none => Except.ok (fun s => { s with lvm := false })
    | some _ => Except.error (PErr.invalidOptionValue (("--nolvm").data))

/-- add_argument of --nolvm at F17: store_const AUTOPART_TYPE_PLAIN into
    dest type, replacing the F16 declaration of the same flag. -/
def nolvmF17Opt : OptSpec where
  name := ("--nolvm").data
  applyAbsent := fun s => { s with type := none }
  applyTok := fun v =>
    match v with
    | none => Except.ok (fun s => { s with type := some ATy.plain })
    | some _ => Except.error (PErr.invalidOptionValue (("--nolvm").data))

/-- add_argument of --type (F17) with the _type_cb coercion: lowercase the
    raw value and look it up in the typeMap of the object; unknown values
    raise the invalid autopart type parse error. -/
def typeOpt (tm : List (Str × ATy)) : OptSpec where
  name := ("--type").data
  applyAbsent := fun s => { s with type := none }
  applyTok := fun v =>
    match v with
    | some raw =>
      match tm.find? (fun kv => kv.1 == pyLower raw) with
      | some kv => Except.ok (fun s => { s with type := some kv.2 })
      | none => Except.error (PErr.invalidOptionValue (("--type").data))
    | none => Except.error (PErr.invalidOptionValue (("--type").data))

/-- add_argument of --fstype (F21): a string valued option. -/
def fstypeOpt : OptSpec where
  name := ("--fstype").data
  applyAbsent := fun s => { s with fstype := [] }
  applyTok := fun v =>
    match v with
    | some raw => Except.ok (fun s => { s with fstype := raw })
    | none => Except.error (PErr.invalidOptionValue (("--fstype").data))

/-- add_argument of --nohome (RHEL7 and F26): store_true, default False. -/
def nohomeOpt : OptSpec where
  name := ("--nohome").data
  applyAbsent := fun s => { s with nohome := false }
  applyTok := fun v =>
    match v with
    | none => Except.ok (fun s => { s with nohome := true })
    | some _ => Except.error (PErr.invalidOptionValue (("--nohome").data))

/-- add_argument of --noboot (F26): store_true, default False. -/
def nobootOpt : OptSpec where
  name := ("--noboot").data
  applyAbsent := fun s => { s with noboot := false }
  applyTok := fun v =>
    match v with
    | none => Except.ok (fun s => { s with noboot := true })
    | some _ => Except.error (PErr.invalidOptionValue (("--noboot").data))

/-- add_argument of --noswap (F26): store_true, default False. -/
def noswapOpt : OptSpec where
  name := ("--noswap").data
  applyAbsent := fun s => { s with noswap := false }
  applyTok := fun v =>
    match v with
    | none => Except.ok (fun s => { s with noswap := true })
    | some _ => Except.error (PErr.invalidOptionValue (("--noswap").data))

/-- add_argument semantics for schema construction: append the option,
    dropping any earlier option with the same flag name (the conflict
    resolution exercised when F17 redefines --nolvm). -/
def addOpt (sch : List OptSpec) (o : OptSpec) : List OptSpec :=
  sch.filter (fun p => !(p.name == o.name)) ++ [o]

/-- The schema built by F9_AutoPart._getParser. -/
def schF9 : List OptSpec := addOpt (addOpt [] encryptedOpt) passphraseOpt

/-- The schema built by F12_AutoPart._getParser. -/
def schF12 : List OptSpec := addOpt (addOpt schF9 escrowcertOpt) backuppassphraseOpt

/-- The schema built by RHEL6_AutoPart._getParser. -/
def schRHEL6 : List OptSpec := addOpt schF12 cipherOpt

/-- The schema built by F16_AutoPart._getParser. -/
def schF16 : List OptSpec := addOpt schF12 nolvmF16Opt

/-- The schema built by F17_AutoPart._getParser, parametric in the typeMap
    used by the coercion (tmF17 for F17 and F18 objects, tmF20 later). -/
def schF17 (tm : List (Str × ATy)) : List OptSpec :=
  addOpt (addOpt schF16 nolvmF17Opt) (typeOpt tm)

/-- The schema built by F18_AutoPart._getParser. -/
def schF18 (tm : List (Str × ATy)) : List OptSpec := addOpt (schF17 tm) cipherOpt

/-- The schema built by F21_AutoPart._getParser. -/
def schF21 : List OptSpec := addOpt (schF18 tmF20) fstypeOpt

/-- The schema built by RHEL7_AutoPart._getParser. -/
def schRHEL7 : List OptSpec := addOpt schF21 nohomeOpt

/-- The schema built by F26_AutoPart._getParser. -/
def schF26 : List OptSpec :=
  addOpt (addOpt (addOpt schF21 nohomeOpt) nobootOpt) noswapOpt

/-- Embedding of FC3_AutoPart.parse: any argument at all raises the
    does-not-take-any-arguments error; otherwise autopart is set.  The
    seen flag update is modelled from the spec (4.2). -/
def FC3_parse (s : AutoPart) (ctx : Ctx) (args : List Str) :
    AutoPart × Ctx × Option PErr :=
  if args ≠ [] then (s, ctx, some PErr.unexpectedArgument)
  else ({ s with autopart := true }, { ctx with autopart_seen := true }, none)

/-- Embedding of F9_AutoPart.parse, the shape shared by every later class:
    run the option machinery, copy the namespace onto the state, set
    autopart = True.  On an option error the state is left untouched, the
    machinery failing before set_to_self runs.  The seen flag update is
    modelled from the spec (4.2). -/
def ksparse (sch : List OptSpec) (s : AutoPart) (ctx : Ctx) (args : List Str) :
    AutoPart × Ctx × Option PErr :=
  match optparse sch args with
  | Except.error e => (s, ctx, some e)
  | Except.ok upd =>
    let s1 := upd s
    ({ s1 with autopart := true }, { ctx with autopart_seen := true }, none)

/-- The conflicting-command scan shared by RHEL6_AutoPart.parse and
    F20_AutoPart.parse, in the fixed order partition, raid, volgroup,
    logvol. -/
def conflictCmd (ctx : Ctx) : Option Str :=
  if ctx.partition_seen then some (("part/partition").data)
  else if ctx.raid_seen then some (("raid").data)
  else if ctx.volgroup_seen then some (("volgroup").data)
  else if ctx.logvol_seen then some (("logvol").data)
  else none

/-- Embedding of RHEL6_AutoPart.parse: the F12 parse runs first and its
    state updates stand, then the cross-directive check may raise. -/
def RHEL6_parse (s : AutoPart) (ctx : Ctx) (args : List Str) :
    AutoPart × Ctx × Option PErr :=
  match ksparse schRHEL6 s ctx args with
  | (s1, c1, none) =>
    match conflictCmd c1 with
    | some other => (s1, c1, some (PErr.conflictingDirectives other))
    | none => (s1, c1, none)
  | r => r

/-- Embedding of F17_AutoPart.parse: after a successful parse lvm is reset
    to True, so that --nolvm is never written back. -/
def ksparseF17 (sch : List OptSpec) (s : AutoPart) (ctx : Ctx) (args : List Str) :
    AutoPart × Ctx × Option PErr :=
  match ksparse sch s ctx args with
  | (s1, c1, none) => ({ s1 with lvm := true }, c1, none)
  | r => r

/-- Embedding of F20_AutoPart.parse: the F18 parse runs first and its state
    updates stand, then the cross-directive check may raise. -/
def ksparseF20 (sch : List OptSpec) (s : AutoPart) (ctx : Ctx) (args : List Str) :
    AutoPart × Ctx × Option PErr :=
  match ksparseF17 sch s ctx args with
  | (s1, c1, none) =>
    match conflictCmd c1 with
    | some other => (s1, c1, some (PErr.conflictingDirectives other))
    | none => (s1, c1, none)
  | r => r

/-- Embedding of F21_AutoPart.parse: the F20 parse runs first, then the two
    fstype checks, btrfs not being a valid filesystem type and --fstype
    being incompatible with --type=btrfs. -/
def ksparseF21 (sch : List OptSpec) (s : AutoPart) (ctx : Ctx) (args : List Str) :
    AutoPart × Ctx × Option PErr :=
  match ksparseF20 sch s ctx args with
  | (s1, c1, none) =>
    if s1.fstype = ("btrfs").data then (s1, c1, some PErr.invalidOptionCombination)
    else if typeAsStr tmF20 s1.type = some (("btrfs").data) ∧ s1.fstype ≠ [] then
      (s1, c1, some PErr.invalidOptionCombination)
    else (s1, c1, none)
  | r => r

/-- Embedding of the reqpart check appended by F23_AutoPart.parse and
    RHEL7_AutoPart.parse. -/
def reqpartCheck (r : AutoPart × Ctx × Option PErr) : AutoPart × Ctx × Option PErr :=
  match r with
  | (s1, c1, none) =>
    if c1.reqpart_seen then
      (s1, c1, some (PErr.conflictingDirectives (("reqpart").data)))
    else (s1, c1, none)
  | x => x

/-- The version classes of autopart.py.  Each value stands for the behavior
    of every target version from its release until the next listed one. -/
inductive Cls where
  | FC3
  | F9
  | F12
  | RHEL6
  | F16
  | F17
  | F18
  | F20
  | F21
  | RHEL7
  | F23
  | F26
deriving DecidableEq, Repr, Fintype

/-- Modelled from the spec (4.1): target versions form a total order over
    the release history.  version.py is not under src; the RHEL classes are
    ordered at their fork points, RHEL6 branching from F12 and RHEL7 from
    F21. -/
def rank : Cls → Nat
  | Cls.FC3 => 0
  | Cls.F9 => 1
  | Cls.F12 => 2
  | Cls.RHEL6 => 3
  | Cls.F16 => 4
  | Cls.F17 => 5
  | Cls.F18 => 6
  | Cls.F20 => 7
  | Cls.F21 => 8
  | Cls.RHEL7 => 9
  | Cls.F23 => 10
  | Cls.F26 => 11

/-- The serializer of each version class. -/
def ksStr : Cls → AutoPart → Str
  | Cls.FC3 => FC3_str
  | Cls.F9 => F9_str
  | Cls.F12 => F12_str
  | Cls.RHEL6 => RHEL6_str
  | Cls.F16 => F16_str
  | Cls.F17 => F17_str tmF17
  | Cls.F18 => F18_str tmF17
  | Cls.F20 => F18_str tmF20
  | Cls.F21 => F21_str tmF20
  | Cls.RHEL7 => RHEL7_str
  | Cls.F23 => F21_str tmF20
  | Cls.F26 => F26_str

/-- The parse method of each version class. -/
def ksParse : Cls → AutoPart → Ctx → List Str → AutoPart × Ctx × Option PErr
  | Cls.FC3 => FC3_parse
  | Cls.F9 => ksparse schF9
  | Cls.F12 => ksparse schF12
  | Cls.RHEL6 => RHEL6_parse
  | Cls.F16 => ksparse schF16
  | Cls.F17 => ksparseF17 (schF17 tmF17)
  | Cls.F18 => ksparseF17 (schF18 tmF17)
  | Cls.F20 => ksparseF20 (schF18 tmF20)
  | Cls.F21 => ksparseF21 schF21
  | Cls.RHEL7 => fun s ctx args => reqpartCheck (ksparseF21 schRHEL7 s ctx args)
  | Cls.F23 => fun s ctx args => reqpartCheck (ksparseF21 schF21 s ctx args)
  | Cls.F26 => fun s ctx args => reqpartCheck (ksparseF21 schF26 s ctx args)

/-- Modelled from the spec (6, collaborator contract): the document reader
    splits a directive line on whitespace, quoted substrings being
    preserved as single tokens, and quote marks are stripped from the
    tokens.  Values containing whitespace or quote characters are outside
    the scope of this model, which splits naively and then drops quote
    marks. -/
def wordsAux : Str → Str → List Str
  | [], acc => if acc = [] then [] else [acc.reverse]
  | c :: cs, acc =>
    if isPySpace c then
      if acc = [] then wordsAux cs [] else acc.reverse :: wordsAux cs []
    else wordsAux cs (c :: acc)

/-- Split into whitespace-separated words. -/
def pyWords (l : Str) : List Str := wordsAux l []

/-- Strip quote marks from one word. -/
def unquote (w : Str) : Str := w.filter (fun c => !(c == '"'))

/-- The document reader tokenization of one directive line. -/
def tokenize (l : Str) : List Str := (pyWords l).map unquote

/-- The effective schema of each version class (empty for FC3, whose parse
    rejects all arguments outright). -/
def schOf : Cls → List OptSpec
  | Cls.FC3 => []
  | Cls.F9 => schF9
  | Cls.F12 => schF12
  | Cls.RHEL6 => schRHEL6
  | Cls.F16 => schF16
  | Cls.F17 => schF17 tmF17
  | Cls.F18 => schF18 tmF17
  | Cls.F20 => schF18 tmF20
  | Cls.F21 => schF21
  | Cls.RHEL7 => schRHEL7
  | Cls.F23 => schF21
  | Cls.F26 => schF26

/-- The state mutations a class performs after a successful option pass:
    autopart is set everywhere, and from F17 on lvm is reset to True. -/
def postParse (c : Cls) (s1 : AutoPart) : AutoPart :=
  let s2 := { s1 with autopart := true }
  if 5 ≤ rank c then { s2 with lvm := true } else s2

/-- Whether an Except value is a success. -/
def isOkB {α : Type} (x : Except PErr α) : Bool :=
  match x with
  | Except.ok _ => true
  | Except.error _ => false

/-- C8: for every target version class and every Directive State whose
    present flag (autopart) is false, serialization yields the empty
    string, whatever the remaining attribute values. -/
theorem c8_absent_state_serializes_empty (c : Cls) (s : AutoPart)
    (h : s.autopart = false) : ksStr c s = [] := by
  cases c <;>
    simp [ksStr, FC3_str, F9_str, F12_str, RHEL6_str, F16_str, F17_str,
      F18_str, F21_str, RHEL7_str, F26_str, kickstartCommand_str, h]

/-- C8 witness: a state with every other attribute populated but
    autopart = false serializes to the empty string at F26. -/
theorem c8_absent_state_serializes_empty_witness :
    ksStr Cls.F26
      { autopart := false
        encrypted := true
        passphrase := ("p").data
        escrowcert := ("e").data
        backuppassphrase := true
        cipher := ("c").data
        lvm := false
        type := some ATy.btrfs
        fstype := ("ext4").data
        nohome := true
        noboot := true
        noswap := true } = [] :=
  c8_absent_state_serializes_empty Cls.F26 _ rfl

/-- C7: when the encrypted flag is false, serialization does not depend on
    the passphrase, escrowcert and cipher attributes at all, for any
    version class: their values are never emitted.  (When encrypted is
    true, those attributes are emitted under their own non-emptiness
    guards, so the dependent tokens appear only together with
    --encrypted.) -/
theorem c7_dependent_options_not_emitted (c : Cls) (s : AutoPart)
    (p e ci : Str) (h : s.encrypted = false) :
    ksStr c { s with passphrase := p, escrowcert := e, cipher := ci } =
      ksStr c s := by
  cases c <;>
    simp [ksStr, FC3_str, F9_str, F12_str, RHEL6_str, F16_str, F17_str,
      F18_str, F21_str, RHEL7_str, F26_str, kickstartCommand_str, h]

/-- C7 witness: at F26, a state with encrypted = false serializes the same
    whether or not passphrase, escrowcert and cipher hold values. -/
theorem c7_dependent_options_not_emitted_witness :
    ksStr Cls.F26
      { (initS) with
        autopart := true
        passphrase := ("abc").data
        escrowcert := ("url").data
        cipher := ("aes").data } =
      ksStr Cls.F26 { (initS) with autopart := true } :=
  c7_dependent_options_not_emitted Cls.F26 { (initS) with autopart := true }
    (("abc").data) (("url").data) (("aes").data) rfl

/-- C4 counterexample: under F18 (as under every class before F20 other
    than RHEL6) parsing autopart with the partition directive already seen
    succeeds: no ConflictingDirectives error is raised, refuting the claim
    that the check runs for every target version. -/
theorem c4_conflict_check_cex :
    ksParse Cls.F18 initS { initCtx with partition_seen := true } [] =
      ({ initS with autopart := true },
       { initCtx with partition_seen := true, autopart_seen := true },
       none) := by decide

/-- C4 amended: exactly the classes with a cross-directive check, RHEL6 and
    F20 and later, fail with ConflictingDirectives naming part/partition
    when autopart is parsed (with options that parse successfully) after a
    partition directive has been seen. -/
theorem c4_conflict_partition (c : Cls) (s : AutoPart) (ctx : Ctx)
    (args : List Str)
    (hc : c ∈ [Cls.RHEL6, Cls.F20, Cls.F21, Cls.RHEL7, Cls.F23, Cls.F26])
    (hp : ctx.partition_seen = true)
    (hok : isOkB (optparse (schOf c) args) = true) :
    (ksParse c s ctx args).2.2 =
      some (PErr.conflictingDirectives (("part/partition").data)) := by
  fin_cases hc
  all_goals
    simp only [schOf] at hok
    simp only [isOkB] at hok
    split at hok
    case _ upd heq =>
      simp [ksParse, RHEL6_parse, ksparse, ksparseF17, ksparseF20,
        ksparseF21, reqpartCheck, conflictCmd, heq, hp]
    case _ e heq => exact Bool.noConfusion hok

/-- C4 witness: at F20 with partition seen and no options, the parse fails
    with ConflictingDirectives part/partition. -/
theorem c4_conflict_partition_witness :
    (ksParse Cls.F20 initS { initCtx with partition_seen := true } []).2.2 =
      some (PErr.conflictingDirectives (("part/partition").data)) :=
  c4_conflict_partition Cls.F20 initS { initCtx with partition_seen := true }
    [] (by decide) rfl (by decide)

/-- C6: under F21 and every later class, a directive whose tokens include
    --fstype=btrfs fails with InvalidOptionCombination, for every legal
    value (or absence) of the scheme selector --type and either token
    order. -/
theorem c6_fstype_btrfs_invalid :
    ∀ c ∈ [Cls.F21, Cls.RHEL7, Cls.F23, Cls.F26],
      ∀ ty ∈ (none : Option Str) ::
          tmF20.map (fun kv => some ((("--type=").data) ++ kv.1)),
        ∀ args ∈ [(("--fstype=btrfs").data) :: ty.toList,
                  ty.toList ++ [(("--fstype=btrfs").data)]],
          (ksParse c initS initCtx args).2.2 =
            some PErr.invalidOptionCombination := by
  decide

/-- C6 witness: the plain autopart --fstype=btrfs line fails with
    InvalidOptionCombination at F21. -/
theorem c6_fstype_btrfs_invalid_witness :
    (ksParse Cls.F21 initS initCtx [(("--fstype=btrfs").data)]).2.2 =
      some PErr.invalidOptionCombination :=
  c6_fstype_btrfs_invalid Cls.F21 (by decide) none (by decide) _ (by decide)

/-- C3 counterexample: the claim fails in two independent ways.  First,
    parsing autopart --encrypted under FC3 fails with the
    does-not-take-any-arguments error (UnexpectedArgument), not with
    UnknownOption: FC3_AutoPart.parse rejects all arguments outright
    without inspecting option names.  Second, acceptance is not upward
    closed in the version order for branch-introduced options: --cipher
    is accepted at RHEL6 yet rejected as UnknownOption at the
    later-ordered F16, because F16_AutoPart builds its parser on F12,
    which lacks --cipher. -/
theorem c3_version_gate_cex :
    ksParse Cls.FC3 initS initCtx [("--encrypted").data] =
      (initS, initCtx, some PErr.unexpectedArgument) ∧
    (ksParse Cls.RHEL6 initS initCtx [("--cipher=aes").data]).2.2 = none ∧
    rank Cls.RHEL6 < rank Cls.F16 ∧
    (ksParse Cls.F16 initS initCtx [("--cipher=aes").data]).2.2 =
      some (PErr.unknownOption (("--cipher").data)) := by decide

/-- C3 amended: for every option of the command and every version class,
    the gate is membership in the option schema of the class, which is
    inherited along the class chain rather than accumulated along the
    version order.  FC3 rejects any supplied option with its blanket
    UnexpectedArgument error; every other class accepts the option token
    exactly when its flag is in the schema of the class, and otherwise
    rejects it with UnknownOption naming the flag.  For trunk-introduced
    options this coincides with the introduction gate of the claim over
    the classes carrying an option parser, but for branch-introduced
    options it does not: --cipher (RHEL6) and --nohome (RHEL7) are
    UnknownOption at later-ordered Fedora classes (F16 and F17, and F23
    respectively) until re-introduced (F18, F26). -/
theorem c3_version_gate_amended :
    ∀ pr ∈ [((("--encrypted").data), (("--encrypted").data)),
            ((("--passphrase").data), (("--passphrase=x").data)),
            ((("--escrowcert").data), (("--escrowcert=x").data)),
            ((("--backuppassphrase").data), (("--backuppassphrase").data)),
            ((("--cipher").data), (("--cipher=aes").data)),
            ((("--nolvm").data), (("--nolvm").data)),
            ((("--type").data), (("--type=lvm").data)),
            ((("--fstype").data), (("--fstype=ext4").data)),
            ((("--nohome").data), (("--nohome").data)),
            ((("--noboot").data), (("--noboot").data)),
            ((("--noswap").data), (("--noswap").data))],
      ∀ c : Cls,
        (c = Cls.FC3 →
          (ksParse c initS initCtx [pr.2]).2.2 =
            some PErr.unexpectedArgument) ∧
        (c ≠ Cls.FC3 →
          ((schOf c).any (fun o => o.name == pr.1) = true →
            (ksParse c initS initCtx [pr.2]).2.2 = none) ∧
          ((schOf c).any (fun o => o.name == pr.1) = false →
            (ksParse c initS initCtx [pr.2]).2.2 =
              some (PErr.unknownOption pr.1))) := by decide

/-- C3 witness: autopart --cipher=aes under F16, whose schema lacks
    --cipher, fails with UnknownOption naming --cipher. -/
theorem c3_version_gate_witness :
    (ksParse Cls.F16 initS initCtx [("--cipher=aes").data]).2.2 =
      some (PErr.unknownOption (("--cipher").data)) :=
  ((c3_version_gate_amended ((("--cipher").data), (("--cipher=aes").data))
      (by decide) Cls.F16).2 (by decide)).2 (by decide)

/-- The typeMap held by the objects of the classes from F17 on. -/
def tmOf (c : Cls) : List (Str × ATy) :=
  match c with
  | Cls.F17 => tmF17
  | Cls.F18 => tmF17
  | _ => tmF20

/-- C2: under F17 and every later class, when both --nolvm and --type are
    supplied in one invocation, the --type value determines the resulting
    type attribute in either token order: the tie-break between the two
    options sharing the type destination is last-schema-registration-order
    (--type is registered after --nolvm), not last-token-order. -/
theorem c2_schema_order_tiebreak :
    ∀ c ∈ [Cls.F17, Cls.F18, Cls.F20, Cls.F21, Cls.RHEL7, Cls.F23, Cls.F26],
      ∀ kv ∈ tmOf c,
        ∀ args ∈ [[(("--nolvm").data), (("--type=").data) ++ kv.1],
                  [(("--type=").data) ++ kv.1, (("--nolvm").data)]],
          (ksParse c initS initCtx args).1.type = some kv.2 ∧
          (ksParse c initS initCtx args).2.2 = none := by decide

/-- C2 witness: autopart --type=lvm --nolvm at F17 still yields the lvm
    scheme, the token order notwithstanding. -/
theorem c2_schema_order_tiebreak_witness :
    (ksParse Cls.F17 initS initCtx
        [(("--type=").data) ++ (("lvm").data), (("--nolvm").data)]).1.type =
      some ATy.lvm :=
  (c2_schema_order_tiebreak Cls.F17 (by decide) ((("lvm").data), ATy.lvm)
    (by decide) _ (by decide)).1

/-- The F9 schema in normal form. -/
theorem schF9_nf : schF9 = [encryptedOpt, passphraseOpt] := by rfl

/-- The F12 schema in normal form. -/
theorem schF12_nf :
    schF12 = [encryptedOpt, passphraseOpt, escrowcertOpt, backuppassphraseOpt] := by rfl

/-- The RHEL6 schema in normal form. -/
theorem schRHEL6_nf :
    schRHEL6 = [encryptedOpt, passphraseOpt, escrowcertOpt,
      backuppassphraseOpt, cipherOpt] := by rfl

/-- The F16 schema in normal form. -/
theorem schF16_nf :
    schF16 = [encryptedOpt, passphraseOpt, escrowcertOpt,
      backuppassphraseOpt, nolvmF16Opt] := by rfl

/-- The F17 schema in normal form: the F16 --nolvm declaration is replaced
    and --type is registered after --nolvm. -/
theorem schF17_nf (tm : List (Str × ATy)) :
    schF17 tm = [encryptedOpt, passphraseOpt, escrowcertOpt,
      backuppassphraseOpt, nolvmF17Opt, typeOpt tm] := by rfl

/-- The F18 schema in normal form. -/
theorem schF18_nf (tm : List (Str × ATy)) :
    schF18 tm = [encryptedOpt, passphraseOpt, escrowcertOpt,
      backuppassphraseOpt, nolvmF17Opt, typeOpt tm, cipherOpt] := by rfl

/-- The F21 schema in normal form. -/
theorem schF21_nf :
    schF21 = [encryptedOpt, passphraseOpt, escrowcertOpt,
      backuppassphraseOpt, nolvmF17Opt, typeOpt tmF20, cipherOpt,
      fstypeOpt] := by rfl

/-- The RHEL7 schema in normal form. -/
theorem schRHEL7_nf :
    schRHEL7 = [encryptedOpt, passphraseOpt, escrowcertOpt,
      backuppassphraseOpt, nolvmF17Opt, typeOpt tmF20, cipherOpt,
      fstypeOpt, nohomeOpt] := by rfl

/-- The F26 schema in normal form. -/
theorem schF26_nf :
    schF26 = [encryptedOpt, passphraseOpt, escrowcertOpt,
      backuppassphraseOpt, nolvmF17Opt, typeOpt tmF20, cipherOpt,
      fstypeOpt, nohomeOpt, nobootOpt, noswapOpt] := by rfl

/-- Evaluation of the F9-style parse on option success. -/
theorem ksparse_ok (sch : List OptSpec) (s : AutoPart) (ctx : Ctx)
    (args : List Str) (upd : AutoPart → AutoPart)
    (hx : optparse sch args = Except.ok upd) :
    ksparse sch s ctx args =
      ({ upd s with autopart := true }, { ctx with autopart_seen := true },
       none) := by
  simp [ksparse, hx]

/-- Evaluation of the F9-style parse on an option error. -/
theorem ksparse_err (sch : List OptSpec) (s : AutoPart) (ctx : Ctx)
    (args : List Str) (e : PErr)
    (hx : optparse sch args = Except.error e) :
    ksparse sch s ctx args = (s, ctx, some e) := by
  simp [ksparse, hx]

/-- Evaluation of the F17-style parse on option success: lvm is reset. -/
theorem ksparseF17_ok (sch : List OptSpec) (s : AutoPart) (ctx : Ctx)
    (args : List Str) (upd : AutoPart → AutoPart)
    (hx : optparse sch args = Except.ok upd) :
    ksparseF17 sch s ctx args =
      ({ upd s with autopart := true, lvm := true },
       { ctx with autopart_seen := true }, none) := by
  rw [ksparseF17, ksparse_ok sch s ctx args upd hx]

/-- Evaluation of the F17-style parse on an option error. -/
theorem ksparseF17_err (sch : List OptSpec) (s : AutoPart) (ctx : Ctx)
    (args : List Str) (e : PErr)
    (hx : optparse sch args = Except.error e) :
    ksparseF17 sch s ctx args = (s, ctx, some e) := by
  rw [ksparseF17, ksparse_err sch s ctx args e hx]

/-- The conflict scan ignores the autopart seen flag. -/
theorem conflictCmd_seen (ctx : Ctx) (b : Bool) :
    conflictCmd { ctx with autopart_seen := b } = conflictCmd ctx := rfl

/-- Evaluation of the F20-style parse on option success: the result only
    further depends on the conflict scan of the incoming context. -/
theorem ksparseF20_ok (sch : List OptSpec) (s : AutoPart) (ctx : Ctx)
    (args : List Str) (upd : AutoPart → AutoPart)
    (hx : optparse sch args = Except.ok upd) :
    ksparseF20 sch s ctx args =
      (match conflictCmd ctx with
       | some other =>
         ({ upd s with autopart := true, lvm := true },
          { ctx with autopart_seen := true },
          some (PErr.conflictingDirectives other))
       | none =>
         ({ upd s with autopart := true, lvm := true },
          { ctx with autopart_seen := true }, none)) := by
  rw [ksparseF20, ksparseF17_ok sch s ctx args upd hx]
  rw [show ({ ctx with autopart_seen := true } : Ctx).partition_seen =
        ctx.partition_seen from rfl]
  rfl

/-- Evaluation of the F20-style parse on an option error. -/
theorem ksparseF20_err (sch : List OptSpec) (s : AutoPart) (ctx : Ctx)
    (args : List Str) (e : PErr)
    (hx : optparse sch args = Except.error e) :
    ksparseF20 sch s ctx args = (s, ctx, some e) := by
  rw [ksparseF20, ksparseF17_err sch s ctx args e hx]

/-- Evaluation of the F21-style parse on option success: the F20 result,
    then the two fstype checks on the updated state. -/
theorem ksparseF21_ok (sch : List OptSpec) (s : AutoPart) (ctx : Ctx)
    (args : List Str) (upd : AutoPart → AutoPart)
    (hx : optparse sch args = Except.ok upd) :
    ksparseF21 sch s ctx args =
      (match conflictCmd ctx with
       | some other =>
         ({ upd s with autopart := true, lvm := true },
          { ctx with autopart_seen := true },
          some (PErr.conflictingDirectives other))
       | none =>
         if (upd s).fstype = ("btrfs").data then
           ({ upd s with autopart := true, lvm := true },
            { ctx with autopart_seen := true },
            some PErr.invalidOptionCombination)
         else if typeAsStr tmF20 (upd s).type = some (("btrfs").data) ∧
             (upd s).fstype ≠ [] then
           ({ upd s with autopart := true, lvm := true },
            { ctx with autopart_seen := true },
            some PErr.invalidOptionCombination)
         else
           ({ upd s with autopart := true, lvm := true },
            { ctx with autopart_seen := true }, none)) := by
  rw [ksparseF21, ksparseF20_ok sch s ctx args upd hx]
  cases conflictCmd ctx with
  | some other => rfl
  | none => rfl

/-- Evaluation of the F21-style parse on an option error. -/
theorem ksparseF21_err (sch : List OptSpec) (s : AutoPart) (ctx : Ctx)
    (args : List Str) (e : PErr)
    (hx : optparse sch args = Except.error e) :
    ksparseF21 sch s ctx args = (s, ctx, some e) := by
  rw [ksparseF21, ksparseF20_err sch s ctx args e hx]

/-- The reqpart check passes errors through unchanged. -/
theorem reqpartCheck_some (s1 : AutoPart) (c1 : Ctx) (e : PErr) :
    reqpartCheck (s1, c1, some e) = (s1, c1, some e) := rfl

/-- The reqpart check on a success inspects the reqpart seen flag. -/
theorem reqpartCheck_none (s1 : AutoPart) (c1 : Ctx) :
    reqpartCheck (s1, c1, none) =
      (if c1.reqpart_seen then
        (s1, c1, some (PErr.conflictingDirectives (("reqpart").data)))
       else (s1, c1, none)) := by
  rw [reqpartCheck]

/-- Inversion of a successful F9-style parse. -/
theorem ksparse_success (sch : List OptSpec) (s s1 : AutoPart) (ctx c1 : Ctx)
    (args : List Str) (h : ksparse sch s ctx args = (s1, c1, none)) :
    ∃ upd, optparse sch args = Except.ok upd ∧
      s1 = { upd s with autopart := true } ∧
      c1 = { ctx with autopart_seen := true } := by
  cases hx : optparse sch args with
  | error e => rw [ksparse_err sch s ctx args e hx] at h; simp at h
  | ok upd =>
    rw [ksparse_ok sch s ctx args upd hx] at h
    have h2 := h.symm
    simp only [Prod.mk.injEq] at h2
    exact ⟨upd, rfl, h2.1, h2.2.1⟩

/-- Inversion of a successful F17-style parse. -/
theorem ksparseF17_success (sch : List OptSpec) (s s1 : AutoPart)
    (ctx c1 : Ctx) (args : List Str)
    (h : ksparseF17 sch s ctx args = (s1, c1, none)) :
    ∃ upd, optparse sch args = Except.ok upd ∧
      s1 = { upd s with autopart := true, lvm := true } ∧
      c1 = { ctx with autopart_seen := true } := by
  cases hx : optparse sch args with
  | error e => rw [ksparseF17_err sch s ctx args e hx] at h; simp at h
  | ok upd =>
    rw [ksparseF17_ok sch s ctx args upd hx] at h
    have h2 := h.symm
    simp only [Prod.mk.injEq] at h2
    exact ⟨upd, rfl, h2.1, h2.2.1⟩

/-- Inversion of a successful F20-style parse: additionally the incoming
    context passes the conflict scan. -/
theorem ksparseF20_success (sch : List OptSpec) (s s1 : AutoPart)
    (ctx c1 : Ctx) (args : List Str)
    (h : ksparseF20 sch s ctx args = (s1, c1, none)) :
    ∃ upd, optparse sch args = Except.ok upd ∧
      s1 = { upd s with autopart := true, lvm := true } ∧
      c1 = { ctx with autopart_seen := true } ∧
      conflictCmd ctx = none := by
  cases hx : optparse sch args with
  | error e => rw [ksparseF20_err sch s ctx args e hx] at h; simp at h
  | ok upd =>
    rw [ksparseF20_ok sch s ctx args upd hx] at h
    cases hcc : conflictCmd ctx with
    | some other => rw [hcc] at h; simp at h
    | none =>
      rw [hcc] at h
      have h2 := h.symm
      simp only [Prod.mk.injEq] at h2
      exact ⟨upd, rfl, h2.1, h2.2.1, rfl⟩

/-- Inversion of a successful F21-style parse: additionally the fstype
    checks pass on the updated state. -/
theorem ksparseF21_success (sch : List OptSpec) (s s1 : AutoPart)
    (ctx c1 : Ctx) (args : List Str)
    (h : ksparseF21 sch s ctx args = (s1, c1, none)) :
    ∃ upd, optparse sch args = Except.ok upd ∧
      s1 = { upd s with autopart := true, lvm := true } ∧
      c1 = { ctx with autopart_seen := true } ∧
      conflictCmd ctx = none ∧
      (upd s).fstype ≠ ("btrfs").data ∧
      ¬(typeAsStr tmF20 (upd s).type = some (("btrfs").data) ∧
        (upd s).fstype ≠ []) := by
  cases hx : optparse sch args with
  | error e => rw [ksparseF21_err sch s ctx args e hx] at h; simp at h
  | ok upd =>
    rw [ksparseF21_ok sch s ctx args upd hx] at h
    cases hcc : conflictCmd ctx with
    | some other => rw [hcc] at h; simp at h
    | none =>
      simp only [hcc] at h
      split at h
      · simp at h
      · rename_i hf
        split at h
        · simp at h
        · rename_i hg
          have h2 := h.symm
          simp only [Prod.mk.injEq] at h2
          exact ⟨upd, rfl, h2.1, h2.2.1, rfl, hf, hg⟩

/-- Inversion of a successful parse with the trailing reqpart check:
    additionally the reqpart directive has not been seen. -/
theorem reqpartF21_success (sch : List OptSpec) (s s1 : AutoPart)
    (ctx c1 : Ctx) (args : List Str)
    (h : reqpartCheck (ksparseF21 sch s ctx args) = (s1, c1, none)) :
    ksparseF21 sch s ctx args = (s1, c1, none) ∧ c1.reqpart_seen = false := by
  rcases hr : ksparseF21 sch s ctx args with ⟨s2, c2, e2⟩
  rw [hr] at h
  cases e2 with
  | some e =>
    rw [reqpartCheck_some] at h
    simp at h
  | none =>
    rw [reqpartCheck_none] at h
    split at h
    · simp at h
    · rename_i hq
      have h2 := h.symm
      simp only [Prod.mk.injEq] at h2
      obtain ⟨hs, hc, -⟩ := h2
      subst hs
      subst hc
      exact ⟨rfl, by simpa using hq⟩

/-- A mapM failure over Except comes from a failing element. -/
theorem mapM_error_mem {α β : Type} (f : α → Except PErr β) (l : List α)
    (e : PErr) (h : l.mapM f = Except.error e) :
    ∃ a ∈ l, f a = Except.error e := by
  induction l with
  | nil => simp [List.mapM, List.mapM.loop, pure, Except.pure] at h
  | cons a l ih =>
    rw [List.mapM_cons] at h
    cases hfa : f a with
    | error ea =>
      rw [hfa] at h
      simp only [Bind.bind, Except.bind] at h
      simp only [Except.error.injEq] at h
      exact ⟨a, List.mem_cons_self a l, by rw [hfa, h]⟩
    | ok b =>
      rw [hfa] at h
      simp only [Bind.bind, Except.bind] at h
      cases hrest : l.mapM f with
      | error er =>
        rw [hrest] at h
        simp only [Bind.bind, Except.bind, Except.error.injEq] at h
        obtain ⟨a2, ha2, hfa2⟩ := ih (by rw [hrest, h])
        exact ⟨a2, List.mem_cons_of_mem a ha2, hfa2⟩
      | ok bs =>
        rw [hrest] at h
        simp [Bind.bind, Except.bind, pure, Except.pure] at h

/-- A token resolution failure is an unexpected argument or an unknown
    option. -/
theorem matchTok_err (sch : List OptSpec) (t : Str) (e : PErr)
    (h : matchTok sch t = Except.error e) :
    e = PErr.unexpectedArgument ∨ ∃ nm, e = PErr.unknownOption nm := by
  unfold matchTok at h
  split at h
  · split at h
    · simp at h
    · simp only [Except.error.injEq] at h
      exact Or.inr ⟨_, h.symm⟩
  · simp only [Except.error.injEq] at h
    exact Or.inl h.symm

/-- A scan failure is an unexpected argument or an unknown option. -/
theorem scan_err (sch : List OptSpec) (args : List Str) (e : PErr)
    (h : scan sch args = Except.error e) :
    e = PErr.unexpectedArgument ∨ ∃ nm, e = PErr.unknownOption nm := by
  obtain ⟨t, -, ht⟩ := mapM_error_mem (matchTok sch) args e h
  exact matchTok_err sch t e ht

/-- Tameness of a schema: its per-option coercion failures are always
    InvalidOptionValue errors. -/
def TameSch (sch : List OptSpec) : Prop :=
  ∀ o ∈ sch, ∀ v err, o.applyTok v = Except.error err →
    ∃ nm, err = PErr.invalidOptionValue nm

/-- An optparse failure over a tame schema is an unexpected argument, an
    unknown option, or an invalid option value: never a
    ConflictingDirectives or InvalidOptionCombination error. -/
theorem optparse_err_shape (sch : List OptSpec) (args : List Str) (e : PErr)
    (hs : TameSch sch) (h : optparse sch args = Except.error e) :
    e = PErr.unexpectedArgument ∨ (∃ nm, e = PErr.unknownOption nm) ∨
      ∃ nm, e = PErr.invalidOptionValue nm := by
  unfold optparse at h
  cases hscan : scan sch args with
  | error es =>
    rw [hscan] at h
    simp only [Bind.bind, Except.bind, Except.error.injEq] at h
    rcases scan_err sch args e (by rw [hscan, h]) with h1 | h2
    · exact Or.inl h1
    · exact Or.inr (Or.inl h2)
  | ok occs =>
    rw [hscan] at h
    simp only [Bind.bind, Except.bind] at h
    cases hmap : sch.mapM (fun o =>
        match lastOcc o.name occs with
        | none => Except.ok (fun s => s)
        | some v => o.applyTok v) with
    | error em =>
      rw [hmap] at h
      simp only [Except.error.injEq] at h
      obtain ⟨o, ho, hfo⟩ := mapM_error_mem _ sch em hmap
      revert hfo
      split
      · intro hfo; simp at hfo
      · intro hfo
        obtain ⟨nm, hnm⟩ := hs o ho _ em hfo
        exact Or.inr (Or.inr ⟨nm, by rw [← h, hnm]⟩)
    | ok ups =>
      rw [hmap] at h
      simp [pure, Except.pure] at h

/-- Every option declared in autopart.py is tame: its only coercion error
    is InvalidOptionValue. -/
theorem tame_opt (o : OptSpec)
    (ho : o ∈ [encryptedOpt, passphraseOpt, escrowcertOpt,
      backuppassphraseOpt, cipherOpt, nolvmF16Opt, nolvmF17Opt,
      typeOpt tmF17, typeOpt tmF20, fstypeOpt, nohomeOpt, nobootOpt,
      noswapOpt]) :
    ∀ v err, o.applyTok v = Except.error err →
      ∃ nm, err = PErr.invalidOptionValue nm := by
  intro v err h
  simp only [List.mem_cons, List.not_mem_nil, or_false] at ho
  rcases ho with rfl | rfl | rfl | rfl | rfl | rfl | rfl | rfl | rfl | rfl | rfl | rfl | rfl <;>
    cases v <;>
      first
        | exact Except.noConfusion h
        | (injection h with h2; exact ⟨_, h2.symm⟩)
        | (simp only [typeOpt] at h
           split at h
           · exact Except.noConfusion h
           · injection h with h2
             exact ⟨_, h2.symm⟩)

/-- The schema of every version class is tame. -/
theorem tame_schOf (c : Cls) : TameSch (schOf c) := by
  intro o ho
  apply tame_opt
  cases c <;>
    simp only [schOf, schF9_nf, schF12_nf, schRHEL6_nf, schF16_nf,
      schF17_nf, schF18_nf, schF21_nf, schRHEL7_nf, schF26_nf,
      List.mem_cons, List.not_mem_nil, or_false] at ho ⊢ <;>
    tauto

/-- Inversion of an F9-style parse that stopped with an error: the state
    and context are untouched and the error came from the option pass. -/
theorem ksparse_err_inv (sch : List OptSpec) (s s1 : AutoPart)
    (ctx c1 : Ctx) (args : List Str) (e : PErr)
    (h : ksparse sch s ctx args = (s1, c1, some e)) :
    optparse sch args = Except.error e ∧ s1 = s ∧ c1 = ctx := by
  cases hx : optparse sch args with
  | error e2 =>
    rw [ksparse_err sch s ctx args e2 hx] at h
    have h2 := h.symm
    simp only [Prod.mk.injEq, Option.some.injEq] at h2
    exact ⟨by rw [h2.2.2], h2.1, h2.2.1⟩
  | ok upd =>
    rw [ksparse_ok sch s ctx args upd hx] at h
    simp at h

/-- An F9-style parse over a tame schema never raises
    ConflictingDirectives. -/
theorem ksparse_no_conflict (sch : List OptSpec) (s s1 : AutoPart)
    (ctx c1 : Ctx) (args : List Str) (w : Str) (hs : TameSch sch)
    (h : ksparse sch s ctx args = (s1, c1, some (PErr.conflictingDirectives w))) :
    False := by
  obtain ⟨hx, -, -⟩ := ksparse_err_inv sch s s1 ctx c1 args _ h
  rcases optparse_err_shape sch args _ hs hx with h1 | ⟨nm, h1⟩ | ⟨nm, h1⟩ <;>
    exact PErr.noConfusion h1

/-- Inversion of an F17-style parse that stopped with an error. -/
theorem ksparseF17_err_inv (sch : List OptSpec) (s s1 : AutoPart)
    (ctx c1 : Ctx) (args : List Str) (e : PErr)
    (h : ksparseF17 sch s ctx args = (s1, c1, some e)) :
    optparse sch args = Except.error e ∧ s1 = s ∧ c1 = ctx := by
  cases hx : optparse sch args with
  | error e2 =>
    rw [ksparseF17_err sch s ctx args e2 hx] at h
    have h2 := h.symm
    simp only [Prod.mk.injEq, Option.some.injEq] at h2
    exact ⟨by rw [h2.2.2], h2.1, h2.2.1⟩
  | ok upd =>
    rw [ksparseF17_ok sch s ctx args upd hx] at h
    simp at h

/-- An F17-style parse over a tame schema never raises
    ConflictingDirectives. -/
theorem ksparseF17_no_conflict (sch : List OptSpec) (s s1 : AutoPart)
    (ctx c1 : Ctx) (args : List Str) (w : Str) (hs : TameSch sch)
    (h : ksparseF17 sch s ctx args =
      (s1, c1, some (PErr.conflictingDirectives w))) :
    False := by
  obtain ⟨hx, -, -⟩ := ksparseF17_err_inv sch s s1 ctx c1 args _ h
  rcases optparse_err_shape sch args _ hs hx with h1 | ⟨nm, h1⟩ | ⟨nm, h1⟩ <;>
    exact PErr.noConfusion h1

/-- Inversion of an F20-style parse that raised ConflictingDirectives: the
    option pass succeeded and its state updates stand, present and seen
    included. -/
theorem ksparseF20_conflict (sch : List OptSpec) (s s1 : AutoPart)
    (ctx c1 : Ctx) (args : List Str) (w : Str) (hs : TameSch sch)
    (h : ksparseF20 sch s ctx args =
      (s1, c1, some (PErr.conflictingDirectives w))) :
    ∃ upd, optparse sch args = Except.ok upd ∧
      s1 = { upd s with autopart := true, lvm := true } ∧
      c1 = { ctx with autopart_seen := true } := by
  cases hx : optparse sch args with
  | error e =>
    rw [ksparseF20_err sch s ctx args e hx] at h
    have h2 := h.symm
    simp only [Prod.mk.injEq, Option.some.injEq] at h2
    rcases optparse_err_shape sch args e hs hx with h1 | ⟨nm, h1⟩ | ⟨nm, h1⟩ <;>
      rw [h1] at h2 <;> exact absurd h2.2.2 (by simp)
  | ok upd =>
    rw [ksparseF20_ok sch s ctx args upd hx] at h
    cases hcc : conflictCmd ctx with
    | some other =>
      rw [hcc] at h
      have h2 := h.symm
      simp only [Prod.mk.injEq, Option.some.injEq] at h2
      exact ⟨upd, rfl, h2.1, h2.2.1⟩
    | none =>
      rw [hcc] at h
      simp at h

/-- Inversion of an F21-style parse that raised ConflictingDirectives. -/
theorem ksparseF21_conflict (sch : List OptSpec) (s s1 : AutoPart)
    (ctx c1 : Ctx) (args : List Str) (w : Str) (hs : TameSch sch)
    (h : ksparseF21 sch s ctx args =
      (s1, c1, some (PErr.conflictingDirectives w))) :
    ∃ upd, optparse sch args = Except.ok upd ∧
      s1 = { upd s with autopart := true, lvm := true } ∧
      c1 = { ctx with autopart_seen := true } := by
  cases hx : optparse sch args with
  | error e =>
    rw [ksparseF21_err sch s ctx args e hx] at h
    have h2 := h.symm
    simp only [Prod.mk.injEq, Option.some.injEq] at h2
    rcases optparse_err_shape sch args e hs hx with h1 | ⟨nm, h1⟩ | ⟨nm, h1⟩ <;>
      rw [h1] at h2 <;> exact absurd h2.2.2 (by simp)
  | ok upd =>
    rw [ksparseF21_ok sch s ctx args upd hx] at h
    cases hcc : conflictCmd ctx with
    | some other =>
      rw [hcc] at h
      have h2 := h.symm
      simp only [Prod.mk.injEq, Option.some.injEq] at h2
      exact ⟨upd, rfl, h2.1, h2.2.1⟩
    | none =>
      simp only [hcc] at h
      split at h
      · simp at h
      · split at h
        · simp at h
        · simp at h

/-- Inversion of a parse with the trailing reqpart check that raised
    ConflictingDirectives. -/
theorem reqpartF21_conflict (sch : List OptSpec) (s s1 : AutoPart)
    (ctx c1 : Ctx) (args : List Str) (w : Str) (hs : TameSch sch)
    (h : reqpartCheck (ksparseF21 sch s ctx args) =
      (s1, c1, some (PErr.conflictingDirectives w))) :
    ∃ upd, optparse sch args = Except.ok upd ∧
      s1 = { upd s with autopart := true, lvm := true } ∧
      c1 = { ctx with autopart_seen := true } := by
  rcases hr : ksparseF21 sch s ctx args with ⟨s2, c2, e2⟩
  rw [hr] at h
  cases e2 with
  | some e =>
    rw [reqpartCheck_some] at h
    have h2 := h.symm
    simp only [Prod.mk.injEq, Option.some.injEq] at h2
    obtain ⟨hs1, hc1, he⟩ := h2
    subst hs1; subst hc1
    exact ksparseF21_conflict sch s s1 ctx c1 args w hs (by rw [hr, he])
  | none =>
    rw [reqpartCheck_none] at h
    split at h
    · rename_i hq
      have h2 := h.symm
      simp only [Prod.mk.injEq, Option.some.injEq] at h2
      obtain ⟨hs1, hc1, -⟩ := h2
      subst hs1; subst hc1
      obtain ⟨upd, hx, hs2, hc2⟩ := ksparseF21_success sch s s1 ctx c1 args hr
      exact ⟨upd, hx, hs2, hc2.1⟩
    · simp at h

/-- Evaluation of the RHEL6 parse on option success. -/
theorem RHEL6_parse_ok (s : AutoPart) (ctx : Ctx) (args : List Str)
    (upd : AutoPart → AutoPart)
    (hx : optparse schRHEL6 args = Except.ok upd) :
    RHEL6_parse s ctx args =
      (match conflictCmd ctx with
       | some other =>
         ({ upd s with autopart := true },
          { ctx with autopart_seen := true },
          some (PErr.conflictingDirectives other))
       | none =>
         ({ upd s with autopart := true },
          { ctx with autopart_seen := true }, none)) := by
  rw [RHEL6_parse, ksparse_ok schRHEL6 s ctx args upd hx]
  rfl

/-- Evaluation of the RHEL6 parse on an option error. -/
theorem RHEL6_parse_err (s : AutoPart) (ctx : Ctx) (args : List Str)
    (e : PErr) (hx : optparse schRHEL6 args = Except.error e) :
    RHEL6_parse s ctx args = (s, ctx, some e) := by
  rw [RHEL6_parse, ksparse_err schRHEL6 s ctx args e hx]

/-- Inversion of a successful RHEL6 parse. -/
theorem RHEL6_success (s s1 : AutoPart) (ctx c1 : Ctx) (args : List Str)
    (h : RHEL6_parse s ctx args = (s1, c1, none)) :
    ∃ upd, optparse schRHEL6 args = Except.ok upd ∧
      s1 = { upd s with autopart := true } ∧
      c1 = { ctx with autopart_seen := true } ∧
      conflictCmd ctx = none := by
  cases hx : optparse schRHEL6 args with
  | error e => rw [RHEL6_parse_err s ctx args e hx] at h; simp at h
  | ok upd =>
    rw [RHEL6_parse_ok s ctx args upd hx] at h
    cases hcc : conflictCmd ctx with
    | some other => rw [hcc] at h; simp at h
    | none =>
      rw [hcc] at h
      have h2 := h.symm
      simp only [Prod.mk.injEq] at h2
      exact ⟨upd, rfl, h2.1, h2.2.1, rfl⟩

/-- Inversion of a RHEL6 parse that raised ConflictingDirectives. -/
theorem RHEL6_conflict (s s1 : AutoPart) (ctx c1 : Ctx) (args : List Str)
    (w : Str) (hs : TameSch schRHEL6)
    (h : RHEL6_parse s ctx args = (s1, c1, some (PErr.conflictingDirectives w))) :
    ∃ upd, optparse schRHEL6 args = Except.ok upd ∧
      s1 = { upd s with autopart := true } ∧
      c1 = { ctx with autopart_seen := true } := by
  cases hx : optparse schRHEL6 args with
  | error e =>
    rw [RHEL6_parse_err s ctx args e hx] at h
    have h2 := h.symm
    simp only [Prod.mk.injEq, Option.some.injEq] at h2
    rcases optparse_err_shape schRHEL6 args e hs hx with h1 | ⟨nm, h1⟩ | ⟨nm, h1⟩ <;>
      rw [h1] at h2 <;> exact absurd h2.2.2 (by simp)
  | ok upd =>
    rw [RHEL6_parse_ok s ctx args upd hx] at h
    cases hcc : conflictCmd ctx with
    | some other =>
      rw [hcc] at h
      have h2 := h.symm
      simp only [Prod.mk.injEq, Option.some.injEq] at h2
      exact ⟨upd, rfl, h2.1, h2.2.1⟩
    | none =>
      rw [hcc] at h
      simp at h

/-- C5: whenever a parse aborts with ConflictingDirectives, the state has
    already been mutated: present (autopart) is true, the directive is
    recorded as seen in the Document Context, and every supplied option has
    been applied (the state equals the option pass result followed by the
    post-parse mutations of the class).  Parse is observably non-atomic on
    this error. -/
theorem c5_conflict_error_nonatomic (c : Cls) (s s1 : AutoPart)
    (ctx c1 : Ctx) (args : List Str) (w : Str)
    (h : ksParse c s ctx args = (s1, c1, some (PErr.conflictingDirectives w))) :
    s1.autopart = true ∧ c1.autopart_seen = true ∧
    ∃ upd, optparse (schOf c) args = Except.ok upd ∧
      s1 = postParse c (upd s) := by
  cases c with
  | FC3 =>
    simp only [ksParse, FC3_parse] at h
    split at h <;> simp at h
  | F9 =>
    simp only [ksParse] at h
    exact (ksparse_no_conflict _ s s1 ctx c1 args w (tame_schOf Cls.F9) h).elim
  | F12 =>
    simp only [ksParse] at h
    exact (ksparse_no_conflict _ s s1 ctx c1 args w (tame_schOf Cls.F12) h).elim
  | F16 =>
    simp only [ksParse] at h
    exact (ksparse_no_conflict _ s s1 ctx c1 args w (tame_schOf Cls.F16) h).elim
  | F17 =>
    simp only [ksParse] at h
    exact (ksparseF17_no_conflict _ s s1 ctx c1 args w (tame_schOf Cls.F17) h).elim
  | F18 =>
    simp only [ksParse] at h
    exact (ksparseF17_no_conflict _ s s1 ctx c1 args w (tame_schOf Cls.F18) h).elim
  | RHEL6 =>
    simp only [ksParse] at h
    obtain ⟨upd, hx, hs1, hc1⟩ :=
      RHEL6_conflict s s1 ctx c1 args w (tame_schOf Cls.RHEL6) h
    subst hs1; subst hc1
    exact ⟨rfl, rfl, upd, hx, by simp [postParse, rank]⟩
  | F20 =>
    simp only [ksParse] at h
    obtain ⟨upd, hx, hs1, hc1⟩ :=
      ksparseF20_conflict _ s s1 ctx c1 args w (tame_schOf Cls.F20) h
    subst hs1; subst hc1
    exact ⟨rfl, rfl, upd, hx, by simp [postParse, rank]⟩
  | F21 =>
    simp only [ksParse] at h
    obtain ⟨upd, hx, hs1, hc1⟩ :=
      ksparseF21_conflict _ s s1 ctx c1 args w (tame_schOf Cls.F21) h
    subst hs1; subst hc1
    exact ⟨rfl, rfl, upd, hx, by simp [postParse, rank]⟩
  | RHEL7 =>
    simp only [ksParse] at h
    obtain ⟨upd, hx, hs1, hc1⟩ :=
      reqpartF21_conflict _ s s1 ctx c1 args w (tame_schOf Cls.RHEL7) h
    subst hs1; subst hc1
    exact ⟨rfl, rfl, upd, hx, by simp [postParse, rank]⟩
  | F23 =>
    simp only [ksParse] at h
    obtain ⟨upd, hx, hs1, hc1⟩ :=
      reqpartF21_conflict _ s s1 ctx c1 args w (tame_schOf Cls.F23) h
    subst hs1; subst hc1
    exact ⟨rfl, rfl, upd, hx, by simp [postParse, rank]⟩
  | F26 =>
    simp only [ksParse] at h
    obtain ⟨upd, hx, hs1, hc1⟩ :=
      reqpartF21_conflict _ s s1 ctx c1 args w (tame_schOf Cls.F26) h
    subst hs1; subst hc1
    exact ⟨rfl, rfl, upd, hx, by simp [postParse, rank]⟩

/-- C5 witness: at F20 with partition seen, parsing autopart --encrypted
    aborts with ConflictingDirectives while the state carries both
    autopart = true and encrypted = true, and the context carries the
    autopart seen flag. -/
theorem c5_conflict_error_nonatomic_witness :
    ({ autopart := true, encrypted := true, lvm := true } : AutoPart).autopart
        = true ∧
    ({ partition_seen := true, autopart_seen := true } : Ctx).autopart_seen
        = true ∧
    ∃ upd, optparse (schOf Cls.F20) [("--encrypted").data] = Except.ok upd ∧
      ({ autopart := true, encrypted := true, lvm := true } : AutoPart) =
        postParse Cls.F20 (upd initS) :=
  c5_conflict_error_nonatomic Cls.F20 initS
    { autopart := true, encrypted := true, lvm := true }
    { initCtx with partition_seen := true }
    { partition_seen := true, autopart_seen := true }
    [("--encrypted").data] (("part/partition").data) (by decide)

/-- C10: under F17 and every later class, each successful parse leaves
    lvm = true (parse resets it after option processing, even when --nolvm
    was supplied), so serialization never emits --nolvm; a --nolvm input is
    reflected through the type attribute and written back as
    autopart --type=plain. -/
theorem c10_lvm_reset (c : Cls) (hc : 5 ≤ rank c) :
    (∀ s ctx args s1 c1,
      ksParse c s ctx args = (s1, c1, none) → s1.lvm = true) ∧
    ksStr c (ksParse c initS initCtx [("--nolvm").data]).1 =
      ("autopart --type=plain\n").data ∧
    (ksParse c initS initCtx [("--nolvm").data]).2.2 = none := by
  refine ⟨?_, ?_, ?_⟩
  · intro s ctx args s1 c1 h
    cases c with
    | FC3 => simp [rank] at hc
    | F9 => simp [rank] at hc
    | F12 => simp [rank] at hc
    | RHEL6 => simp [rank] at hc
    | F16 => simp [rank] at hc
    | F17 =>
      simp only [ksParse] at h
      obtain ⟨upd, -, hs1, -⟩ := ksparseF17_success _ s s1 ctx c1 args h
      subst hs1; rfl
    | F18 =>
      simp only [ksParse] at h
      obtain ⟨upd, -, hs1, -⟩ := ksparseF17_success _ s s1 ctx c1 args h
      subst hs1; rfl
    | F20 =>
      simp only [ksParse] at h
      obtain ⟨upd, -, hs1, -⟩ := ksparseF20_success _ s s1 ctx c1 args h
      subst hs1; rfl
    | F21 =>
      simp only [ksParse] at h
      obtain ⟨upd, -, hs1, -⟩ := ksparseF21_success _ s s1 ctx c1 args h
      subst hs1; rfl
    | RHEL7 =>
      simp only [ksParse] at h
      obtain ⟨hr, -⟩ := reqpartF21_success _ s s1 ctx c1 args h
      obtain ⟨upd, -, hs1, -⟩ := ksparseF21_success _ s s1 ctx c1 args hr
      subst hs1; rfl
    | F23 =>
      simp only [ksParse] at h
      obtain ⟨hr, -⟩ := reqpartF21_success _ s s1 ctx c1 args h
      obtain ⟨upd, -, hs1, -⟩ := ksparseF21_success _ s s1 ctx c1 args hr
      subst hs1; rfl
    | F26 =>
      simp only [ksParse] at h
      obtain ⟨hr, -⟩ := reqpartF21_success _ s s1 ctx c1 args h
      obtain ⟨upd, -, hs1, -⟩ := ksparseF21_success _ s s1 ctx c1 args hr
      subst hs1; rfl
  · cases c <;> first | decide | simp [rank] at hc
  · cases c <;> first | decide | simp [rank] at hc

/-- C10 witness: at F17 the --nolvm input serializes back as
    autopart --type=plain, and the parse succeeds. -/
theorem c10_lvm_reset_witness :
    ksStr Cls.F17 (ksParse Cls.F17 initS initCtx [("--nolvm").data]).1 =
      ("autopart --type=plain\n").data ∧
    (ksParse Cls.F17 initS initCtx [("--nolvm").data]).2.2 = none :=
  (c10_lvm_reset Cls.F17 (by decide)).2

/-- A string without line terminators. -/
abbrev NLFree (l : Str) : Prop := '\n' ∉ l

/-- dropWhile does not touch a final element the predicate rejects. -/
theorem dropWhile_concat_of_neg {p : Char → Bool} (xs : Str) (a : Char)
    (h : p a = false) : (xs ++ [a]).dropWhile p = xs.dropWhile p ++ [a] := by
  induction xs with
  | nil => simp [List.dropWhile, h]
  | cons x xs ih =>
    by_cases hx : p x
    · simp [List.dropWhile_cons, hx, ih]
    · simp [List.dropWhile_cons, hx]

/-- rstrip keeps a trailing non-whitespace character. -/
theorem rstrip_concat_nonspace (xs : Str) (a : Char)
    (h : isPySpace a = false) : rstrip (xs ++ [a]) = xs ++ [a] := by
  unfold rstrip
  rw [List.reverse_append]
  simp [List.dropWhile_cons, h]

/-- rstrip drops a trailing whitespace character. -/
theorem rstrip_concat_space (xs : Str) (a : Char)
    (h : isPySpace a = true) : rstrip (xs ++ [a]) = rstrip xs := by
  unfold rstrip
  rw [List.reverse_append]
  simp [List.dropWhile_cons, h, rstrip]

/-- rstrip keeps a leading non-whitespace character. -/
theorem rstrip_cons_nonspace (c : Char) (t : Str)
    (h : isPySpace c = false) : rstrip (c :: t) = c :: rstrip t := by
  unfold rstrip
  rw [List.reverse_cons, dropWhile_concat_of_neg _ _ h]
  simp

/-- Membership in an rstrip result carries to the original string. -/
theorem mem_rstrip {x : Char} {l : Str} (h : x ∈ rstrip l) : x ∈ l := by
  unfold rstrip at h
  rw [List.mem_reverse] at h
  have h2 := List.Sublist.mem h (List.dropWhile_sublist isPySpace)
  exact List.mem_reverse.mp h2

/-- lstrip keeps a string with a leading non-whitespace character. -/
theorem lstrip_cons_nonspace (c : Char) (t : Str)
    (h : isPySpace c = false) : lstrip (c :: t) = c :: t := by
  simp [lstrip, List.dropWhile_cons, h]

/-- A serialized directive line: a newline-free body starting with the
    letter a of the autopart keyword, and exactly one trailing newline. -/
def GoodLine (l : Str) : Prop :=
  ∃ t : Str, l = t ++ [ '\n' ] ∧ NLFree t ∧ t.head? = some 'a'

/-- A string whose optional head is the letter a splits off that head. -/
theorem head_eq_cons {t : Str} (h : t.head? = some 'a') :
    ∃ t2, t = 'a' :: t2 := by
  cases t with
  | nil => simp at h
  | cons c t2 =>
    simp only [List.head?_cons, Option.some.injEq] at h
    exact ⟨t2, by rw [h]⟩

/-- Stripping a keyword-headed line removes exactly the trailing newline
    (plus any trailing whitespace of the body). -/
theorem pyStrip_goodline (t : Str) :
    pyStrip (('a' :: t) ++ [ '\n' ]) = 'a' :: rstrip t := by
  unfold pyStrip
  rw [List.cons_append, lstrip_cons_nonspace _ _ (by decide),
    rstrip_cons_nonspace _ _ (by decide),
    rstrip_concat_space _ _ (by decide)]

/-- The strip-append-reappend step of every serializer layer preserves the
    good line shape when the appended fragment is newline-free. -/
theorem goodline_step (l frag : Str) (hl : GoodLine l) (hfrag : NLFree frag) :
    GoodLine (pyStrip l ++ frag ++ [ '\n' ]) := by
  obtain ⟨t, rfl, hnl, hh⟩ := hl
  obtain ⟨t2, rfl⟩ := head_eq_cons hh
  rw [pyStrip_goodline]
  refine ⟨('a' :: rstrip t2) ++ frag, by simp, ?_, rfl⟩
  intro hmem
  rcases List.mem_append.mp hmem with h | h
  · rcases List.mem_cons.mp h with h | h
    · exact absurd h (by decide)
    · exact hnl (List.mem_cons_of_mem _ (mem_rstrip h))
  · exact hfrag h

/-- The newline literal as a singleton list. -/
theorem nl_data : ("\n").data = [ '\n' ] := rfl

/-- Concatenation preserves freedom from newlines. -/
theorem NLFree_append (a b : Str) (ha : NLFree a) (hb : NLFree b) :
    NLFree (a ++ b) := by
  intro h
  rcases List.mem_append.mp h with h | h
  · exact ha h
  · exact hb h

/-- The F9 serializer produces a good line on present states with a
    newline-free passphrase. -/
theorem gl_F9 (s : AutoPart) (ha : s.autopart = true)
    (hp : NLFree s.passphrase) : GoodLine (F9_str s) := by
  unfold F9_str kickstartCommand_str
  simp only [ha, not_true_eq_false, if_false, List.nil_append]
  by_cases he : s.encrypted = true
  · rw [if_pos he]
    by_cases hpe : s.passphrase = []
    · rw [if_neg (by simp [hpe])]
      exact ⟨("autopart").data ++ (" --encrypted").data,
        by simp [nl_data, List.append_assoc], by decide, rfl⟩
    · rw [if_pos hpe]
      refine ⟨("autopart").data ++ (" --encrypted").data ++
        (" --passphrase=\"").data ++ s.passphrase ++ ("\"").data,
        by simp [nl_data, List.append_assoc], ?_, rfl⟩
      refine NLFree_append _ _ (NLFree_append _ _ (NLFree_append _ _
        (NLFree_append _ _ (by decide) (by decide)) (by decide)) hp)
        (by decide)
  · rw [if_neg he]
    exact ⟨("autopart").data, by simp [nl_data], by decide, rfl⟩

/-- The F12 serializer layer preserves the good line shape. -/
theorem gl_F12 (s : AutoPart) (ha : s.autopart = true)
    (hp : NLFree s.passphrase) (he2 : NLFree s.escrowcert) :
    GoodLine (F12_str s) := by
  have h9 := gl_F9 s ha hp
  unfold F12_str
  simp only [ha, not_true_eq_false, if_false]
  by_cases hg : s.encrypted = true ∧ s.escrowcert ≠ []
  · rw [if_pos hg]
    by_cases hb : s.backuppassphrase = true
    · rw [if_pos hb]
      have hstep := goodline_step (F9_str s)
        ((" --escrowcert=\"").data ++ s.escrowcert ++ ("\"").data ++
          (" --backuppassphrase").data) h9
        (by intro hm
            simp +decide [List.mem_append, List.mem_cons] at hm
            exact he2 hm)
      simpa [nl_data, List.append_assoc] using hstep
    · rw [if_neg hb]
      have hstep := goodline_step (F9_str s)
        ((" --escrowcert=\"").data ++ s.escrowcert ++ ("\"").data) h9
        (by intro hm
            simp +decide [List.mem_append, List.mem_cons] at hm
            exact he2 hm)
      simpa [nl_data, List.append_assoc] using hstep
  · rw [if_neg hg]
    exact h9

/-- The RHEL6 serializer layer preserves the good line shape. -/
theorem gl_RHEL6 (s : AutoPart) (ha : s.autopart = true)
    (hp : NLFree s.passphrase) (he2 : NLFree s.escrowcert)
    (hcp : NLFree s.cipher) : GoodLine (RHEL6_str s) := by
  have h12 := gl_F12 s ha hp he2
  unfold RHEL6_str
  simp only [ha, not_true_eq_false, if_false]
  by_cases hg : s.encrypted = true ∧ s.cipher ≠ []
  · rw [if_pos hg]
    have hstep := goodline_step (F12_str s)
      ((" --cipher=\"").data ++ s.cipher ++ ("\"").data) h12
      (by intro hm
          simp +decide [List.mem_append, List.mem_cons] at hm
          exact hcp hm)
    simpa [nl_data, List.append_assoc,
      show ("\"\n").data = ("\"").data ++ [ '\n' ] from rfl] using hstep
  · rw [if_neg hg]
    exact h12

/-- The F16 serializer layer preserves the good line shape. -/
theorem gl_F16 (s : AutoPart) (ha : s.autopart = true)
    (hp : NLFree s.passphrase) (he2 : NLFree s.escrowcert) :
    GoodLine (F16_str s) := by
  have h12 := gl_F12 s ha hp he2
  unfold F16_str
  simp only [ha, not_true_eq_false, if_false]
  by_cases hg : s.lvm = true
  · rw [if_neg (by simp [hg])]
    exact h12
  · rw [if_pos (by simpa using hg)]
    have hstep := goodline_step (F12_str s) ((" --nolvm").data) h12 (by decide)
    simpa [List.append_assoc,
      show (" --nolvm\n").data = (" --nolvm").data ++ [ '\n' ] from rfl]
      using hstep

/-- Keys delivered by _typeAsStr over the F17 typeMap are newline-free. -/
theorem typeAsStr_nlfree17 (t : Option ATy) (ty : Str)
    (h : typeAsStr tmF17 t = some ty) : NLFree ty := by
  rcases t with _ | v
  · simp [typeAsStr] at h
  · cases v <;>
      first
        | exact Option.noConfusion h
        | (injection h with h2; rw [← h2]; decide)

/-- Keys delivered by _typeAsStr over the F20 typeMap are newline-free. -/
theorem typeAsStr_nlfree20 (t : Option ATy) (ty : Str)
    (h : typeAsStr tmF20 t = some ty) : NLFree ty := by
  rcases t with _ | v
  · simp [typeAsStr] at h
  · cases v <;>
      (injection h with h2; rw [← h2]; decide)

/-- The F17 serializer layer preserves the good line shape, for the two
    typeMaps in use. -/
theorem gl_F17 (tm : List (Str × ATy)) (s : AutoPart)
    (ha : s.autopart = true) (hp : NLFree s.passphrase)
    (he2 : NLFree s.escrowcert)
    (htm : ∀ t ty, typeAsStr tm t = some ty → NLFree ty) :
    GoodLine (F17_str tm s) := by
  have h16 := gl_F16 s ha hp he2
  unfold F17_str
  simp only [ha, not_true_eq_false, if_false]
  cases hty : typeAsStr tm s.type with
  | none => exact h16
  | some ty =>
    have hstep := goodline_step (F16_str s) ((" --type=").data ++ ty) h16
      (by
        have hfree := htm s.type ty hty
        intro hm
        simp +decide [List.mem_append, List.mem_cons] at hm
        exact hfree hm)
    simpa [nl_data, List.append_assoc] using hstep

/-- The F18 serializer layer preserves the good line shape. -/
theorem gl_F18 (tm : List (Str × ATy)) (s : AutoPart)
    (ha : s.autopart = true) (hp : NLFree s.passphrase)
    (he2 : NLFree s.escrowcert) (hcp : NLFree s.cipher)
    (htm : ∀ t ty, typeAsStr tm t = some ty → NLFree ty) :
    GoodLine (F18_str tm s) := by
  have h17 := gl_F17 tm s ha hp he2 htm
  unfold F18_str
  simp only [ha, not_true_eq_false, if_false]
  by_cases hg : s.encrypted = true ∧ s.cipher ≠ []
  · rw [if_pos hg]
    have hstep := goodline_step (F17_str tm s)
      ((" --cipher=\"").data ++ s.cipher ++ ("\"").data) h17
      (by intro hm
          simp +decide [List.mem_append, List.mem_cons] at hm
          exact hcp hm)
    simpa [List.append_assoc,
      show ("\"\n").data = ("\"").data ++ [ '\n' ] from rfl] using hstep
  · rw [if_neg hg]
    exact h17

/-- The F21 serializer layer preserves the good line shape. -/
theorem gl_F21 (tm : List (Str × ATy)) (s : AutoPart)
    (ha : s.autopart = true) (hp : NLFree s.passphrase)
    (he2 : NLFree s.escrowcert) (hcp : NLFree s.cipher)
    (hft : NLFree s.fstype)
    (htm : ∀ t ty, typeAsStr tm t = some ty → NLFree ty) :
    GoodLine (F21_str tm s) := by
  have h18 := gl_F18 tm s ha hp he2 hcp htm
  unfold F21_str
  simp only [ha, not_true_eq_false, if_false]
  by_cases hg : s.fstype = []
  · rw [if_neg (by simp [hg])]
    exact h18
  · rw [if_pos hg]
    have hstep := goodline_step (F18_str tm s)
      ((" --fstype=").data ++ s.fstype) h18
      (by intro hm
          simp +decide [List.mem_append, List.mem_cons] at hm
          exact hft hm)
    simpa [nl_data, List.append_assoc] using hstep

/-- The RHEL7 serializer layer preserves the good line shape. -/
theorem gl_RHEL7 (s : AutoPart) (ha : s.autopart = true)
    (hp : NLFree s.passphrase) (he2 : NLFree s.escrowcert)
    (hcp : NLFree s.cipher) (hft : NLFree s.fstype) :
    GoodLine (RHEL7_str s) := by
  have h21 := gl_F21 tmF20 s ha hp he2 hcp hft typeAsStr_nlfree20
  unfold RHEL7_str
  simp only [ha, not_true_eq_false, if_false]
  by_cases hg : s.nohome = true
  · rw [if_pos hg]
    have hstep := goodline_step (F21_str tmF20 s) ((" --nohome").data) h21
      (by decide)
    simpa [List.append_assoc,
      show (" --nohome\n").data = (" --nohome").data ++ [ '\n' ] from rfl]
      using hstep
  · rw [if_neg hg]
    exact h21

/-- The F26 serializer layer preserves the good line shape. -/
theorem gl_F26 (s : AutoPart) (ha : s.autopart = true)
    (hp : NLFree s.passphrase) (he2 : NLFree s.escrowcert)
    (hcp : NLFree s.cipher) (hft : NLFree s.fstype) :
    GoodLine (F26_str s) := by
  have h21 := gl_F21 tmF20 s ha hp he2 hcp hft typeAsStr_nlfree20
  unfold F26_str
  simp only [ha, not_true_eq_false, if_false]
  have s1 : GoodLine (if s.nohome = true then
      pyStrip (F21_str tmF20 s) ++ (" --nohome\n").data
    else F21_str tmF20 s) := by
    by_cases hg : s.nohome = true
    · rw [if_pos hg]
      have hstep := goodline_step (F21_str tmF20 s) ((" --nohome").data) h21
        (by decide)
      simpa [List.append_assoc,
        show (" --nohome\n").data = (" --nohome").data ++ [ '\n' ] from rfl]
        using hstep
    · rw [if_neg hg]
      exact h21
  generalize hq1 : (if s.nohome = true then
      pyStrip (F21_str tmF20 s) ++ (" --nohome\n").data
    else F21_str tmF20 s) = l1 at s1
  have s2 : GoodLine (if s.noboot = true then
      pyStrip l1 ++ (" --noboot\n").data else l1) := by
    by_cases hg : s.noboot = true
    · rw [if_pos hg]
      have hstep := goodline_step l1 ((" --noboot").data) s1 (by decide)
      simpa [List.append_assoc,
        show (" --noboot\n").data = (" --noboot").data ++ [ '\n' ] from rfl]
        using hstep
    · rw [if_neg hg]
      exact s1
  generalize hq2 : (if s.noboot = true then
      pyStrip l1 ++ (" --noboot\n").data else l1) = l2 at s2
  by_cases hg : s.noswap = true
  · rw [if_pos hg]
    have hstep := goodline_step l2 ((" --noswap").data) s2 (by decide)
    simpa [List.append_assoc,
      show (" --noswap\n").data = (" --noswap").data ++ [ '\n' ] from rfl]
      using hstep
  · rw [if_neg hg]
    exact s2

/-- C9: for every version class and every present state whose string
    attributes contain no line terminator, the serialized output is a
    newline-free body followed by exactly one trailing line terminator;
    each layer preserves this by stripping before appending (goodline_step). -/
theorem c9_exactly_one_newline (c : Cls) (s : AutoPart)
    (ha : s.autopart = true) (hp : NLFree s.passphrase)
    (he2 : NLFree s.escrowcert) (hcp : NLFree s.cipher)
    (hft : NLFree s.fstype) :
    ∃ t, ksStr c s = t ++ [ '\n' ] ∧ NLFree t := by
  have hg : GoodLine (ksStr c s) := by
    cases c with
    | FC3 =>
      refine ⟨("autopart").data, ?_, by decide, rfl⟩
      simp [ksStr, FC3_str, kickstartCommand_str, ha]
    | F9 => exact gl_F9 s ha hp
    | F12 => exact gl_F12 s ha hp he2
    | RHEL6 => exact gl_RHEL6 s ha hp he2 hcp
    | F16 => exact gl_F16 s ha hp he2
    | F17 => exact gl_F17 tmF17 s ha hp he2 typeAsStr_nlfree17
    | F18 => exact gl_F18 tmF17 s ha hp he2 hcp typeAsStr_nlfree17
    | F20 => exact gl_F18 tmF20 s ha hp he2 hcp typeAsStr_nlfree20
    | F21 => exact gl_F21 tmF20 s ha hp he2 hcp hft typeAsStr_nlfree20
    | RHEL7 => exact gl_RHEL7 s ha hp he2 hcp hft
    | F23 => exact gl_F21 tmF20 s ha hp he2 hcp hft typeAsStr_nlfree20
    | F26 => exact gl_F26 s ha hp he2 hcp hft
  obtain ⟨t, heq, hnl, -⟩ := hg
  exact ⟨t, heq, hnl⟩

/-- C9 witness: a fully populated F26 state serializes to a body with one
    trailing newline and no embedded newline. -/
theorem c9_exactly_one_newline_witness :
    ∃ t, ksStr Cls.F26
      { autopart := true
        encrypted := true
        passphrase := ("p").data
        escrowcert := ("e").data
        backuppassphrase := true
        cipher := ("aes").data
        type := some ATy.lvm
        fstype := ("ext4").data
        nohome := true
        noboot := true
        noswap := true } = t ++ [ '\n' ] ∧ NLFree t :=
  c9_exactly_one_newline Cls.F26 _ rfl (by decide) (by decide) (by decide)
    (by decide)

/-- Space-prefix each word, as the serializer does for every option token. -/
def spaced : List Str → Str
  | [] => []
  | w :: ws => ' ' :: (w ++ spaced ws)

/-- A full serialized directive line over its option words. -/
def lineOf (ws : List Str) : Str :=
  ("autopart").data ++ spaced ws ++ [ '\n' ]

/-- A word ending in a non-whitespace character (safe under rstrip). -/
def EndsClean (w : Str) : Prop :=
  ∃ w2 lc, w = w2 ++ [lc] ∧ isPySpace lc = false

/-- A nonempty word with no whitespace characters (kept whole by the
    whitespace tokenization). -/
def WordOK (w : Str) : Prop := w ≠ [] ∧ ∀ ch ∈ w, isPySpace ch = false

/-- A value free of whitespace and quote characters: the values this model
    of the document reader round-trips. -/
abbrev cleanVal (v : Str) : Prop :=
  ∀ ch ∈ v, isPySpace ch = false ∧ ch ≠ '"'

/-- The quoted passphrase word the serializer emits. -/
def passTok (p : Str) : Str := ("--passphrase=\"").data ++ p ++ ("\"").data

/-- The quoted escrowcert word the serializer emits. -/
def escrowTok (e : Str) : Str := ("--escrowcert=\"").data ++ e ++ ("\"").data

/-- The quoted cipher word the serializer emits. -/
def cipherTok (cv : Str) : Str := ("--cipher=\"").data ++ cv ++ ("\"").data

/-- The serializer words of the F9 layer. -/
def rawF9 (s : AutoPart) : List Str :=
  (if s.encrypted = true then [("--encrypted").data] else []) ++
  (if s.encrypted = true ∧ s.passphrase ≠ [] then [passTok s.passphrase] else [])

/-- The serializer words up to the F12 layer. -/
def rawF12 (s : AutoPart) : List Str :=
  rawF9 s ++
  (if s.encrypted = true ∧ s.escrowcert ≠ [] then [escrowTok s.escrowcert] else []) ++
  (if (s.encrypted = true ∧ s.escrowcert ≠ []) ∧ s.backuppassphrase = true then
    [("--backuppassphrase").data] else [])

/-- The serializer words up to the RHEL6 layer. -/
def rawRHEL6 (s : AutoPart) : List Str :=
  rawF12 s ++
  (if s.encrypted = true ∧ s.cipher ≠ [] then [cipherTok s.cipher] else [])

/-- The serializer words up to the F16 layer. -/
def rawF16 (s : AutoPart) : List Str :=
  rawF12 s ++ (if s.lvm = false then [("--nolvm").data] else [])

/-- The serializer words up to the F17 layer. -/
def rawF17 (tm : List (Str × ATy)) (s : AutoPart) : List Str :=
  rawF16 s ++
  (match typeAsStr tm s.type with
   | some ty => [("--type=").data ++ ty]
   | none => [])

/-- The serializer words up to the F18 layer. -/
def rawF18 (tm : List (Str × ATy)) (s : AutoPart) : List Str :=
  rawF17 tm s ++
  (if s.encrypted = true ∧ s.cipher ≠ [] then [cipherTok s.cipher] else [])

/-- The serializer words up to the F21 layer. -/
def rawF21 (tm : List (Str × ATy)) (s : AutoPart) : List Str :=
  rawF18 tm s ++
  (if s.fstype ≠ [] then [("--fstype=").data ++ s.fstype] else [])

/-- The serializer words up to the RHEL7 layer. -/
def rawRHEL7 (s : AutoPart) : List Str :=
  rawF21 tmF20 s ++ (if s.nohome = true then [("--nohome").data] else [])

/-- The serializer words up to the F26 layer. -/
def rawF26 (s : AutoPart) : List Str :=
  rawF21 tmF20 s ++
  (if s.nohome = true then [("--nohome").data] else []) ++
  (if s.noboot = true then [("--noboot").data] else []) ++
  (if s.noswap = true then [("--noswap").data] else [])

/-- One aligned schema entry for the re-parse argument: the option together
    with, when the serializer emits it, the (unquoted) token, the raw value
    the token carries, and the state write its coercion performs. -/
abbrev OptE := OptSpec × Option (Str × Option Str × (AutoPart → AutoPart))

/-- The token list of an aligned entry list. -/
def toksOf : List OptE → List Str
  | [] => []
  | e :: l =>
    match e.2 with
    | some pr => pr.1 :: toksOf l
    | none => toksOf l

/-- The scanned occurrences of an aligned entry list. -/
def occsOf : List OptE → List (Str × Option Str)
  | [] => []
  | e :: l =>
    match e.2 with
    | some pr => (e.1.name, pr.2.1) :: occsOf l
    | none => occsOf l

/-- The update function of one aligned entry. -/
def updOf (e : OptE) : AutoPart → AutoPart :=
  match e.2 with
  | some pr => pr.2.2
  | none => fun st => st

/-- The update functions of an aligned entry list, absent options writing
    nothing beyond their defaults. -/
def updsOf (l : List OptE) : List (AutoPart → AutoPart) :=
  l.map updOf

/-- The token contribution of one aligned entry. -/
def tokOf (e : OptE) : List Str :=
  match e.2 with
  | some pr => [pr.1]
  | none => []

/-- Aligned entry of --encrypted. -/
def encE (s : AutoPart) : OptE :=
  (encryptedOpt, if s.encrypted = true then
    some (("--encrypted").data, none, fun st => { st with encrypted := true })
  else none)

/-- Aligned entry of --passphrase. -/
def passE (s : AutoPart) : OptE :=
  (passphraseOpt, if s.encrypted = true ∧ s.passphrase ≠ [] then
    some (("--passphrase=").data ++ s.passphrase, some s.passphrase,
      fun st => { st with passphrase := s.passphrase })
  else none)

/-- Aligned entry of --escrowcert. -/
def escrowE (s : AutoPart) : OptE :=
  (escrowcertOpt, if s.encrypted = true ∧ s.escrowcert ≠ [] then
    some (("--escrowcert=").data ++ s.escrowcert, some s.escrowcert,
      fun st => { st with escrowcert := s.escrowcert })
  else none)

/-- Aligned entry of --backuppassphrase. -/
def backupE (s : AutoPart) : OptE :=
  (backuppassphraseOpt,
    if (s.encrypted = true ∧ s.escrowcert ≠ []) ∧ s.backuppassphrase = true then
      some (("--backuppassphrase").data, none,
        fun st => { st with backuppassphrase := true })
    else none)

/-- Aligned entry of --cipher. -/
def cipherE (s : AutoPart) : OptE :=
  (cipherOpt, if s.encrypted = true ∧ s.cipher ≠ [] then
    some (("--cipher=").data ++ s.cipher, some s.cipher,
      fun st => { st with cipher := s.cipher })
  else none)

/-- Aligned entry of the F16 --nolvm. -/
def nolvm16E (s : AutoPart) : OptE :=
  (nolvmF16Opt, if s.lvm = false then
    some (("--nolvm").data, none, fun st => { st with lvm := false })
  else none)

/-- Aligned entry of the F17 --nolvm: never re-emitted. -/
def nolvm17E : OptE := (nolvmF17Opt, none)

/-- Aligned entry of --type. -/
def typeE (tm : List (Str × ATy)) (s : AutoPart) : OptE :=
  (typeOpt tm,
    match typeAsStr tm s.type with
    | some ty =>
      some (("--type=").data ++ ty, some ty,
        match tm.find? (fun kv => kv.1 == pyLower ty) with
        | some kv => fun st => { st with type := some kv.2 }
        | none => fun st => st)
    | none => none)

/-- Aligned entry of --fstype. -/
def fstypeE (s : AutoPart) : OptE :=
  (fstypeOpt, if s.fstype ≠ [] then
    some (("--fstype=").data ++ s.fstype, some s.fstype,
      fun st => { st with fstype := s.fstype })
  else none)

/-- Aligned entry of --nohome. -/
def nohomeE (s : AutoPart) : OptE :=
  (nohomeOpt, if s.nohome = true then
    some (("--nohome").data, none, fun st => { st with nohome := true })
  else none)

/-- Aligned entry of --noboot. -/
def nobootE (s : AutoPart) : OptE :=
  (nobootOpt, if s.noboot = true then
    some (("--noboot").data, none, fun st => { st with noboot := true })
  else none)

/-- Aligned entry of --noswap. -/
def noswapE (s : AutoPart) : OptE :=
  (noswapOpt, if s.noswap = true then
    some (("--noswap").data, none, fun st => { st with noswap := true })
  else none)

/-- The aligned entry list of the F9 schema. -/
def lF9 (s : AutoPart) : List OptE := [encE s, passE s]

/-- The aligned entry list of the F12 schema. -/
def lF12 (s : AutoPart) : List OptE := lF9 s ++ [escrowE s, backupE s]

/-- The aligned entry list of the RHEL6 schema. -/
def lRHEL6 (s : AutoPart) : List OptE := lF12 s ++ [cipherE s]

/-- The aligned entry list of the F16 schema. -/
def lF16 (s : AutoPart) : List OptE := lF12 s ++ [nolvm16E s]

/-- The aligned entry list of the F17 schema. -/
def lF17 (tm : List (Str × ATy)) (s : AutoPart) : List OptE :=
  lF12 s ++ [nolvm17E, typeE tm s]

/-- The aligned entry list of the F18 schema. -/
def lF18 (tm : List (Str × ATy)) (s : AutoPart) : List OptE :=
  lF17 tm s ++ [cipherE s]

/-- The aligned entry list of the F21 schema. -/
def lF21 (s : AutoPart) : List OptE := lF18 tmF20 s ++ [fstypeE s]

/-- The aligned entry list of the RHEL7 schema. -/
def lRHEL7 (s : AutoPart) : List OptE := lF21 s ++ [nohomeE s]

/-- The aligned entry list of the F26 schema. -/
def lF26 (s : AutoPart) : List OptE :=
  lF21 s ++ [nohomeE s, nobootE s, noswapE s]

/-- The aligned entry list of each version class (FC3 takes no options). -/
def lOf : Cls → AutoPart → List OptE
  | Cls.FC3 => fun _ => []
  | Cls.F9 => lF9
  | Cls.F12 => lF12
  | Cls.RHEL6 => lRHEL6
  | Cls.F16 => lF16
  | Cls.F17 => lF17 tmF17
  | Cls.F18 => lF18 tmF17
  | Cls.F20 => lF18 tmF20
  | Cls.F21 => lF21
  | Cls.RHEL7 => lRHEL7
  | Cls.F23 => lF21
  | Cls.F26 => lF26

/-- Well-formed states for the round-trip: present, with token-clean string
    values, dependent options unset without their prerequisites, and every
    attribute outside the option surface of the class at its default.
    These are exactly the conditions a state reachable by a parse of clean
    tokens satisfies, minus the states the serializer cannot represent. -/
abbrev WF (c : Cls) (s : AutoPart) : Prop :=
  s.autopart = true ∧
  cleanVal s.passphrase ∧ cleanVal s.escrowcert ∧
  cleanVal s.cipher ∧ cleanVal s.fstype ∧
  (s.encrypted = false →
    s.passphrase = [] ∧ s.escrowcert = [] ∧ s.cipher = [] ∧
    s.backuppassphrase = false) ∧
  (s.escrowcert = [] → s.backuppassphrase = false) ∧
  (rank c < 1 → s.encrypted = false ∧ s.passphrase = []) ∧
  (rank c < 2 → s.escrowcert = [] ∧ s.backuppassphrase = false) ∧
  (¬(c = Cls.RHEL6 ∨ 6 ≤ rank c) → s.cipher = []) ∧
  (c ≠ Cls.F16 → s.lvm = true) ∧
  (rank c < 5 → s.type = none) ∧
  (s.type ∈ ([none, some ATy.lvm, some ATy.btrfs, some ATy.plain] :
      List (Option ATy)) ∨ (7 ≤ rank c ∧ s.type = some ATy.thinp)) ∧
  (rank c < 8 → s.fstype = []) ∧
  (8 ≤ rank c → s.fstype ≠ ("btrfs").data ∧
    ¬(s.type = some ATy.btrfs ∧ s.fstype ≠ [])) ∧
  (¬(c = Cls.RHEL7 ∨ c = Cls.F26) → s.nohome = false) ∧
  (c ≠ Cls.F26 → s.noboot = false ∧ s.noswap = false)

/-- spaced distributes over concatenation. -/
theorem spaced_append (a b : List Str) :
    spaced (a ++ b) = spaced a ++ spaced b := by
  induction a with
  | nil => rfl
  | cons w a ih => simp [spaced, ih]

/-- A non-whitespace character moves from input to accumulator. -/
theorem wordsAux_nonspace (c : Char) (cs acc : Str)
    (h : isPySpace c = false) :
    wordsAux (c :: cs) acc = wordsAux cs (c :: acc) := by
  simp [wordsAux, h]

/-- A whitespace character flushes a nonempty accumulator. -/
theorem wordsAux_space (c : Char) (cs acc : Str) (h : isPySpace c = true)
    (hacc : acc ≠ []) :
    wordsAux (c :: cs) acc = acc.reverse :: wordsAux cs [] := by
  simp [wordsAux, h, hacc]

/-- A whole whitespace-free word moves into the accumulator. -/
theorem wordsAux_word (w rest acc : Str)
    (hw : ∀ ch ∈ w, isPySpace ch = false) :
    wordsAux (w ++ rest) acc = wordsAux rest (w.reverse ++ acc) := by
  induction w generalizing acc with
  | nil => simp
  | cons c w ih =>
    rw [List.cons_append, wordsAux_nonspace c _ _ (hw c (by simp))]
    rw [ih _ (fun ch hch => hw ch (by simp [hch]))]
    simp

/-- Splitting the space-joined words recovers them one by one. -/
theorem words_spaced (ws : List Str) (w0 : Str)
    (hws : ∀ w ∈ ws, WordOK w) (h0 : WordOK w0) :
    wordsAux (spaced ws ++ [ '\n' ]) w0.reverse = w0 :: ws := by
  induction ws generalizing w0 with
  | nil =>
    have : w0.reverse ≠ [] := by
      simpa using h0.1
    simp +decide [spaced, wordsAux, this]
  | cons u us ih =>
    have hu : WordOK u := hws u (by simp)
    rw [show spaced (u :: us) = ' ' :: (u ++ spaced us) from rfl]
    rw [List.cons_append,
      wordsAux_space _ _ _ (by decide) (by simpa using h0.1)]
    rw [List.append_assoc, wordsAux_word u _ [] hu.2]
    rw [show (u.reverse ++ [] : Str) = u.reverse by simp]
    rw [ih u (fun w hw => hws w (by simp [hw])) hu]
    simp

/-- Splitting a full serialized line yields the keyword and the words. -/
theorem pyWords_lineOf (ws : List Str) (hws : ∀ w ∈ ws, WordOK w) :
    pyWords (lineOf ws) = ("autopart").data :: ws := by
  unfold pyWords lineOf
  rw [List.append_assoc, wordsAux_word _ _ [] (by decide)]
  rw [show ((("autopart").data.reverse ++ [] : Str)) =
    ("autopart").data.reverse by simp]
  exact words_spaced ws (("autopart").data) hws ⟨by decide, by decide⟩

/-- Tokenizing a full serialized line yields the keyword and the unquoted
    words. -/
theorem tokenize_lineOf (ws : List Str) (hws : ∀ w ∈ ws, WordOK w) :
    tokenize (lineOf ws) = ("autopart").data :: ws.map unquote := by
  unfold tokenize
  rw [pyWords_lineOf ws hws]
  rw [List.map_cons]
  rw [show unquote (("autopart").data) = ("autopart").data by decide]

/-- unquote distributes over concatenation. -/
theorem unquote_append (a b : Str) :
    unquote (a ++ b) = unquote a ++ unquote b := by
  simp [unquote, List.filter_append]

/-- Quote-free strings are kept whole by unquote. -/
theorem unquote_id (w : Str) (h : ∀ ch ∈ w, ch ≠ '"') : unquote w = w := by
  rw [unquote, List.filter_eq_self]
  intro ch hch
  simpa using h ch hch

/-- Unquoting the serialized passphrase token yields the flat token. -/
theorem unquote_passTok (p : Str) (hp : cleanVal p) :
    unquote (passTok p) = ("--passphrase=").data ++ p := by
  unfold passTok
  rw [unquote_append, unquote_append,
    unquote_id p (fun ch hch => (hp ch hch).2)]
  rw [show unquote (("--passphrase=\"").data) = ("--passphrase=").data
    by decide]
  rw [show unquote (("\"").data) = [] by decide]
  simp

/-- Unquoting the serialized escrowcert token yields the flat token. -/
theorem unquote_escrowTok (e : Str) (he : cleanVal e) :
    unquote (escrowTok e) = ("--escrowcert=").data ++ e := by
  unfold escrowTok
  rw [unquote_append, unquote_append,
    unquote_id e (fun ch hch => (he ch hch).2)]
  rw [show unquote (("--escrowcert=\"").data) = ("--escrowcert=").data
    by decide]
  rw [show unquote (("\"").data) = [] by decide]
  simp

/-- Unquoting the serialized cipher token yields the flat token. -/
theorem unquote_cipherTok (cv : Str) (hc : cleanVal cv) :
    unquote (cipherTok cv) = ("--cipher=").data ++ cv := by
  unfold cipherTok
  rw [unquote_append, unquote_append,
    unquote_id cv (fun ch hch => (hc ch hch).2)]
  rw [show unquote (("--cipher=\"").data) = ("--cipher=").data by decide]
  rw [show unquote (("\"").data) = [] by decide]
  simp

/-- lastOcc skips a leading occurrence with a different name. -/
theorem lastOcc_cons_ne (nm nm2 : Str) (v : Option Str)
    (rest : List (Str × Option Str)) (h : (nm2 == nm) = false) :
    lastOcc nm ((nm2, v) :: rest) = lastOcc nm rest := by
  simp [lastOcc, List.filter_cons, h]

/-- lastOcc over occurrences that all carry other names is empty. -/
theorem lastOcc_notin (nm : Str) (rest : List (Str × Option Str))
    (h : ∀ pr ∈ rest, (pr.1 == nm) = false) : lastOcc nm rest = none := by
  induction rest with
  | nil => rfl
  | cons pr rest ih =>
    rcases pr with ⟨nm2, v⟩
    rw [lastOcc_cons_ne nm nm2 v rest (h (nm2, v) (by simp))]
    exact ih (fun pr hpr => h pr (by simp [hpr]))

/-- lastOcc finds a leading occurrence when no later one shares its name. -/
theorem lastOcc_cons_self (nm : Str) (v : Option Str)
    (rest : List (Str × Option Str))
    (h : ∀ pr ∈ rest, (pr.1 == nm) = false) :
    lastOcc nm ((nm, v) :: rest) = some v := by
  have hr := lastOcc_notin nm rest h
  unfold lastOcc at hr ⊢
  have hfil : List.filter (fun pr => pr.1 == nm) rest = [] := by
    cases hfe : List.filter (fun pr => pr.1 == nm) rest with
    | nil => rfl
    | cons x xs => rw [hfe] at hr; simp at hr
  rw [List.filter_cons]
  simp [hfil]

/-- mapM over Except respects pointwise equal functions. -/
theorem mapM_congr {α β : Type} (f g : α → Except PErr β) (l : List α)
    (h : ∀ a ∈ l, f a = g a) : l.mapM f = l.mapM g := by
  induction l with
  | nil => rfl
  | cons a l ih =>
    rw [List.mapM_cons, List.mapM_cons, h a (by simp),
      ih (fun a ha => h a (by simp [ha]))]

/-- Alignment of an entry list with a schema: every emitted token resolves
    to its own option with its carried raw value, and the coercion of that
    value is exactly the carried state write. -/
abbrev AlignedOK (sch : List OptSpec) (l : List OptE) : Prop :=
  ∀ e ∈ l, ∀ pr, e.2 = some pr →
    matchTok sch pr.1 = Except.ok (e.1.name, pr.2.1) ∧
    e.1.applyTok pr.2.1 = Except.ok pr.2.2

/-- Scanning the tokens of an aligned entry list succeeds with its
    occurrence list. -/
theorem scan_aligned (sch : List OptSpec) (l : List OptE)
    (h : AlignedOK sch l) : scan sch (toksOf l) = Except.ok (occsOf l) := by
  induction l with
  | nil => rfl
  | cons e l ih =>
    have ihl := ih (fun e2 he2 pr hpr => h e2 (by simp [he2]) pr hpr)
    cases hpr : e.2 with
    | none => simp only [toksOf, occsOf, hpr]; exact ihl
    | some pr =>
      simp only [toksOf, occsOf, hpr]
      have hm := (h e (by simp) pr hpr).1
      unfold scan at ihl ⊢
      rw [List.mapM_cons, hm, ihl]
      simp [Bind.bind, Except.bind, pure, Except.pure]

/-- Occurrence names come from the entry list names. -/
theorem occs_names (l : List OptE) :
    ∀ pr ∈ occsOf l, pr.1 ∈ l.map (fun e => e.1.name) := by
  induction l with
  | nil => simp [occsOf]
  | cons e l ih =>
    intro pr hpr
    cases he : e.2 with
    | none =>
      rw [occsOf, he] at hpr
      exact List.mem_cons_of_mem _ (ih pr hpr)
    | some pr2 =>
      rw [occsOf, he] at hpr
      rcases List.mem_cons.mp hpr with h1 | h1
      · simp [h1]
      · exact List.mem_cons_of_mem _ (ih pr h1)

/-- Resolving an aligned entry list against its own schema in registration
    order produces exactly the carried updates. -/
theorem mapM_aligned (sch : List OptSpec) (l : List OptE)
    (h : AlignedOK sch l)
    (hnodup : (l.map (fun e => e.1.name)).Nodup) :
    (l.map Prod.fst).mapM (fun o =>
      match lastOcc o.name (occsOf l) with
      | none => Except.ok (fun st => st)
      | some v => o.applyTok v) = Except.ok (updsOf l) := by
  induction l with
  | nil => rfl
  | cons e l ih =>
    have hhead : e.1.name ∉ l.map (fun e => e.1.name) :=
      (List.nodup_cons.mp (by simpa using hnodup)).1
    have hocc : ∀ pr ∈ occsOf l, (pr.1 == e.1.name) = false := by
      intro pr hpr
      have := occs_names l pr hpr
      exact beq_eq_false_iff_ne.mpr (fun hq => hhead (hq ▸ this))
    rw [List.map_cons, List.mapM_cons]
    have hstep : (match lastOcc e.1.name (occsOf (e :: l)) with
        | none => Except.ok (fun st => st)
        | some v => e.1.applyTok v) = Except.ok (updOf e) := by
      cases hpr : e.2 with
      | none =>
        rw [show occsOf (e :: l) = occsOf l by simp only [occsOf, hpr]]
        rw [lastOcc_notin _ _ hocc]
        simp only [updOf, hpr]
      | some pr =>
        rw [show occsOf (e :: l) = (e.1.name, pr.2.1) :: occsOf l
          by simp only [occsOf, hpr]]
        rw [lastOcc_cons_self _ _ _ hocc]
        rw [show updOf e = pr.2.2 by simp only [updOf, hpr]]
        exact (h e (by simp) pr hpr).2
    rw [hstep]
    have hcongr : (l.map Prod.fst).mapM (fun o =>
        match lastOcc o.name (occsOf (e :: l)) with
        | none => Except.ok (fun st => st)
        | some v => o.applyTok v) =
        (l.map Prod.fst).mapM (fun o =>
        match lastOcc o.name (occsOf l) with
        | none => Except.ok (fun st => st)
        | some v => o.applyTok v) := by
      apply mapM_congr
      intro o ho
      have honame : o.name ∈ l.map (fun e => e.1.name) := by
        rcases List.mem_map.mp ho with ⟨e2, he2, rfl⟩
        exact List.mem_map.mpr ⟨e2, he2, rfl⟩
      have hne : (e.1.name == o.name) = false :=
        beq_eq_false_iff_ne.mpr (fun hq => hhead (hq ▸ honame))
      cases hpr : e.2 with
      | none => rw [show occsOf (e :: l) = occsOf l by simp only [occsOf, hpr]]
      | some pr =>
        rw [show occsOf (e :: l) = (e.1.name, pr.2.1) :: occsOf l
          by simp only [occsOf, hpr]]
        rw [lastOcc_cons_ne _ _ _ _ hne]
    rw [hcongr]
    rw [ih (fun e2 he2 pr hpr => h e2 (by simp [he2]) pr hpr)
      ((List.nodup_cons.mp (by simpa using hnodup)).2)]
    simp [Bind.bind, Except.bind, pure, Except.pure, updsOf]

/-- Full resolution of an aligned entry list: optparse succeeds, the
    resulting namespace write being the defaults of the schema followed by
    the carried updates in registration order. -/
theorem optparse_aligned (l : List OptE)
    (h : AlignedOK (l.map Prod.fst) l)
    (hnodup : (l.map (fun e => e.1.name)).Nodup) :
    optparse (l.map Prod.fst) (toksOf l) =
      Except.ok (fun st =>
        (updsOf l).foldl (fun st u => u st)
          ((l.map Prod.fst).foldl (fun st o => o.applyAbsent st) st)) := by
  unfold optparse
  rw [scan_aligned _ _ h]
  simp only [Bind.bind, Except.bind]
  rw [mapM_aligned _ _ h hnodup]
  simp [pure, Except.pure]

/-- A word extended by a non-whitespace character ends clean. -/
theorem endsClean_concat (x : Str) (lc : Char) (h : isPySpace lc = false) :
    EndsClean (x ++ [lc]) := ⟨x, lc, rfl, h⟩

/-- A nonempty word with a non-whitespace last character ends clean. -/
theorem endsClean_of_ne_nil (w : Str) (hne : w ≠ [])
    (h : isPySpace (w.getLast hne) = false) : EndsClean w :=
  ⟨w.dropLast, w.getLast hne, (List.dropLast_append_getLast hne).symm, h⟩

/-- Stripping a full serialized line removes exactly the trailing newline
    when every word ends in a non-whitespace character. -/
theorem pyStrip_lineOf (ws : List Str) (hws : ∀ w ∈ ws, EndsClean w) :
    pyStrip (lineOf ws) = ("autopart").data ++ spaced ws := by
  have h1 : lineOf ws = ('a' :: ((("utopart").data) ++ spaced ws)) ++ [ '\n' ] := rfl
  rw [h1, pyStrip_goodline]
  suffices hs : rstrip ((("utopart").data) ++ spaced ws) =
      (("utopart").data) ++ spaced ws by
    rw [hs]; rfl
  rcases List.eq_nil_or_concat ws with rfl | ⟨ws2, w, rfl⟩
  · simp [spaced]
    decide
  · obtain ⟨w2, lc, hw, hlc⟩ := hws w (by simp)
    simp only [List.concat_eq_append]
    rw [spaced_append, show spaced [w] = ' ' :: (w ++ []) from rfl, hw]
    rw [show ((("utopart").data) ++ (spaced ws2 ++ ' ' :: ((w2 ++ [lc]) ++ [])) : Str) =
      ((("utopart").data) ++ spaced ws2 ++ (' ' :: w2)) ++ [lc] by simp]
    rw [rstrip_concat_nonspace _ _ hlc]

/-- Layer A for F9: the serializer output is the canonical line over the
    F9 words. -/
theorem strA_F9 (s : AutoPart) (ha : s.autopart = true) :
    F9_str s = lineOf (rawF9 s) := by
  unfold F9_str kickstartCommand_str rawF9
  simp only [ha, not_true_eq_false, if_false, List.nil_append]
  by_cases he : s.encrypted = true
  · rw [if_pos he, if_pos he]
    by_cases hpe : s.passphrase = []
    · rw [if_neg (by simp [hpe]), if_neg (by simp [hpe])]
      decide
    · rw [if_pos hpe, if_pos (by exact ⟨he, hpe⟩)]
      simp [lineOf, spaced, passTok, List.append_assoc]
  · rw [if_neg he, if_neg he, if_neg (by simp [he])]
    decide

/-- Membership in a conditional singleton determines the element. -/
theorem mem_ifsingle {w x : Str} {g : Prop} [Decidable g]
    (h : w ∈ (if g then [x] else [])) : w = x := by
  split at h
  · simpa using h
  · simp at h

/-- The F9 words end clean. -/
theorem endsClean_rawF9 (s : AutoPart) : ∀ w ∈ rawF9 s, EndsClean w := by
  intro w hw
  unfold rawF9 at hw
  rcases List.mem_append.mp hw with h1 | h1
  · rw [mem_ifsingle h1]
    exact endsClean_of_ne_nil _ (by decide) (by decide)
  · rw [mem_ifsingle h1]
    exact ⟨("--passphrase=\"").data ++ s.passphrase, '"',
      by simp [passTok], by decide⟩

/-- The F12 words end clean. -/
theorem endsClean_rawF12 (s : AutoPart) : ∀ w ∈ rawF12 s, EndsClean w := by
  intro w hw
  unfold rawF12 at hw
  rcases List.mem_append.mp hw with h1 | h1
  · rcases List.mem_append.mp h1 with h2 | h2
    · exact endsClean_rawF9 s w h2
    · rw [mem_ifsingle h2]
      exact ⟨("--escrowcert=\"").data ++ s.escrowcert, '"',
        by simp [escrowTok], by decide⟩
  · rw [mem_ifsingle h1]
    exact endsClean_of_ne_nil _ (by decide) (by decide)

/-- The RHEL6 words end clean. -/
theorem endsClean_rawRHEL6 (s : AutoPart) : ∀ w ∈ rawRHEL6 s, EndsClean w := by
  intro w hw
  unfold rawRHEL6 at hw
  rcases List.mem_append.mp hw with h1 | h1
  · exact endsClean_rawF12 s w h1
  · rw [mem_ifsingle h1]
    exact ⟨("--cipher=\"").data ++ s.cipher, '"', by simp [cipherTok],
      by decide⟩

/-- The F16 words end clean. -/
theorem endsClean_rawF16 (s : AutoPart) : ∀ w ∈ rawF16 s, EndsClean w := by
  intro w hw
  unfold rawF16 at hw
  rcases List.mem_append.mp hw with h1 | h1
  · exact endsClean_rawF12 s w h1
  · rw [mem_ifsingle h1]
    exact endsClean_of_ne_nil _ (by decide) (by decide)

/-- Scheme keys delivered by _typeAsStr make clean-ended type words, for
    either typeMap. -/
theorem typeAsStr_endsClean (tm : List (Str × ATy)) (t : Option ATy)
    (ty : Str) (htm : tm = tmF17 ∨ tm = tmF20)
    (h : typeAsStr tm t = some ty) :
    EndsClean (("--type=").data ++ ty) := by
  rcases htm with rfl | rfl <;> rcases t with _ | v
  · simp [typeAsStr] at h
  · cases v <;>
      first
        | exact Option.noConfusion h
        | (injection h with h2
           rw [← h2]
           exact endsClean_of_ne_nil _ (by decide) (by decide))
  · simp [typeAsStr] at h
  · cases v <;>
      first
        | exact Option.noConfusion h
        | (injection h with h2
           rw [← h2]
           exact endsClean_of_ne_nil _ (by decide) (by decide))

/-- The F17 words end clean. -/
theorem endsClean_rawF17 (tm : List (Str × ATy)) (s : AutoPart)
    (htm : tm = tmF17 ∨ tm = tmF20) : ∀ w ∈ rawF17 tm s, EndsClean w := by
  intro w hw
  unfold rawF17 at hw
  rcases List.mem_append.mp hw with h1 | h1
  · exact endsClean_rawF16 s w h1
  · cases hty : typeAsStr tm s.type with
    | none => rw [hty] at h1; simp at h1
    | some ty =>
      rw [hty] at h1
      simp only [List.mem_singleton] at h1
      rw [h1]
      exact typeAsStr_endsClean tm s.type ty htm hty

/-- The F18 words end clean. -/
theorem endsClean_rawF18 (tm : List (Str × ATy)) (s : AutoPart)
    (htm : tm = tmF17 ∨ tm = tmF20) : ∀ w ∈ rawF18 tm s, EndsClean w := by
  intro w hw
  unfold rawF18 at hw
  rcases List.mem_append.mp hw with h1 | h1
  · exact endsClean_rawF17 tm s htm w h1
  · rw [mem_ifsingle h1]
    exact ⟨("--cipher=\"").data ++ s.cipher, '"', by simp [cipherTok],
      by decide⟩

/-- The F21 words end clean when the fstype value is clean. -/
theorem endsClean_rawF21 (tm : List (Str × ATy)) (s : AutoPart)
    (htm : tm = tmF17 ∨ tm = tmF20) (hft : cleanVal s.fstype) :
    ∀ w ∈ rawF21 tm s, EndsClean w := by
  intro w hw
  unfold rawF21 at hw
  rcases List.mem_append.mp hw with h1 | h1
  · exact endsClean_rawF18 tm s htm w h1
  · revert h1
    split
    · intro h1
      simp only [List.mem_singleton] at h1
      subst h1
      rename_i hne
      rcases List.eq_nil_or_concat s.fstype with hnil | ⟨f2, lc, hconc⟩
      · exact absurd hnil hne
      · refine ⟨("--fstype=").data ++ f2, lc, by simp [hconc], ?_⟩
        exact (hft lc (by simp [hconc])).1
    · intro h1; simp at h1

/-- The RHEL7 words end clean when the fstype value is clean. -/
theorem endsClean_rawRHEL7 (s : AutoPart) (hft : cleanVal s.fstype) :
    ∀ w ∈ rawRHEL7 s, EndsClean w := by
  intro w hw
  unfold rawRHEL7 at hw
  rcases List.mem_append.mp hw with h1 | h1
  · exact endsClean_rawF21 tmF20 s (Or.inr rfl) hft w h1
  · rw [mem_ifsingle h1]
    exact endsClean_of_ne_nil _ (by decide) (by decide)

/-- Layer A for F12. -/
theorem strA_F12 (s : AutoPart) (ha : s.autopart = true) :
    F12_str s = lineOf (rawF12 s) := by
  have h9 := strA_F9 s ha
  have hec := endsClean_rawF9 s
  unfold F12_str rawF12
  simp only [ha, not_true_eq_false, if_false]
  by_cases hg : s.encrypted = true ∧ s.escrowcert ≠ []
  · rw [if_pos hg, if_pos hg, h9, pyStrip_lineOf _ hec]
    by_cases hb : s.backuppassphrase = true
    · rw [if_pos hb, if_pos (show (s.encrypted = true ∧ s.escrowcert ≠ []) ∧
        s.backuppassphrase = true from ⟨hg, hb⟩)]
      simp [lineOf, spaced_append, spaced, escrowTok, List.append_assoc]
    · rw [if_neg hb, if_neg (show ¬((s.encrypted = true ∧ s.escrowcert ≠ []) ∧
        s.backuppassphrase = true) from fun hc => hb hc.2)]
      simp [lineOf, spaced_append, spaced, escrowTok, List.append_assoc]
  · rw [if_neg hg, if_neg hg, if_neg (show ¬((s.encrypted = true ∧
      s.escrowcert ≠ []) ∧ s.backuppassphrase = true) from fun hc => hg hc.1)]
    rw [h9]
    simp

/-- Layer A for RHEL6. -/
theorem strA_RHEL6 (s : AutoPart) (ha : s.autopart = true) :
    RHEL6_str s = lineOf (rawRHEL6 s) := by
  have h12 := strA_F12 s ha
  have hec := endsClean_rawF12 s
  unfold RHEL6_str rawRHEL6
  simp only [ha, not_true_eq_false, if_false]
  by_cases hg : s.encrypted = true ∧ s.cipher ≠ []
  · rw [if_pos hg, if_pos hg, h12, pyStrip_lineOf _ hec]
    simp [lineOf, spaced_append, spaced, cipherTok, List.append_assoc]
  · rw [if_neg hg, if_neg hg, h12]
    simp

/-- Layer A for F16. -/
theorem strA_F16 (s : AutoPart) (ha : s.autopart = true) :
    F16_str s = lineOf (rawF16 s) := by
  have h12 := strA_F12 s ha
  have hec := endsClean_rawF12 s
  unfold F16_str rawF16
  simp only [ha, not_true_eq_false, if_false]
  by_cases hg : s.lvm = true
  · rw [if_neg (by simp [hg]), if_neg (by simp [hg]), h12]
    simp
  · rw [if_pos (by simpa using hg), if_pos (by simpa using hg), h12,
      pyStrip_lineOf _ hec]
    simp [lineOf, spaced_append, spaced, List.append_assoc]

/-- Layer A for F17. -/
theorem strA_F17 (tm : List (Str × ATy)) (s : AutoPart)
    (ha : s.autopart = true) : F17_str tm s = lineOf (rawF17 tm s) := by
  have h16 := strA_F16 s ha
  have hec := endsClean_rawF16 s
  unfold F17_str rawF17
  simp only [ha, not_true_eq_false, if_false]
  cases hty : typeAsStr tm s.type with
  | none => rw [h16]; simp
  | some ty =>
    rw [h16, pyStrip_lineOf _ hec]
    simp [lineOf, spaced_append, spaced, List.append_assoc]

/-- Layer A for F18. -/
theorem strA_F18 (tm : List (Str × ATy)) (s : AutoPart)
    (ha : s.autopart = true) (htm : tm = tmF17 ∨ tm = tmF20) :
    F18_str tm s = lineOf (rawF18 tm s) := by
  have h17 := strA_F17 tm s ha
  have hec := endsClean_rawF17 tm s htm
  unfold F18_str rawF18
  simp only [ha, not_true_eq_false, if_false]
  by_cases hg : s.encrypted = true ∧ s.cipher ≠ []
  · rw [if_pos hg, if_pos hg, h17, pyStrip_lineOf _ hec]
    simp [lineOf, spaced_append, spaced, cipherTok, List.append_assoc]
  · rw [if_neg hg, if_neg hg, h17]
    simp

/-- Layer A for F21. -/
theorem strA_F21 (tm : List (Str × ATy)) (s : AutoPart)
    (ha : s.autopart = true) (htm : tm = tmF17 ∨ tm = tmF20) :
    F21_str tm s = lineOf (rawF21 tm s) := by
  have h18 := strA_F18 tm s ha htm
  have hec := endsClean_rawF18 tm s htm
  unfold F21_str rawF21
  simp only [ha, not_true_eq_false, if_false]
  by_cases hg : s.fstype = []
  · rw [if_neg (by simp [hg]), if_neg (by simp [hg]), h18]
    simp
  · rw [if_pos (by simpa using hg), if_pos (by simpa using hg), h18,
      pyStrip_lineOf _ hec]
    simp [lineOf, spaced_append, spaced, List.append_assoc]

/-- Layer A for RHEL7. -/
theorem strA_RHEL7 (s : AutoPart) (ha : s.autopart = true)
    (hft : cleanVal s.fstype) : RHEL7_str s = lineOf (rawRHEL7 s) := by
  have h21 := strA_F21 tmF20 s ha (Or.inr rfl)
  have hec := endsClean_rawF21 tmF20 s (Or.inr rfl) hft
  unfold RHEL7_str rawRHEL7
  simp only [ha, not_true_eq_false, if_false]
  by_cases hg : s.nohome = true
  · rw [if_pos hg, if_pos hg, h21, pyStrip_lineOf _ hec]
    simp [lineOf, spaced_append, spaced, List.append_assoc]
  · rw [if_neg hg, if_neg hg, h21]
    simp

/-- Layer A for F26. -/
theorem strA_F26 (s : AutoPart) (ha : s.autopart = true)
    (hft : cleanVal s.fstype) : F26_str s = lineOf (rawF26 s) := by
  have h21 := strA_F21 tmF20 s ha (Or.inr rfl)
  have hec := endsClean_rawF21 tmF20 s (Or.inr rfl) hft
  unfold F26_str rawF26
  simp only [ha, not_true_eq_false, if_false]
  have step1 : (if s.nohome = true then
      pyStrip (F21_str tmF20 s) ++ (" --nohome\n").data
    else F21_str tmF20 s) =
      lineOf (rawF21 tmF20 s ++
        (if s.nohome = true then [("--nohome").data] else [])) := by
    by_cases hg : s.nohome = true
    · rw [if_pos hg, if_pos hg, h21, pyStrip_lineOf _ hec]
      simp [lineOf, spaced_append, spaced, List.append_assoc]
    · rw [if_neg hg, if_neg hg, h21]
      simp
  rw [step1]
  have hec1 : ∀ w ∈ rawF21 tmF20 s ++
      (if s.nohome = true then [("--nohome").data] else []), EndsClean w := by
    intro w hw
    rcases List.mem_append.mp hw with h1 | h1
    · exact hec w h1
    · rw [mem_ifsingle h1]
      exact endsClean_of_ne_nil _ (by decide) (by decide)
  have step2 : (if s.noboot = true then
      pyStrip (lineOf (rawF21 tmF20 s ++
        (if s.nohome = true then [("--nohome").data] else []))) ++
        (" --noboot\n").data
    else lineOf (rawF21 tmF20 s ++
        (if s.nohome = true then [("--nohome").data] else []))) =
      lineOf ((rawF21 tmF20 s ++
        (if s.nohome = true then [("--nohome").data] else [])) ++
        (if s.noboot = true then [("--noboot").data] else [])) := by
    by_cases hg : s.noboot = true
    · rw [if_pos hg, if_pos hg, pyStrip_lineOf _ hec1]
      simp [lineOf, spaced_append, spaced, List.append_assoc]
    · rw [if_neg hg, if_neg hg]
      simp
  rw [step2]
  have hec2 : ∀ w ∈ (rawF21 tmF20 s ++
      (if s.nohome = true then [("--nohome").data] else [])) ++
      (if s.noboot = true then [("--noboot").data] else []), EndsClean w := by
    intro w hw
    rcases List.mem_append.mp hw with h1 | h1
    · exact hec1 w h1
    · rw [mem_ifsingle h1]
      exact endsClean_of_ne_nil _ (by decide) (by decide)
  by_cases hg : s.noswap = true
  · rw [if_pos hg, if_pos hg, pyStrip_lineOf _ hec2]
    simp [lineOf, spaced_append, spaced, List.append_assoc]
  · rw [if_neg hg, if_neg hg]
    simp

/-- splitEq splits at the first equals sign. -/
theorem splitEq_prefix (nm p : Str) (h : '=' ∉ nm) :
    splitEq (nm ++ '=' :: p) = (nm, some p) := by
  induction nm with
  | nil => simp [splitEq]
  | cons c nm ih =>
    rw [List.cons_append, splitEq]
    rw [if_neg (by intro hc; exact h (by simp [hc]))]
    rw [ih (fun hc => h (by simp [hc]))]

/-- Resolution of a value-carrying token against any schema containing its
    option name. -/
theorem matchTok_pre (sch : List OptSpec) (nm p r : Str)
    (hnm : '=' ∉ nm) (hshape : nm = '-' :: '-' :: r)
    (hmem : sch.any (fun o => o.name == nm) = true) :
    matchTok sch (nm ++ '=' :: p) = Except.ok (nm, some p) := by
  subst hshape
  rw [show (('-' :: '-' :: r) ++ '=' :: p : Str) =
    '-' :: '-' :: (r ++ '=' :: p) from rfl]
  unfold matchTok
  rw [show splitEq ('-' :: '-' :: (r ++ '=' :: p)) =
    (('-' :: '-' :: r : Str), some p) from splitEq_prefix _ _ hnm]
  rw [if_pos hmem]
  rfl

/-- splitEq leaves a token without an equals sign whole. -/
theorem splitEq_no_eq (w : Str) (h : '=' ∉ w) : splitEq w = (w, none) := by
  induction w with
  | nil => rfl
  | cons c cs ih =>
    rw [splitEq]
    rw [if_neg (by intro hc; exact h (by simp [hc]))]
    rw [ih (fun hc => h (by simp [hc]))]

/-- Resolution of a bare flag token against any schema containing it. -/
theorem matchTok_flag (sch : List OptSpec) (nm r : Str)
    (hnm : '=' ∉ nm) (hshape : nm = '-' :: '-' :: r)
    (hmem : sch.any (fun o => o.name == nm) = true) :
    matchTok sch nm = Except.ok (nm, none) := by
  subst hshape
  unfold matchTok
  rw [show splitEq ('-' :: '-' :: r) = (('-' :: '-' :: r : Str), none) from
    splitEq_no_eq _ hnm]
  rw [if_pos hmem]
  rfl

/-- Alignment of one entry with a schema. -/
abbrev EntryOK (sch : List OptSpec) (e : OptE) : Prop :=
  ∀ pr, e.2 = some pr →
    matchTok sch pr.1 = Except.ok (e.1.name, pr.2.1) ∧
    e.1.applyTok pr.2.1 = Except.ok pr.2.2

/-- AlignedOK from per-entry alignment. -/
theorem alignedOK_of (sch : List OptSpec) (l : List OptE)
    (h : ∀ e ∈ l, EntryOK sch e) : AlignedOK sch l :=
  fun e he pr hpr => h e he pr hpr

/-- The encrypted entry aligns with any schema listing --encrypted. -/
theorem entry_encE (sch : List OptSpec) (s : AutoPart)
    (hmem : sch.any (fun o => o.name == ("--encrypted").data) = true) :
    EntryOK sch (encE s) := by
  intro pr hpr
  unfold encE at hpr
  split at hpr
  · injection hpr with h2
    subst h2
    exact ⟨matchTok_flag sch _ (("encrypted").data) (by decide) (by decide)
      hmem, rfl⟩
  · exact absurd hpr (by simp)

/-- The passphrase entry aligns with any schema listing --passphrase. -/
theorem entry_passE (sch : List OptSpec) (s : AutoPart)
    (hmem : sch.any (fun o => o.name == ("--passphrase").data) = true) :
    EntryOK sch (passE s) := by
  intro pr hpr
  unfold passE at hpr
  split at hpr
  · injection hpr with h2
    subst h2
    refine ⟨?_, rfl⟩
    rw [show ((("--passphrase=").data ++ s.passphrase : Str)) =
      ("--passphrase").data ++ '=' :: s.passphrase by simp]
    exact matchTok_pre sch _ s.passphrase (("passphrase").data) (by decide)
      (by decide) hmem
  · exact absurd hpr (by simp)

/-- The escrowcert entry aligns with any schema listing --escrowcert. -/
theorem entry_escrowE (sch : List OptSpec) (s : AutoPart)
    (hmem : sch.any (fun o => o.name == ("--escrowcert").data) = true) :
    EntryOK sch (escrowE s) := by
  intro pr hpr
  unfold escrowE at hpr
  split at hpr
  · injection hpr with h2
    subst h2
    refine ⟨?_, rfl⟩
    rw [show ((("--escrowcert=").data ++ s.escrowcert : Str)) =
      ("--escrowcert").data ++ '=' :: s.escrowcert by simp]
    exact matchTok_pre sch _ s.escrowcert (("escrowcert").data) (by decide)
      (by decide) hmem
  · exact absurd hpr (by simp)

/-- The backuppassphrase entry aligns with any schema listing it. -/
theorem entry_backupE (sch : List OptSpec) (s : AutoPart)
    (hmem : sch.any (fun o => o.name == ("--backuppassphrase").data) = true) :
    EntryOK sch (backupE s) := by
  intro pr hpr
  unfold backupE at hpr
  split at hpr
  · injection hpr with h2
    subst h2
    exact ⟨matchTok_flag sch _ (("backuppassphrase").data) (by decide)
      (by decide) hmem, rfl⟩
  · exact absurd hpr (by simp)

/-- The cipher entry aligns with any schema listing --cipher. -/
theorem entry_cipherE (sch : List OptSpec) (s : AutoPart)
    (hmem : sch.any (fun o => o.name == ("--cipher").data) = true) :
    EntryOK sch (cipherE s) := by
  intro pr hpr
  unfold cipherE at hpr
  split at hpr
  · injection hpr with h2
    subst h2
    refine ⟨?_, rfl⟩
    rw [show ((("--cipher=").data ++ s.cipher : Str)) =
      ("--cipher").data ++ '=' :: s.cipher by simp]
    exact matchTok_pre sch _ s.cipher (("cipher").data) (by decide)
      (by decide) hmem
  · exact absurd hpr (by simp)

/-- The F16 nolvm entry aligns with any schema listing --nolvm. -/
theorem entry_nolvm16E (sch : List OptSpec) (s : AutoPart)
    (hmem : sch.any (fun o => o.name == ("--nolvm").data) = true) :
    EntryOK sch (nolvm16E s) := by
  intro pr hpr
  unfold nolvm16E at hpr
  split at hpr
  · injection hpr with h2
    subst h2
    exact ⟨matchTok_flag sch _ (("nolvm").data) (by decide) (by decide)
      hmem, rfl⟩
  · exact absurd hpr (by simp)

/-- The F17 nolvm entry is never emitted, so it aligns vacuously. -/
theorem entry_nolvm17E (sch : List OptSpec) : EntryOK sch nolvm17E := by
  intro pr hpr
  exact absurd hpr (by simp [nolvm17E])

/-- The fstype entry aligns with any schema listing --fstype. -/
theorem entry_fstypeE (sch : List OptSpec) (s : AutoPart)
    (hmem : sch.any (fun o => o.name == ("--fstype").data) = true) :
    EntryOK sch (fstypeE s) := by
  intro pr hpr
  unfold fstypeE at hpr
  split at hpr
  · injection hpr with h2
    subst h2
    refine ⟨?_, rfl⟩
    rw [show ((("--fstype=").data ++ s.fstype : Str)) =
      ("--fstype").data ++ '=' :: s.fstype by simp]
    exact matchTok_pre sch _ s.fstype (("fstype").data) (by decide)
      (by decide) hmem
  · exact absurd hpr (by simp)

/-- The nohome entry aligns with any schema listing --nohome. -/
theorem entry_nohomeE (sch : List OptSpec) (s : AutoPart)
    (hmem : sch.any (fun o => o.name == ("--nohome").data) = true) :
    EntryOK sch (nohomeE s) := by
  intro pr hpr
  unfold nohomeE at hpr
  split at hpr
  · injection hpr with h2
    subst h2
    exact ⟨matchTok_flag sch _ (("nohome").data) (by decide) (by decide)
      hmem, rfl⟩
  · exact absurd hpr (by simp)

/-- The noboot entry aligns with any schema listing --noboot. -/
theorem entry_nobootE (sch : List OptSpec) (s : AutoPart)
    (hmem : sch.any (fun o => o.name == ("--noboot").data) = true) :
    EntryOK sch (nobootE s) := by
  intro pr hpr
  unfold nobootE at hpr
  split at hpr
  · injection hpr with h2
    subst h2
    exact ⟨matchTok_flag sch _ (("noboot").data) (by decide) (by decide)
      hmem, rfl⟩
  · exact absurd hpr (by simp)

/-- The noswap entry aligns with any schema listing --noswap. -/
theorem entry_noswapE (sch : List OptSpec) (s : AutoPart)
    (hmem : sch.any (fun o => o.name == ("--noswap").data) = true) :
    EntryOK sch (noswapE s) := by
  intro pr hpr
  unfold noswapE at hpr
  split at hpr
  · injection hpr with h2
    subst h2
    exact ⟨matchTok_flag sch _ (("noswap").data) (by decide) (by decide)
      hmem, rfl⟩
  · exact absurd hpr (by simp)

/-- The type entry aligns with any schema listing --type, for the two
    typeMaps in use. -/
theorem entry_typeE (sch : List OptSpec) (tm : List (Str × ATy))
    (s : AutoPart) (htm : tm = tmF17 ∨ tm = tmF20)
    (hmem : sch.any (fun o => o.name == ("--type").data) = true) :
    EntryOK sch (typeE tm s) := by
  intro pr hpr
  unfold typeE at hpr
  split at hpr
  · rename_i ty hty
    injection hpr with h2
    subst h2
    constructor
    · rw [show ((("--type=").data ++ ty : Str)) =
        ("--type").data ++ '=' :: ty by simp]
      exact matchTok_pre sch _ ty (("type").data) (by decide) (by decide) hmem
    · have hfind : ∃ kv, tm.find? (fun kv => kv.1 == pyLower ty) = some kv := by
        rcases htm with rfl | rfl <;> rcases ht : s.type with _ | v <;>
            rw [ht] at hty
        · simp [typeAsStr] at hty
        · cases v <;>
            first
              | exact Option.noConfusion hty
              | (injection hty with h3
                 rw [← h3]
                 exact ⟨_, rfl⟩)
        · simp [typeAsStr] at hty
        · cases v <;>
            first
              | exact Option.noConfusion hty
              | (injection hty with h3
                 rw [← h3]
                 exact ⟨_, rfl⟩)
      obtain ⟨kv, hkv⟩ := hfind
      show (typeOpt tm).applyTok (some ty) = _
      simp only [typeOpt, hkv]
  · exact absurd hpr (by simp)

/-- toksOf unfolds entrywise. -/
theorem toksOf_cons (e : OptE) (l : List OptE) :
    toksOf (e :: l) = tokOf e ++ toksOf l := by
  cases h : e.2 <;> simp [toksOf, tokOf, h]

/-- toksOf distributes over concatenation. -/
theorem toksOf_append (a b : List OptE) :
    toksOf (a ++ b) = toksOf a ++ toksOf b := by
  induction a with
  | nil => rfl
  | cons e a ih =>
    rw [List.cons_append, toksOf_cons, toksOf_cons, ih, List.append_assoc]

/-- The token of the encrypted entry. -/
theorem tokOf_encE (s : AutoPart) :
    tokOf (encE s) =
      if s.encrypted = true then [("--encrypted").data] else [] := by
  by_cases h : s.encrypted = true <;> simp [encE, tokOf, h]

/-- The token of the passphrase entry. -/
theorem tokOf_passE (s : AutoPart) :
    tokOf (passE s) =
      if s.encrypted = true ∧ s.passphrase ≠ [] then
        [("--passphrase=").data ++ s.passphrase] else [] := by
  by_cases h : s.encrypted = true ∧ s.passphrase ≠ [] <;> simp [passE, tokOf, h]

/-- The token of the escrowcert entry. -/
theorem tokOf_escrowE (s : AutoPart) :
    tokOf (escrowE s) =
      if s.encrypted = true ∧ s.escrowcert ≠ [] then
        [("--escrowcert=").data ++ s.escrowcert] else [] := by
  by_cases h : s.encrypted = true ∧ s.escrowcert ≠ [] <;>
    simp [escrowE, tokOf, h]

/-- The token of the backuppassphrase entry. -/
theorem tokOf_backupE (s : AutoPart) :
    tokOf (backupE s) =
      if (s.encrypted = true ∧ s.escrowcert ≠ []) ∧ s.backuppassphrase = true
      then [("--backuppassphrase").data] else [] := by
  by_cases h : (s.encrypted = true ∧ s.escrowcert ≠ []) ∧
      s.backuppassphrase = true <;>
    simp [backupE, tokOf, h]

/-- The token of the cipher entry. -/
theorem tokOf_cipherE (s : AutoPart) :
    tokOf (cipherE s) =
      if s.encrypted = true ∧ s.cipher ≠ [] then
        [("--cipher=").data ++ s.cipher] else [] := by
  by_cases h : s.encrypted = true ∧ s.cipher ≠ [] <;> simp [cipherE, tokOf, h]

/-- The token of the F16 nolvm entry. -/
theorem tokOf_nolvm16E (s : AutoPart) :
    tokOf (nolvm16E s) =
      if s.lvm = false then [("--nolvm").data] else [] := by
  by_cases h : s.lvm = false <;> simp [nolvm16E, tokOf, h]

/-- The token of the type entry. -/
theorem tokOf_typeE (tm : List (Str × ATy)) (s : AutoPart) :
    tokOf (typeE tm s) =
      match typeAsStr tm s.type with
      | some ty => [("--type=").data ++ ty]
      | none => [] := by
  cases h : typeAsStr tm s.type <;> simp [typeE, tokOf, h]

/-- The token of the fstype entry. -/
theorem tokOf_fstypeE (s : AutoPart) :
    tokOf (fstypeE s) =
      if s.fstype ≠ [] then [("--fstype=").data ++ s.fstype] else [] := by
  by_cases h : s.fstype ≠ [] <;> simp [fstypeE, tokOf, h]

/-- The token of the nohome entry. -/
theorem tokOf_nohomeE (s : AutoPart) :
    tokOf (nohomeE s) =
      if s.nohome = true then [("--nohome").data] else [] := by
  by_cases h : s.nohome = true <;> simp [nohomeE, tokOf, h]

/-- The token of the noboot entry. -/
theorem tokOf_nobootE (s : AutoPart) :
    tokOf (nobootE s) =
      if s.noboot = true then [("--noboot").data] else [] := by
  by_cases h : s.noboot = true <;> simp [nobootE, tokOf, h]

/-- The token of the noswap entry. -/
theorem tokOf_noswapE (s : AutoPart) :
    tokOf (noswapE s) =
      if s.noswap = true then [("--noswap").data] else [] := by
  by_cases h : s.noswap = true <;> simp [noswapE, tokOf, h]

/-- A list with a nonempty head part is nonempty. -/
theorem ne_nil_append (a b : Str) (h : a ≠ []) : a ++ b ≠ [] := by
  cases a
  · exact absurd rfl h
  · simp

/-- The serialized type word is a clean token: a single word, free of
    whitespace and quote marks. -/
theorem typeAsStr_tok (tm : List (Str × ATy)) (t : Option ATy) (ty : Str)
    (htm : tm = tmF17 ∨ tm = tmF20) (h : typeAsStr tm t = some ty) :
    WordOK (("--type=").data ++ ty) ∧
      unquote (("--type=").data ++ ty) = ("--type=").data ++ ty := by
  rcases htm with rfl | rfl <;> rcases t with _ | v
  · simp [typeAsStr] at h
  · cases v <;>
      first
        | exact Option.noConfusion h
        | (injection h with h2
           rw [← h2]
           exact ⟨⟨by decide, by decide⟩, by decide⟩)
  · simp [typeAsStr] at h
  · cases v <;>
      first
        | exact Option.noConfusion h
        | (injection h with h2
           rw [← h2]
           exact ⟨⟨by decide, by decide⟩, by decide⟩)

/-- Unquoting the serialized encrypted group yields its token. -/
theorem mapu_enc (s : AutoPart) :
    (if s.encrypted = true then [("--encrypted").data] else []).map unquote
      = tokOf (encE s) := by
  rw [tokOf_encE]
  by_cases h : s.encrypted = true
  · rw [if_pos h, List.map_cons, List.map_nil,
      show unquote (("--encrypted").data) = ("--encrypted").data by decide]
  · rw [if_neg h]
    rfl

/-- Unquoting the serialized passphrase group yields its flat token. -/
theorem mapu_pass (s : AutoPart) (hp : cleanVal s.passphrase) :
    (if s.encrypted = true ∧ s.passphrase ≠ [] then [passTok s.passphrase]
      else []).map unquote = tokOf (passE s) := by
  rw [tokOf_passE]
  by_cases h : s.encrypted = true ∧ s.passphrase ≠ []
  · rw [if_pos h, List.map_cons, List.map_nil, unquote_passTok _ hp,
      if_pos h]
  · rw [if_neg h, if_neg h]
    rfl

/-- Unquoting the serialized escrowcert group yields its flat token. -/
theorem mapu_escrow (s : AutoPart) (he : cleanVal s.escrowcert) :
    (if s.encrypted = true ∧ s.escrowcert ≠ [] then [escrowTok s.escrowcert]
      else []).map unquote = tokOf (escrowE s) := by
  rw [tokOf_escrowE]
  by_cases h : s.encrypted = true ∧ s.escrowcert ≠ []
  · rw [if_pos h, List.map_cons, List.map_nil, unquote_escrowTok _ he,
      if_pos h]
  · rw [if_neg h, if_neg h]
    rfl

/-- Unquoting the serialized backuppassphrase group yields its token. -/
theorem mapu_backup (s : AutoPart) :
    (if (s.encrypted = true ∧ s.escrowcert ≠ []) ∧ s.backuppassphrase = true
      then [("--backuppassphrase").data] else []).map unquote
      = tokOf (backupE s) := by
  rw [tokOf_backupE]
  by_cases h : (s.encrypted = true ∧ s.escrowcert ≠ []) ∧
      s.backuppassphrase = true
  · rw [if_pos h, List.map_cons, List.map_nil,
      show unquote (("--backuppassphrase").data) =
        ("--backuppassphrase").data by decide]
  · rw [if_neg h]
    rfl

/-- Unquoting the serialized cipher group yields its flat token. -/
theorem mapu_cipher (s : AutoPart) (hc : cleanVal s.cipher) :
    (if s.encrypted = true ∧ s.cipher ≠ [] then [cipherTok s.cipher]
      else []).map unquote = tokOf (cipherE s) := by
  rw [tokOf_cipherE]
  by_cases h : s.encrypted = true ∧ s.cipher ≠ []
  · rw [if_pos h, List.map_cons, List.map_nil, unquote_cipherTok _ hc,
      if_pos h]
  · rw [if_neg h, if_neg h]
    rfl

/-- Unquoting the serialized nolvm group yields its token. -/
theorem mapu_nolvm16 (s : AutoPart) :
    (if s.lvm = false then [("--nolvm").data] else []).map unquote
      = tokOf (nolvm16E s) := by
  rw [tokOf_nolvm16E]
  by_cases h : s.lvm = false
  · rw [if_pos h, List.map_cons, List.map_nil,
      show unquote (("--nolvm").data) = ("--nolvm").data by decide]
  · rw [if_neg h]
    rfl

/-- Unquoting the serialized type group yields its token. -/
theorem mapu_type (tm : List (Str × ATy)) (s : AutoPart)
    (htm : tm = tmF17 ∨ tm = tmF20) :
    (match typeAsStr tm s.type with
      | some ty => [("--type=").data ++ ty]
      | none => []).map unquote = tokOf (typeE tm s) := by
  rw [tokOf_typeE]
  cases h : typeAsStr tm s.type with
  | none => rfl
  | some ty =>
    rw [List.map_cons, List.map_nil, (typeAsStr_tok tm s.type ty htm h).2]

/-- Unquoting the serialized fstype group yields its token. -/
theorem mapu_fstype (s : AutoPart) (hf : cleanVal s.fstype) :
    (if s.fstype ≠ [] then [("--fstype=").data ++ s.fstype] else []).map
      unquote = tokOf (fstypeE s) := by
  rw [tokOf_fstypeE]
  by_cases h : s.fstype ≠ []
  · rw [if_pos h, List.map_cons, List.map_nil, unquote_append,
      unquote_id _ (fun ch hch => (hf ch hch).2),
      show unquote (("--fstype=").data) = ("--fstype=").data by decide]
  · rw [if_neg h]
    rfl

/-- Unquoting the serialized nohome group yields its token. -/
theorem mapu_nohome (s : AutoPart) :
    (if s.nohome = true then [("--nohome").data] else []).map unquote
      = tokOf (nohomeE s) := by
  rw [tokOf_nohomeE]
  by_cases h : s.nohome = true
  · rw [if_pos h, List.map_cons, List.map_nil,
      show unquote (("--nohome").data) = ("--nohome").data by decide]
  · rw [if_neg h]
    rfl

/-- Unquoting the serialized noboot group yields its token. -/
theorem mapu_noboot (s : AutoPart) :
    (if s.noboot = true then [("--noboot").data] else []).map unquote
      = tokOf (nobootE s) := by
  rw [tokOf_nobootE]
  by_cases h : s.noboot = true
  · rw [if_pos h, List.map_cons, List.map_nil,
      show unquote (("--noboot").data) = ("--noboot").data by decide]
  · rw [if_neg h]
    rfl

/-- Unquoting the serialized noswap group yields its token. -/
theorem mapu_noswap (s : AutoPart) :
    (if s.noswap = true then [("--noswap").data] else []).map unquote
      = tokOf (noswapE s) := by
  rw [tokOf_noswapE]
  by_cases h : s.noswap = true
  · rw [if_pos h, List.map_cons, List.map_nil,
      show unquote (("--noswap").data) = ("--noswap").data by decide]
  · rw [if_neg h]
    rfl

/-- The unquoted F9 words are the F9 entry tokens. -/
theorem toks_F9 (s : AutoPart) (hp : cleanVal s.passphrase) :
    (rawF9 s).map unquote = toksOf (lF9 s) := by
  rw [rawF9, List.map_append, mapu_enc, mapu_pass s hp]
  rw [show lF9 s = [encE s, passE s] from rfl, toksOf_cons, toksOf_cons]
  simp [toksOf]

/-- The unquoted F12 words are the F12 entry tokens. -/
theorem toks_F12 (s : AutoPart) (hp : cleanVal s.passphrase)
    (he : cleanVal s.escrowcert) :
    (rawF12 s).map unquote = toksOf (lF12 s) := by
  rw [rawF12, List.map_append, List.map_append, toks_F9 s hp,
    mapu_escrow s he, mapu_backup s]
  rw [show lF12 s = lF9 s ++ [escrowE s, backupE s] from rfl, toksOf_append,
    toksOf_cons, toksOf_cons]
  simp [toksOf]

/-- The unquoted RHEL6 words are the RHEL6 entry tokens. -/
theorem toks_RHEL6 (s : AutoPart) (hp : cleanVal s.passphrase)
    (he : cleanVal s.escrowcert) (hc : cleanVal s.cipher) :
    (rawRHEL6 s).map unquote = toksOf (lRHEL6 s) := by
  rw [rawRHEL6, List.map_append, toks_F12 s hp he, mapu_cipher s hc]
  rw [show lRHEL6 s = lF12 s ++ [cipherE s] from rfl, toksOf_append,
    toksOf_cons]
  simp [toksOf]

/-- The unquoted F16 words are the F16 entry tokens. -/
theorem toks_F16 (s : AutoPart) (hp : cleanVal s.passphrase)
    (he : cleanVal s.escrowcert) :
    (rawF16 s).map unquote = toksOf (lF16 s) := by
  rw [rawF16, List.map_append, toks_F12 s hp he, mapu_nolvm16 s]
  rw [show lF16 s = lF12 s ++ [nolvm16E s] from rfl, toksOf_append,
    toksOf_cons]
  simp [toksOf]

/-- The unquoted F17 words are the F17 entry tokens: on states with
    lvm = true the --nolvm group is empty, matching the never-emitted F17
    --nolvm entry. -/
theorem toks_F17 (tm : List (Str × ATy)) (s : AutoPart)
    (htm : tm = tmF17 ∨ tm = tmF20) (hp : cleanVal s.passphrase)
    (he : cleanVal s.escrowcert) (hlvm : s.lvm = true) :
    (rawF17 tm s).map unquote = toksOf (lF17 tm s) := by
  rw [rawF17, rawF16, List.map_append, List.map_append, toks_F12 s hp he,
    mapu_type tm s htm]
  rw [if_neg (show ¬s.lvm = false by simp [hlvm])]
  rw [show lF17 tm s = lF12 s ++ [nolvm17E, typeE tm s] from rfl,
    toksOf_append, toksOf_cons, toksOf_cons]
  simp [toksOf, tokOf, nolvm17E]

/-- The unquoted F18 words are the F18 entry tokens. -/
theorem toks_F18 (tm : List (Str × ATy)) (s : AutoPart)
    (htm : tm = tmF17 ∨ tm = tmF20) (hp : cleanVal s.passphrase)
    (he : cleanVal s.escrowcert) (hc : cleanVal s.cipher)
    (hlvm : s.lvm = true) :
    (rawF18 tm s).map unquote = toksOf (lF18 tm s) := by
  rw [rawF18, List.map_append, toks_F17 tm s htm hp he hlvm,
    mapu_cipher s hc]
  rw [show lF18 tm s = lF17 tm s ++ [cipherE s] from rfl, toksOf_append,
    toksOf_cons]
  simp [toksOf]

/-- The unquoted F21 words are the F21 entry tokens. -/
theorem toks_F21 (s : AutoPart) (hp : cleanVal s.passphrase)
    (he : cleanVal s.escrowcert) (hc : cleanVal s.cipher)
    (hf : cleanVal s.fstype) (hlvm : s.lvm = true) :
    (rawF21 tmF20 s).map unquote = toksOf (lF21 s) := by
  rw [rawF21, List.map_append, toks_F18 tmF20 s (Or.inr rfl) hp he hc hlvm,
    mapu_fstype s hf]
  rw [show lF21 s = lF18 tmF20 s ++ [fstypeE s] from rfl, toksOf_append,
    toksOf_cons]
  simp [toksOf]

/-- The unquoted RHEL7 words are the RHEL7 entry tokens. -/
theorem toks_RHEL7 (s : AutoPart) (hp : cleanVal s.passphrase)
    (he : cleanVal s.escrowcert) (hc : cleanVal s.cipher)
    (hf : cleanVal s.fstype) (hlvm : s.lvm = true) :
    (rawRHEL7 s).map unquote = toksOf (lRHEL7 s) := by
  rw [rawRHEL7, List.map_append, toks_F21 s hp he hc hf hlvm, mapu_nohome s]
  rw [show lRHEL7 s = lF21 s ++ [nohomeE s] from rfl, toksOf_append,
    toksOf_cons]
  simp [toksOf]

/-- The unquoted F26 words are the F26 entry tokens. -/
theorem toks_F26 (s : AutoPart) (hp : cleanVal s.passphrase)
    (he : cleanVal s.escrowcert) (hc : cleanVal s.cipher)
    (hf : cleanVal s.fstype) (hlvm : s.lvm = true) :
    (rawF26 s).map unquote = toksOf (lF26 s) := by
  rw [rawF26, List.map_append, List.map_append, List.map_append,
    toks_F21 s hp he hc hf hlvm, mapu_nohome s, mapu_noboot s, mapu_noswap s]
  rw [show lF26 s = lF21 s ++ [nohomeE s, nobootE s, noswapE s] from rfl,
    toksOf_append, toksOf_cons, toksOf_cons, toksOf_cons]
  simp [toksOf]

/-- The serialized passphrase word is a single whitespace-free word. -/
theorem wordOK_passTok (p : Str) (hp : cleanVal p) : WordOK (passTok p) := by
  constructor
  · exact ne_nil_append _ _ (ne_nil_append _ _ (by decide))
  · intro ch hch
    simp only [passTok, List.append_assoc, List.mem_append] at hch
    rcases hch with h | h | h
    · exact (by decide :
        ∀ ch ∈ (("--passphrase=\"").data : Str), isPySpace ch = false) ch h
    · exact (hp ch h).1
    · exact (by decide :
        ∀ ch ∈ (("\"").data : Str), isPySpace ch = false) ch h

/-- The serialized escrowcert word is a single whitespace-free word. -/
theorem wordOK_escrowTok (e : Str) (he : cleanVal e) :
    WordOK (escrowTok e) := by
  constructor
  · exact ne_nil_append _ _ (ne_nil_append _ _ (by decide))
  · intro ch hch
    simp only [escrowTok, List.append_assoc, List.mem_append] at hch
    rcases hch with h | h | h
    · exact (by decide :
        ∀ ch ∈ (("--escrowcert=\"").data : Str), isPySpace ch = false) ch h
    · exact (he ch h).1
    · exact (by decide :
        ∀ ch ∈ (("\"").data : Str), isPySpace ch = false) ch h

/-- The serialized cipher word is a single whitespace-free word. -/
theorem wordOK_cipherTok (cv : Str) (hc : cleanVal cv) :
    WordOK (cipherTok cv) := by
  constructor
  · exact ne_nil_append _ _ (ne_nil_append _ _ (by decide))
  · intro ch hch
    simp only [cipherTok, List.append_assoc, List.mem_append] at hch
    rcases hch with h | h | h
    · exact (by decide :
        ∀ ch ∈ (("--cipher=\"").data : Str), isPySpace ch = false) ch h
    · exact (hc ch h).1
    · exact (by decide :
        ∀ ch ∈ (("\"").data : Str), isPySpace ch = false) ch h

/-- The serialized fstype word is a single whitespace-free word. -/
theorem wordOK_fstypeTok (f : Str) (hf : cleanVal f) :
    WordOK (("--fstype=").data ++ f) := by
  constructor
  · exact ne_nil_append _ _ (by decide)
  · intro ch hch
    rcases List.mem_append.mp hch with h | h
    · exact (by decide :
        ∀ ch ∈ (("--fstype=").data : Str), isPySpace ch = false) ch h
    · exact (hf ch h).1

/-- The F9 words are single whitespace-free words. -/
theorem wordOK_rawF9 (s : AutoPart) (hp : cleanVal s.passphrase) :
    ∀ w ∈ rawF9 s, WordOK w := by
  intro w hw
  unfold rawF9 at hw
  rcases List.mem_append.mp hw with h1 | h1
  · rw [mem_ifsingle h1]
    exact ⟨by decide, by decide⟩
  · rw [mem_ifsingle h1]
    exact wordOK_passTok s.passphrase hp

/-- The F12 words are single whitespace-free words. -/
theorem wordOK_rawF12 (s : AutoPart) (hp : cleanVal s.passphrase)
    (he : cleanVal s.escrowcert) : ∀ w ∈ rawF12 s, WordOK w := by
  intro w hw
  unfold rawF12 at hw
  rcases List.mem_append.mp hw with h1 | h1
  · rcases List.mem_append.mp h1 with h2 | h2
    · exact wordOK_rawF9 s hp w h2
    · rw [mem_ifsingle h2]
      exact wordOK_escrowTok s.escrowcert he
  · rw [mem_ifsingle h1]
    exact ⟨by decide, by decide⟩

/-- The RHEL6 words are single whitespace-free words. -/
theorem wordOK_rawRHEL6 (s : AutoPart) (hp : cleanVal s.passphrase)
    (he : cleanVal s.escrowcert) (hc : cleanVal s.cipher) :
    ∀ w ∈ rawRHEL6 s, WordOK w := by
  intro w hw
  unfold rawRHEL6 at hw
  rcases List.mem_append.mp hw with h1 | h1
  · exact wordOK_rawF12 s hp he w h1
  · rw [mem_ifsingle h1]
    exact wordOK_cipherTok s.cipher hc

/-- The F16 words are single whitespace-free words. -/
theorem wordOK_rawF16 (s : AutoPart) (hp : cleanVal s.passphrase)
    (he : cleanVal s.escrowcert) : ∀ w ∈ rawF16 s, WordOK w := by
  intro w hw
  unfold rawF16 at hw
  rcases List.mem_append.mp hw with h1 | h1
  · exact wordOK_rawF12 s hp he w h1
  · rw [mem_ifsingle h1]
    exact ⟨by decide, by decide⟩

/-- The F17 words are single whitespace-free words. -/
theorem wordOK_rawF17 (tm : List (Str × ATy)) (s : AutoPart)
    (htm : tm = tmF17 ∨ tm = tmF20) (hp : cleanVal s.passphrase)
    (he : cleanVal s.escrowcert) : ∀ w ∈ rawF17 tm s, WordOK w := by
  intro w hw
  unfold rawF17 at hw
  rcases List.mem_append.mp hw with h1 | h1
  · exact wordOK_rawF16 s hp he w h1
  · cases hty : typeAsStr tm s.type with
    | none => rw [hty] at h1; simp at h1
    | some ty =>
      rw [hty] at h1
      simp only [List.mem_singleton] at h1
      rw [h1]
      exact (typeAsStr_tok tm s.type ty htm hty).1

/-- The F18 words are single whitespace-free words. -/
theorem wordOK_rawF18 (tm : List (Str × ATy)) (s : AutoPart)
    (htm : tm = tmF17 ∨ tm = tmF20) (hp : cleanVal s.passphrase)
    (he : cleanVal s.escrowcert) (hc : cleanVal s.cipher) :
    ∀ w ∈ rawF18 tm s, WordOK w := by
  intro w hw
  unfold rawF18 at hw
  rcases List.mem_append.mp hw with h1 | h1
  · exact wordOK_rawF17 tm s htm hp he w h1
  · rw [mem_ifsingle h1]
    exact wordOK_cipherTok s.cipher hc

/-- The F21 words are single whitespace-free words. -/
theorem wordOK_rawF21 (tm : List (Str × ATy)) (s : AutoPart)
    (htm : tm = tmF17 ∨ tm = tmF20) (hp : cleanVal s.passphrase)
    (he : cleanVal s.escrowcert) (hc : cleanVal s.cipher)
    (hf : cleanVal s.fstype) : ∀ w ∈ rawF21 tm s, WordOK w := by
  intro w hw
  unfold rawF21 at hw
  rcases List.mem_append.mp hw with h1 | h1
  · exact wordOK_rawF18 tm s htm hp he hc w h1
  · rw [mem_ifsingle h1]
    exact wordOK_fstypeTok s.fstype hf

/-- The RHEL7 words are single whitespace-free words. -/
theorem wordOK_rawRHEL7 (s : AutoPart) (hp : cleanVal s.passphrase)
    (he : cleanVal s.escrowcert) (hc : cleanVal s.cipher)
    (hf : cleanVal s.fstype) : ∀ w ∈ rawRHEL7 s, WordOK w := by
  intro w hw
  unfold rawRHEL7 at hw
  rcases List.mem_append.mp hw with h1 | h1
  · exact wordOK_rawF21 tmF20 s (Or.inr rfl) hp he hc hf w h1
  · rw [mem_ifsingle h1]
    exact ⟨by decide, by decide⟩

/-- The F26 words are single whitespace-free words. -/
theorem wordOK_rawF26 (s : AutoPart) (hp : cleanVal s.passphrase)
    (he : cleanVal s.escrowcert) (hc : cleanVal s.cipher)
    (hf : cleanVal s.fstype) : ∀ w ∈ rawF26 s, WordOK w := by
  intro w hw
  unfold rawF26 at hw
  rcases List.mem_append.mp hw with h1 | h1
  · rcases List.mem_append.mp h1 with h2 | h2
    · rcases List.mem_append.mp h2 with h3 | h3
      · exact wordOK_rawF21 tmF20 s (Or.inr rfl) hp he hc hf w h3
      · rw [mem_ifsingle h3]
        exact ⟨by decide, by decide⟩
    · rw [mem_ifsingle h2]
      exact ⟨by decide, by decide⟩
  · rw [mem_ifsingle h1]
    exact ⟨by decide, by decide⟩

/-- The F9 entries align with the F9 schema. -/
theorem aligned_lF9 (s : AutoPart) : AlignedOK schF9 (lF9 s) := by
  apply alignedOK_of
  intro e he
  simp only [lF9, List.mem_cons, List.not_mem_nil, or_false] at he
  rcases he with rfl | rfl
  · exact entry_encE schF9 s (by decide)
  · exact entry_passE schF9 s (by decide)

/-- The F12 entries align with the F12 schema. -/
theorem aligned_lF12 (s : AutoPart) : AlignedOK schF12 (lF12 s) := by
  apply alignedOK_of
  intro e he
  simp only [lF12, lF9, List.mem_append, List.mem_cons, List.not_mem_nil,
    or_false] at he
  rcases he with (rfl | rfl) | (rfl | rfl)
  · exact entry_encE schF12 s (by decide)
  · exact entry_passE schF12 s (by decide)
  · exact entry_escrowE schF12 s (by decide)
  · exact entry_backupE schF12 s (by decide)

/-- The RHEL6 entries align with the RHEL6 schema. -/
theorem aligned_lRHEL6 (s : AutoPart) : AlignedOK schRHEL6 (lRHEL6 s) := by
  apply alignedOK_of
  intro e he
  simp only [lRHEL6, lF12, lF9, List.mem_append, List.mem_cons,
    List.not_mem_nil, or_false] at he
  rcases he with ((rfl | rfl) | (rfl | rfl)) | rfl
  · exact entry_encE schRHEL6 s (by decide)
  · exact entry_passE schRHEL6 s (by decide)
  · exact entry_escrowE schRHEL6 s (by decide)
  · exact entry_backupE schRHEL6 s (by decide)
  · exact entry_cipherE schRHEL6 s (by decide)

/-- The F16 entries align with the F16 schema. -/
theorem aligned_lF16 (s : AutoPart) : AlignedOK schF16 (lF16 s) := by
  apply alignedOK_of
  intro e he
  simp only [lF16, lF12, lF9, List.mem_append, List.mem_cons,
    List.not_mem_nil, or_false] at he
  rcases he with ((rfl | rfl) | (rfl | rfl)) | rfl
  · exact entry_encE schF16 s (by decide)
  · exact entry_passE schF16 s (by decide)
  · exact entry_escrowE schF16 s (by decide)
  · exact entry_backupE schF16 s (by decide)
  · exact entry_nolvm16E schF16 s (by decide)

/-- The F17 entries align with the F17 schema, for either typeMap. -/
theorem aligned_lF17 (tm : List (Str × ATy)) (s : AutoPart)
    (htm : tm = tmF17 ∨ tm = tmF20) :
    AlignedOK (schF17 tm) (lF17 tm s) := by
  apply alignedOK_of
  intro e he
  simp only [lF17, lF12, lF9, List.mem_append, List.mem_cons,
    List.not_mem_nil, or_false] at he
  rcases he with ((rfl | rfl) | (rfl | rfl)) | (rfl | rfl)
  · exact entry_encE (schF17 tm) s (by rcases htm with rfl | rfl <;> decide)
  · exact entry_passE (schF17 tm) s (by rcases htm with rfl | rfl <;> decide)
  · exact entry_escrowE (schF17 tm) s
      (by rcases htm with rfl | rfl <;> decide)
  · exact entry_backupE (schF17 tm) s
      (by rcases htm with rfl | rfl <;> decide)
  · exact entry_nolvm17E (schF17 tm)
  · exact entry_typeE (schF17 tm) tm s htm
      (by rcases htm with rfl | rfl <;> decide)

/-- The F18 entries align with the F18 schema, for either typeMap. -/
theorem aligned_lF18 (tm : List (Str × ATy)) (s : AutoPart)
    (htm : tm = tmF17 ∨ tm = tmF20) :
    AlignedOK (schF18 tm) (lF18 tm s) := by
  apply alignedOK_of
  intro e he
  simp only [lF18, lF17, lF12, lF9, List.mem_append, List.mem_cons,
    List.not_mem_nil, or_false] at he
  rcases he with (((rfl | rfl) | (rfl | rfl)) | (rfl | rfl)) | rfl
  · exact entry_encE (schF18 tm) s (by rcases htm with rfl | rfl <;> decide)
  · exact entry_passE (schF18 tm) s (by rcases htm with rfl | rfl <;> decide)
  · exact entry_escrowE (schF18 tm) s
      (by rcases htm with rfl | rfl <;> decide)
  · exact entry_backupE (schF18 tm) s
      (by rcases htm with rfl | rfl <;> decide)
  · exact entry_nolvm17E (schF18 tm)
  · exact entry_typeE (schF18 tm) tm s htm
      (by rcases htm with rfl | rfl <;> decide)
  · exact entry_cipherE (schF18 tm) s
      (by rcases htm with rfl | rfl <;> decide)

/-- The F21 entries align with the F21 schema. -/
theorem aligned_lF21 (s : AutoPart) : AlignedOK schF21 (lF21 s) := by
  apply alignedOK_of
  intro e he
  simp only [lF21, lF18, lF17, lF12, lF9, List.mem_append, List.mem_cons,
    List.not_mem_nil, or_false] at he
  rcases he with ((((rfl | rfl) | (rfl | rfl)) | (rfl | rfl)) | rfl) | rfl
  · exact entry_encE schF21 s (by decide)
  · exact entry_passE schF21 s (by decide)
  · exact entry_escrowE schF21 s (by decide)
  · exact entry_backupE schF21 s (by decide)
  · exact entry_nolvm17E schF21
  · exact entry_typeE schF21 tmF20 s (Or.inr rfl) (by decide)
  · exact entry_cipherE schF21 s (by decide)
  · exact entry_fstypeE schF21 s (by decide)

/-- The RHEL7 entries align with the RHEL7 schema. -/
theorem aligned_lRHEL7 (s : AutoPart) : AlignedOK schRHEL7 (lRHEL7 s) := by
  apply alignedOK_of
  intro e he
  simp only [lRHEL7, lF21, lF18, lF17, lF12, lF9, List.mem_append,
    List.mem_cons, List.not_mem_nil, or_false] at he
  rcases he with (((((rfl | rfl) | (rfl | rfl)) | (rfl | rfl)) | rfl) |
    rfl) | rfl
  · exact entry_encE schRHEL7 s (by decide)
  · exact entry_passE schRHEL7 s (by decide)
  · exact entry_escrowE schRHEL7 s (by decide)
  · exact entry_backupE schRHEL7 s (by decide)
  · exact entry_nolvm17E schRHEL7
  · exact entry_typeE schRHEL7 tmF20 s (Or.inr rfl) (by decide)
  · exact entry_cipherE schRHEL7 s (by decide)
  · exact entry_fstypeE schRHEL7 s (by decide)
  · exact entry_nohomeE schRHEL7 s (by decide)

/-- The F26 entries align with the F26 schema. -/
theorem aligned_lF26 (s : AutoPart) : AlignedOK schF26 (lF26 s) := by
  apply alignedOK_of
  intro e he
  simp only [lF26, lF21, lF18, lF17, lF12, lF9, List.mem_append,
    List.mem_cons, List.not_mem_nil, or_false] at he
  rcases he with (((((rfl | rfl) | (rfl | rfl)) | (rfl | rfl)) | rfl) |
    rfl) | (rfl | rfl | rfl)
  · exact entry_encE schF26 s (by decide)
  · exact entry_passE schF26 s (by decide)
  · exact entry_escrowE schF26 s (by decide)
  · exact entry_backupE schF26 s (by decide)
  · exact entry_nolvm17E schF26
  · exact entry_typeE schF26 tmF20 s (Or.inr rfl) (by decide)
  · exact entry_cipherE schF26 s (by decide)
  · exact entry_fstypeE schF26 s (by decide)
  · exact entry_nohomeE schF26 s (by decide)
  · exact entry_nobootE schF26 s (by decide)
  · exact entry_noswapE schF26 s (by decide)

/-- The F9 option names are distinct. -/
theorem nodup_lF9 (s : AutoPart) :
    ((lF9 s).map (fun e => e.1.name)).Nodup := by
  rw [show (lF9 s).map (fun e => e.1.name) =
    [("--encrypted").data, ("--passphrase").data] from rfl]
  decide

/-- The F12 option names are distinct. -/
theorem nodup_lF12 (s : AutoPart) :
    ((lF12 s).map (fun e => e.1.name)).Nodup := by
  rw [show (lF12 s).map (fun e => e.1.name) =
    [("--encrypted").data, ("--passphrase").data, ("--escrowcert").data,
     ("--backuppassphrase").data] from rfl]
  decide

/-- The RHEL6 option names are distinct. -/
theorem nodup_lRHEL6 (s : AutoPart) :
    ((lRHEL6 s).map (fun e => e.1.name)).Nodup := by
  rw [show (lRHEL6 s).map (fun e => e.1.name) =
    [("--encrypted").data, ("--passphrase").data, ("--escrowcert").data,
     ("--backuppassphrase").data, ("--cipher").data] from rfl]
  decide

/-- The F16 option names are distinct. -/
theorem nodup_lF16 (s : AutoPart) :
    ((lF16 s).map (fun e => e.1.name)).Nodup := by
  rw [show (lF16 s).map (fun e => e.1.name) =
    [("--encrypted").data, ("--passphrase").data, ("--escrowcert").data,
     ("--backuppassphrase").data, ("--nolvm").data] from rfl]
  decide

/-- The F17 option names are distinct. -/
theorem nodup_lF17 (tm : List (Str × ATy)) (s : AutoPart) :
    ((lF17 tm s).map (fun e => e.1.name)).Nodup := by
  rw [show (lF17 tm s).map (fun e => e.1.name) =
    [("--encrypted").data, ("--passphrase").data, ("--escrowcert").data,
     ("--backuppassphrase").data, ("--nolvm").data, ("--type").data]
    from rfl]
  decide

/-- The F18 option names are distinct. -/
theorem nodup_lF18 (tm : List (Str × ATy)) (s : AutoPart) :
    ((lF18 tm s).map (fun e => e.1.name)).Nodup := by
  rw [show (lF18 tm s).map (fun e => e.1.name) =
    [("--encrypted").data, ("--passphrase").data, ("--escrowcert").data,
     ("--backuppassphrase").data, ("--nolvm").data, ("--type").data,
     ("--cipher").data] from rfl]
  decide

/-- The F21 option names are distinct. -/
theorem nodup_lF21 (s : AutoPart) :
    ((lF21 s).map (fun e => e.1.name)).Nodup := by
  rw [show (lF21 s).map (fun e => e.1.name) =
    [("--encrypted").data, ("--passphrase").data, ("--escrowcert").data,
     ("--backuppassphrase").data, ("--nolvm").data, ("--type").data,
     ("--cipher").data, ("--fstype").data] from rfl]
  decide

/-- The RHEL7 option names are distinct. -/
theorem nodup_lRHEL7 (s : AutoPart) :
    ((lRHEL7 s).map (fun e => e.1.name)).Nodup := by
  rw [show (lRHEL7 s).map (fun e => e.1.name) =
    [("--encrypted").data, ("--passphrase").data, ("--escrowcert").data,
     ("--backuppassphrase").data, ("--nolvm").data, ("--type").data,
     ("--cipher").data, ("--fstype").data, ("--nohome").data] from rfl]
  decide

/-- The F26 option names are distinct. -/
theorem nodup_lF26 (s : AutoPart) :
    ((lF26 s).map (fun e => e.1.name)).Nodup := by
  rw [show (lF26 s).map (fun e => e.1.name) =
    [("--encrypted").data, ("--passphrase").data, ("--escrowcert").data,
     ("--backuppassphrase").data, ("--nolvm").data, ("--type").data,
     ("--cipher").data, ("--fstype").data, ("--nohome").data,
     ("--noboot").data, ("--noswap").data] from rfl]
  decide

/-- The state write of the encrypted entry. -/
theorem updOf_encE (s st : AutoPart) :
    updOf (encE s) st =
      if s.encrypted = true then { st with encrypted := true } else st := by
  by_cases h : s.encrypted = true <;> simp [encE, updOf, h]

/-- The state write of the passphrase entry. -/
theorem updOf_passE (s st : AutoPart) :
    updOf (passE s) st =
      if s.encrypted = true ∧ s.passphrase ≠ [] then
        { st with passphrase := s.passphrase } else st := by
  by_cases h : s.encrypted = true ∧ s.passphrase ≠ [] <;>
    simp [passE, updOf, h]

/-- The state write of the escrowcert entry. -/
theorem updOf_escrowE (s st : AutoPart) :
    updOf (escrowE s) st =
      if s.encrypted = true ∧ s.escrowcert ≠ [] then
        { st with escrowcert := s.escrowcert } else st := by
  by_cases h : s.encrypted = true ∧ s.escrowcert ≠ [] <;>
    simp [escrowE, updOf, h]

/-- The state write of the backuppassphrase entry. -/
theorem updOf_backupE (s st : AutoPart) :
    updOf (backupE s) st =
      if (s.encrypted = true ∧ s.escrowcert ≠ []) ∧ s.backuppassphrase = true
      then { st with backuppassphrase := true } else st := by
  by_cases h : (s.encrypted = true ∧ s.escrowcert ≠ []) ∧
      s.backuppassphrase = true <;>
    simp [backupE, updOf, h]

/-- The state write of the cipher entry. -/
theorem updOf_cipherE (s st : AutoPart) :
    updOf (cipherE s) st =
      if s.encrypted = true ∧ s.cipher ≠ [] then
        { st with cipher := s.cipher } else st := by
  by_cases h : s.encrypted = true ∧ s.cipher ≠ [] <;>
    simp [cipherE, updOf, h]

/-- The state write of the F16 nolvm entry. -/
theorem updOf_nolvm16E (s st : AutoPart) :
    updOf (nolvm16E s) st =
      if s.lvm = false then { st with lvm := false } else st := by
  by_cases h : s.lvm = false <;> simp [nolvm16E, updOf, h]

/-- The F17 nolvm entry writes nothing. -/
theorem updOf_nolvm17E (st : AutoPart) : updOf nolvm17E st = st := rfl

/-- The state write of the type entry, on the type values the serializer
    can emit. -/
theorem updOf_typeE (tm : List (Str × ATy)) (s st : AutoPart)
    (htm : tm = tmF17 ∨ tm = tmF20)
    (hty : s.type = none ∨ s.type = some ATy.lvm ∨ s.type = some ATy.btrfs ∨
      s.type = some ATy.plain ∨ (tm = tmF20 ∧ s.type = some ATy.thinp)) :
    updOf (typeE tm s) st =
      match s.type with
      | none => st
      | some t => { st with type := some t } := by
  rcases hty with h | h | h | h | ⟨rfl, h⟩
  · simp only [typeE, h]
    rfl
  · rcases htm with rfl | rfl <;> (simp only [typeE, h]; rfl)
  · rcases htm with rfl | rfl <;> (simp only [typeE, h]; rfl)
  · rcases htm with rfl | rfl <;> (simp only [typeE, h]; rfl)
  · simp only [typeE, h]
    rfl

/-- The state write of the fstype entry. -/
theorem updOf_fstypeE (s st : AutoPart) :
    updOf (fstypeE s) st =
      if s.fstype ≠ [] then { st with fstype := s.fstype } else st := by
  by_cases h : s.fstype ≠ [] <;> simp [fstypeE, updOf, h]

/-- The state write of the nohome entry. -/
theorem updOf_nohomeE (s st : AutoPart) :
    updOf (nohomeE s) st =
      if s.nohome = true then { st with nohome := true } else st := by
  by_cases h : s.nohome = true <;> simp [nohomeE, updOf, h]

/-- The state write of the noboot entry. -/
theorem updOf_nobootE (s st : AutoPart) :
    updOf (nobootE s) st =
      if s.noboot = true then { st with noboot := true } else st := by
  by_cases h : s.noboot = true <;> simp [nobootE, updOf, h]

/-- The state write of the noswap entry. -/
theorem updOf_noswapE (s st : AutoPart) :
    updOf (noswapE s) st =
      if s.noswap = true then { st with noswap := true } else st := by
  by_cases h : s.noswap = true <;> simp [noswapE, updOf, h]

/-- Two states with equal fields are equal. -/
theorem autopart_ext (x y : AutoPart)
    (h1 : x.autopart = y.autopart) (h2 : x.encrypted = y.encrypted)
    (h3 : x.passphrase = y.passphrase) (h4 : x.escrowcert = y.escrowcert)
    (h5 : x.backuppassphrase = y.backuppassphrase) (h6 : x.cipher = y.cipher)
    (h7 : x.lvm = y.lvm) (h8 : x.type = y.type) (h9 : x.fstype = y.fstype)
    (h10 : x.nohome = y.nohome) (h11 : x.noboot = y.noboot)
    (h12 : x.noswap = y.noswap) : x = y := by
  cases x
  cases y
  congr 1

/-- A stored true-flag round-trips through its guard. -/
theorem ite_eq_bool (b : Bool) : (if b = true then true else false) = b := by
  cases b <;> simp

/-- A stored false-flag round-trips through its guard. -/
theorem ite_eq_boolneg (b : Bool) :
    (if b = false then false else true) = b := by
  cases b <;> simp

/-- A guarded value write recovers the value when the guard only fails on
    the default. -/
theorem fieldVal (b : Bool) (v : Str) (hv : b = false → v = []) :
    (if b = true ∧ v ≠ [] then v else []) = v := by
  by_cases hg : b = true ∧ v ≠ []
  · rw [if_pos hg]
  · rw [if_neg hg]
    cases hb : b
    · rw [hv hb]
    · by_cases hvv : v = []
      · rw [hvv]
      · exact absurd ⟨hb, hvv⟩ hg

/-- A nonempty-guarded value write recovers the value. -/
theorem fieldVal2 (v : Str) : (if v ≠ [] then v else []) = v := by
  by_cases h : v = [] <;> simp [h]

/-- The backuppassphrase guard recovers the flag when the flag forces its
    prerequisites. -/
theorem fieldBackup (e : Bool) (ec : Str) (b : Bool)
    (h1 : e = false → b = false) (h2 : ec = [] → b = false) :
    (if (e = true ∧ ec ≠ []) ∧ b = true then true else false) = b := by
  by_cases hg : (e = true ∧ ec ≠ []) ∧ b = true
  · rw [if_pos hg, hg.2]
  · rw [if_neg hg]
    cases hb : b
    · rfl
    · exfalso
      apply hg
      refine ⟨⟨?_, ?_⟩, hb⟩
      · cases he : e
        · rw [h1 he] at hb
          exact Bool.noConfusion hb
        · rfl
      · intro hee
        rw [h2 hee] at hb
        exact Bool.noConfusion hb

/-- The only type the serializer renders as btrfs is BTRFS. -/
theorem typeAsStr_btrfs (t : Option ATy)
    (h : typeAsStr tmF20 t = some (("btrfs").data)) :
    t = some ATy.btrfs := by
  rcases t with _ | v
  · simp [typeAsStr] at h
  · cases v
    · exact absurd h (by decide)
    · rfl
    · exact absurd h (by decide)
    · exact absurd h (by decide)

/-- The namespace the F9 entry writes produce over the defaults. -/
theorem updsF9 (s : AutoPart) :
    updOf (passE s) (updOf (encE s) initS) =
      { autopart := false
        encrypted := if s.encrypted = true then true else false
        passphrase := if s.encrypted = true ∧ s.passphrase ≠ [] then
          s.passphrase else []
        escrowcert := []
        backuppassphrase := false
        cipher := []
        lvm := true
        type := none
        fstype := []
        nohome := false
        noboot := false
        noswap := false } := by
  rw [updOf_encE, updOf_passE]
  by_cases h1 : s.encrypted = true <;>
    by_cases h2 : s.encrypted = true ∧ s.passphrase ≠ [] <;>
      by_cases h2b : s.passphrase = [] <;>
        simp [h1, h2, h2b, initS]

/-- The namespace the F12 entry writes produce over the defaults. -/
theorem updsF12 (s : AutoPart) :
    updOf (backupE s) (updOf (escrowE s)
      (updOf (passE s) (updOf (encE s) initS))) =
      { autopart := false
        encrypted := if s.encrypted = true then true else false
        passphrase := if s.encrypted = true ∧ s.passphrase ≠ [] then
          s.passphrase else []
        escrowcert := if s.encrypted = true ∧ s.escrowcert ≠ [] then
          s.escrowcert else []
        backuppassphrase := if (s.encrypted = true ∧ s.escrowcert ≠ []) ∧
          s.backuppassphrase = true then true else false
        cipher := []
        lvm := true
        type := none
        fstype := []
        nohome := false
        noboot := false
        noswap := false } := by
  rw [updsF9, updOf_escrowE, updOf_backupE]
  by_cases h3 : s.encrypted = true ∧ s.escrowcert ≠ [] <;>
    by_cases h4 : (s.encrypted = true ∧ s.escrowcert ≠ []) ∧
      s.backuppassphrase = true <;>
      by_cases h4b : s.backuppassphrase = true <;>
        simp [h3, h4, h4b]

/-- The namespace the RHEL6 entry writes produce over the defaults. -/
theorem updsRHEL6 (s : AutoPart) :
    updOf (cipherE s) (updOf (backupE s) (updOf (escrowE s)
      (updOf (passE s) (updOf (encE s) initS)))) =
      { autopart := false
        encrypted := if s.encrypted = true then true else false
        passphrase := if s.encrypted = true ∧ s.passphrase ≠ [] then
          s.passphrase else []
        escrowcert := if s.encrypted = true ∧ s.escrowcert ≠ [] then
          s.escrowcert else []
        backuppassphrase := if (s.encrypted = true ∧ s.escrowcert ≠ []) ∧
          s.backuppassphrase = true then true else false
        cipher := if s.encrypted = true ∧ s.cipher ≠ [] then s.cipher else []
        lvm := true
        type := none
        fstype := []
        nohome := false
        noboot := false
        noswap := false } := by
  rw [updsF12, updOf_cipherE]
  by_cases h5 : s.encrypted = true ∧ s.cipher ≠ [] <;> simp [h5]

/-- The namespace the F16 entry writes produce over the defaults. -/
theorem updsF16 (s : AutoPart) :
    updOf (nolvm16E s) (updOf (backupE s) (updOf (escrowE s)
      (updOf (passE s) (updOf (encE s) initS)))) =
      { autopart := false
        encrypted := if s.encrypted = true then true else false
        passphrase := if s.encrypted = true ∧ s.passphrase ≠ [] then
          s.passphrase else []
        escrowcert := if s.encrypted = true ∧ s.escrowcert ≠ [] then
          s.escrowcert else []
        backuppassphrase := if (s.encrypted = true ∧ s.escrowcert ≠ []) ∧
          s.backuppassphrase = true then true else false
        cipher := []
        lvm := if s.lvm = false then false else true
        type := none
        fstype := []
        nohome := false
        noboot := false
        noswap := false } := by
  rw [updsF12, updOf_nolvm16E]
  by_cases h5 : s.lvm = false <;> simp [h5]

/-- The namespace the F17 entry writes produce over the defaults. -/
theorem updsF17 (tm : List (Str × ATy)) (s : AutoPart)
    (htm : tm = tmF17 ∨ tm = tmF20)
    (hty : s.type = none ∨ s.type = some ATy.lvm ∨ s.type = some ATy.btrfs ∨
      s.type = some ATy.plain ∨ (tm = tmF20 ∧ s.type = some ATy.thinp)) :
    updOf (typeE tm s) (updOf nolvm17E (updOf (backupE s) (updOf (escrowE s)
      (updOf (passE s) (updOf (encE s) initS))))) =
      { autopart := false
        encrypted := if s.encrypted = true then true else false
        passphrase := if s.encrypted = true ∧ s.passphrase ≠ [] then
          s.passphrase else []
        escrowcert := if s.encrypted = true ∧ s.escrowcert ≠ [] then
          s.escrowcert else []
        backuppassphrase := if (s.encrypted = true ∧ s.escrowcert ≠ []) ∧
          s.backuppassphrase = true then true else false
        cipher := []
        lvm := true
        type := s.type
        fstype := []
        nohome := false
        noboot := false
        noswap := false } := by
  rw [updOf_nolvm17E, updsF12, updOf_typeE tm s _ htm hty]
  rcases hty with h | h | h | h | ⟨_, h⟩ <;> simp [h]

/-- The namespace the F18 entry writes produce over the defaults. -/
theorem updsF18 (tm : List (Str × ATy)) (s : AutoPart)
    (htm : tm = tmF17 ∨ tm = tmF20)
    (hty : s.type = none ∨ s.type = some ATy.lvm ∨ s.type = some ATy.btrfs ∨
      s.type = some ATy.plain ∨ (tm = tmF20 ∧ s.type = some ATy.thinp)) :
    updOf (cipherE s) (updOf (typeE tm s) (updOf nolvm17E (updOf (backupE s)
      (updOf (escrowE s) (updOf (passE s) (updOf (encE s) initS)))))) =
      { autopart := false
        encrypted := if s.encrypted = true then true else false
        passphrase := if s.encrypted = true ∧ s.passphrase ≠ [] then
          s.passphrase else []
        escrowcert := if s.encrypted = true ∧ s.escrowcert ≠ [] then
          s.escrowcert else []
        backuppassphrase := if (s.encrypted = true ∧ s.escrowcert ≠ []) ∧
          s.backuppassphrase = true then true else false
        cipher := if s.encrypted = true ∧ s.cipher ≠ [] then s.cipher else []
        lvm := true
        type := s.type
        fstype := []
        nohome := false
        noboot := false
        noswap := false } := by
  rw [updsF17 tm s htm hty, updOf_cipherE]
  by_cases h5 : s.encrypted = true ∧ s.cipher ≠ [] <;> simp [h5]

/-- The namespace the F21 entry writes produce over the defaults. -/
theorem updsF21 (s : AutoPart)
    (hty : s.type = none ∨ s.type = some ATy.lvm ∨ s.type = some ATy.btrfs ∨
      s.type = some ATy.plain ∨ (tmF20 = tmF20 ∧ s.type = some ATy.thinp)) :
    updOf (fstypeE s) (updOf (cipherE s) (updOf (typeE tmF20 s)
      (updOf nolvm17E (updOf (backupE s) (updOf (escrowE s)
      (updOf (passE s) (updOf (encE s) initS))))))) =
      { autopart := false
        encrypted := if s.encrypted = true then true else false
        passphrase := if s.encrypted = true ∧ s.passphrase ≠ [] then
          s.passphrase else []
        escrowcert := if s.encrypted = true ∧ s.escrowcert ≠ [] then
          s.escrowcert else []
        backuppassphrase := if (s.encrypted = true ∧ s.escrowcert ≠ []) ∧
          s.backuppassphrase = true then true else false
        cipher := if s.encrypted = true ∧ s.cipher ≠ [] then s.cipher else []
        lvm := true
        type := s.type
        fstype := if s.fstype ≠ [] then s.fstype else []
        nohome := false
        noboot := false
        noswap := false } := by
  rw [updsF18 tmF20 s (Or.inr rfl) hty, updOf_fstypeE]
  by_cases h6 : s.fstype ≠ [] <;> simp [h6]

/-- The namespace the RHEL7 entry writes produce over the defaults. -/
theorem updsRHEL7 (s : AutoPart)
    (hty : s.type = none ∨ s.type = some ATy.lvm ∨ s.type = some ATy.btrfs ∨
      s.type = some ATy.plain ∨ (tmF20 = tmF20 ∧ s.type = some ATy.thinp)) :
    updOf (nohomeE s) (updOf (fstypeE s) (updOf (cipherE s)
      (updOf (typeE tmF20 s) (updOf nolvm17E (updOf (backupE s)
      (updOf (escrowE s) (updOf (passE s) (updOf (encE s) initS)))))))) =
      { autopart := false
        encrypted := if s.encrypted = true then true else false
        passphrase := if s.encrypted = true ∧ s.passphrase ≠ [] then
          s.passphrase else []
        escrowcert := if s.encrypted = true ∧ s.escrowcert ≠ [] then
          s.escrowcert else []
        backuppassphrase := if (s.encrypted = true ∧ s.escrowcert ≠ []) ∧
          s.backuppassphrase = true then true else false
        cipher := if s.encrypted = true ∧ s.cipher ≠ [] then s.cipher else []
        lvm := true
        type := s.type
        fstype := if s.fstype ≠ [] then s.fstype else []
        nohome := if s.nohome = true then true else false
        noboot := false
        noswap := false } := by
  rw [updsF21 s hty, updOf_nohomeE]
  by_cases h7 : s.nohome = true <;> simp [h7]

/-- The namespace the F26 entry writes produce over the defaults. -/
theorem updsF26 (s : AutoPart)
    (hty : s.type = none ∨ s.type = some ATy.lvm ∨ s.type = some ATy.btrfs ∨
      s.type = some ATy.plain ∨ (tmF20 = tmF20 ∧ s.type = some ATy.thinp)) :
    updOf (noswapE s) (updOf (nobootE s) (updOf (nohomeE s)
      (updOf (fstypeE s) (updOf (cipherE s) (updOf (typeE tmF20 s)
      (updOf nolvm17E (updOf (backupE s) (updOf (escrowE s)
      (updOf (passE s) (updOf (encE s) initS)))))))))) =
      { autopart := false
        encrypted := if s.encrypted = true then true else false
        passphrase := if s.encrypted = true ∧ s.passphrase ≠ [] then
          s.passphrase else []
        escrowcert := if s.encrypted = true ∧ s.escrowcert ≠ [] then
          s.escrowcert else []
        backuppassphrase := if (s.encrypted = true ∧ s.escrowcert ≠ []) ∧
          s.backuppassphrase = true then true else false
        cipher := if s.encrypted = true ∧ s.cipher ≠ [] then s.cipher else []
        lvm := true
        type := s.type
        fstype := if s.fstype ≠ [] then s.fstype else []
        nohome := if s.nohome = true then true else false
        noboot := if s.noboot = true then true else false
        noswap := if s.noswap = true then true else false } := by
  rw [updsRHEL7 s hty, updOf_nobootE, updOf_noswapE]
  by_cases h8 : s.noboot = true <;> by_cases h9 : s.noswap = true <;>
    simp [h8, h9]

/-- Core round-trip for F9: re-parsing the emitted tokens rebuilds the
    state. -/
theorem core_F9 (s : AutoPart) (hwf : WF Cls.F9 s) :
    ∃ upd, optparse schF9 (toksOf (lF9 s)) = Except.ok upd ∧
      postParse Cls.F9 (upd initS) = s := by
  obtain ⟨ha, hpv, hev, hcv, hfv, hdep, hescb, hr1, hr2, hcip, hlvm, hty5,
    htyv, hft8, hbt, hnh, hnbs⟩ := hwf
  refine ⟨_, optparse_aligned (lF9 s) (aligned_lF9 s) (nodup_lF9 s), ?_⟩
  show postParse Cls.F9 (updOf (passE s) (updOf (encE s) initS)) = s
  rw [updsF9 s]
  rw [show ∀ x, postParse Cls.F9 x = { x with autopart := true } from
    fun x => rfl]
  apply autopart_ext
  · exact ha.symm
  · exact ite_eq_bool s.encrypted
  · exact fieldVal s.encrypted s.passphrase (fun hb => (hdep hb).1)
  · exact ((hr2 (by decide)).1).symm
  · exact ((hr2 (by decide)).2).symm
  · exact (hcip (by decide)).symm
  · exact (hlvm (by decide)).symm
  · exact (hty5 (by decide)).symm
  · exact (hft8 (by decide)).symm
  · exact (hnh (by decide)).symm
  · exact ((hnbs (by decide)).1).symm
  · exact ((hnbs (by decide)).2).symm

/-- Core round-trip for F12. -/
theorem core_F12 (s : AutoPart) (hwf : WF Cls.F12 s) :
    ∃ upd, optparse schF12 (toksOf (lF12 s)) = Except.ok upd ∧
      postParse Cls.F12 (upd initS) = s := by
  obtain ⟨ha, hpv, hev, hcv, hfv, hdep, hescb, hr1, hr2, hcip, hlvm, hty5,
    htyv, hft8, hbt, hnh, hnbs⟩ := hwf
  refine ⟨_, optparse_aligned (lF12 s) (aligned_lF12 s) (nodup_lF12 s), ?_⟩
  show postParse Cls.F12 (updOf (backupE s) (updOf (escrowE s)
    (updOf (passE s) (updOf (encE s) initS)))) = s
  rw [updsF12 s]
  rw [show ∀ x, postParse Cls.F12 x = { x with autopart := true } from
    fun x => rfl]
  apply autopart_ext
  · exact ha.symm
  · exact ite_eq_bool s.encrypted
  · exact fieldVal s.encrypted s.passphrase (fun hb => (hdep hb).1)
  · exact fieldVal s.encrypted s.escrowcert (fun hb => (hdep hb).2.1)
  · exact fieldBackup s.encrypted s.escrowcert s.backuppassphrase
      (fun hb => (hdep hb).2.2.2) hescb
  · exact (hcip (by decide)).symm
  · exact (hlvm (by decide)).symm
  · exact (hty5 (by decide)).symm
  · exact (hft8 (by decide)).symm
  · exact (hnh (by decide)).symm
  · exact ((hnbs (by decide)).1).symm
  · exact ((hnbs (by decide)).2).symm

/-- Core round-trip for RHEL6. -/
theorem core_RHEL6 (s : AutoPart) (hwf : WF Cls.RHEL6 s) :
    ∃ upd, optparse schRHEL6 (toksOf (lRHEL6 s)) = Except.ok upd ∧
      postParse Cls.RHEL6 (upd initS) = s := by
  obtain ⟨ha, hpv, hev, hcv, hfv, hdep, hescb, hr1, hr2, hcip, hlvm, hty5,
    htyv, hft8, hbt, hnh, hnbs⟩ := hwf
  refine ⟨_, optparse_aligned (lRHEL6 s) (aligned_lRHEL6 s)
    (nodup_lRHEL6 s), ?_⟩
  show postParse Cls.RHEL6 (updOf (cipherE s) (updOf (backupE s)
    (updOf (escrowE s) (updOf (passE s) (updOf (encE s) initS))))) = s
  rw [updsRHEL6 s]
  rw [show ∀ x, postParse Cls.RHEL6 x = { x with autopart := true } from
    fun x => rfl]
  apply autopart_ext
  · exact ha.symm
  · exact ite_eq_bool s.encrypted
  · exact fieldVal s.encrypted s.passphrase (fun hb => (hdep hb).1)
  · exact fieldVal s.encrypted s.escrowcert (fun hb => (hdep hb).2.1)
  · exact fieldBackup s.encrypted s.escrowcert s.backuppassphrase
      (fun hb => (hdep hb).2.2.2) hescb
  · exact fieldVal s.encrypted s.cipher (fun hb => (hdep hb).2.2.1)
  · exact (hlvm (by decide)).symm
  · exact (hty5 (by decide)).symm
  · exact (hft8 (by decide)).symm
  · exact (hnh (by decide)).symm
  · exact ((hnbs (by decide)).1).symm
  · exact ((hnbs (by decide)).2).symm

/-- Core round-trip for F16. -/
theorem core_F16 (s : AutoPart) (hwf : WF Cls.F16 s) :
    ∃ upd, optparse schF16 (toksOf (lF16 s)) = Except.ok upd ∧
      postParse Cls.F16 (upd initS) = s := by
  obtain ⟨ha, hpv, hev, hcv, hfv, hdep, hescb, hr1, hr2, hcip, hlvm, hty5,
    htyv, hft8, hbt, hnh, hnbs⟩ := hwf
  refine ⟨_, optparse_aligned (lF16 s) (aligned_lF16 s) (nodup_lF16 s), ?_⟩
  show postParse Cls.F16 (updOf (nolvm16E s) (updOf (backupE s)
    (updOf (escrowE s) (updOf (passE s) (updOf (encE s) initS))))) = s
  rw [updsF16 s]
  rw [show ∀ x, postParse Cls.F16 x = { x with autopart := true } from
    fun x => rfl]
  apply autopart_ext
  · exact ha.symm
  · exact ite_eq_bool s.encrypted
  · exact fieldVal s.encrypted s.passphrase (fun hb => (hdep hb).1)
  · exact fieldVal s.encrypted s.escrowcert (fun hb => (hdep hb).2.1)
  · exact fieldBackup s.encrypted s.escrowcert s.backuppassphrase
      (fun hb => (hdep hb).2.2.2) hescb
  · exact (hcip (by decide)).symm
  · exact ite_eq_boolneg s.lvm
  · exact (hty5 (by decide)).symm
  · exact (hft8 (by decide)).symm
  · exact (hnh (by decide)).symm
  · exact ((hnbs (by decide)).1).symm
  · exact ((hnbs (by decide)).2).symm

/-- Core round-trip for F17. -/
theorem core_F17 (s : AutoPart) (hwf : WF Cls.F17 s) :
    ∃ upd, optparse (schF17 tmF17) (toksOf (lF17 tmF17 s)) = Except.ok upd ∧
      postParse Cls.F17 (upd initS) = s := by
  obtain ⟨ha, hpv, hev, hcv, hfv, hdep, hescb, hr1, hr2, hcip, hlvm, hty5,
    htyv, hft8, hbt, hnh, hnbs⟩ := hwf
  have hty : s.type = none ∨ s.type = some ATy.lvm ∨
      s.type = some ATy.btrfs ∨ s.type = some ATy.plain ∨
      (tmF17 = tmF20 ∧ s.type = some ATy.thinp) := by
    rcases htyv with hmem | ⟨hrk, _⟩
    · simp only [List.mem_cons, List.not_mem_nil, or_false] at hmem
      rcases hmem with h | h | h | h
      · exact Or.inl h
      · exact Or.inr (Or.inl h)
      · exact Or.inr (Or.inr (Or.inl h))
      · exact Or.inr (Or.inr (Or.inr (Or.inl h)))
    · exact absurd hrk (by decide)
  refine ⟨_, optparse_aligned (lF17 tmF17 s)
    (aligned_lF17 tmF17 s (Or.inl rfl)) (nodup_lF17 tmF17 s), ?_⟩
  show postParse Cls.F17 (updOf (typeE tmF17 s) (updOf nolvm17E
    (updOf (backupE s) (updOf (escrowE s)
    (updOf (passE s) (updOf (encE s) initS)))))) = s
  rw [updsF17 tmF17 s (Or.inl rfl) hty]
  rw [show ∀ x, postParse Cls.F17 x =
    { x with autopart := true, lvm := true } from fun x => rfl]
  apply autopart_ext
  · exact ha.symm
  · exact ite_eq_bool s.encrypted
  · exact fieldVal s.encrypted s.passphrase (fun hb => (hdep hb).1)
  · exact fieldVal s.encrypted s.escrowcert (fun hb => (hdep hb).2.1)
  · exact fieldBackup s.encrypted s.escrowcert s.backuppassphrase
      (fun hb => (hdep hb).2.2.2) hescb
  · exact (hcip (by decide)).symm
  · exact (hlvm (by decide)).symm
  · rfl
  · exact (hft8 (by decide)).symm
  · exact (hnh (by decide)).symm
  · exact ((hnbs (by decide)).1).symm
  · exact ((hnbs (by decide)).2).symm

/-- Core round-trip for the F18 class. -/
theorem core_F18 (s : AutoPart) (hwf : WF Cls.F18 s) :
    ∃ upd, optparse (schF18 tmF17) (toksOf (lF18 tmF17 s)) = Except.ok upd ∧
      postParse Cls.F18 (upd initS) = s := by
  obtain ⟨ha, hpv, hev, hcv, hfv, hdep, hescb, hr1, hr2, hcip, hlvm, hty5,
    htyv, hft8, hbt, hnh, hnbs⟩ := hwf
  have hty : s.type = none ∨ s.type = some ATy.lvm ∨
      s.type = some ATy.btrfs ∨ s.type = some ATy.plain ∨
      (tmF17 = tmF20 ∧ s.type = some ATy.thinp) := by
    rcases htyv with hmem | ⟨hrk, _⟩
    · simp only [List.mem_cons, List.not_mem_nil, or_false] at hmem
      rcases hmem with h | h | h | h
      · exact Or.inl h
      · exact Or.inr (Or.inl h)
      · exact Or.inr (Or.inr (Or.inl h))
      · exact Or.inr (Or.inr (Or.inr (Or.inl h)))
    · exact absurd hrk (by decide)
  refine ⟨_, optparse_aligned (lF18 tmF17 s)
    (aligned_lF18 tmF17 s (Or.inl rfl)) (nodup_lF18 tmF17 s), ?_⟩
  show postParse Cls.F18 (updOf (cipherE s) (updOf (typeE tmF17 s)
    (updOf nolvm17E (updOf (backupE s) (updOf (escrowE s)
    (updOf (passE s) (updOf (encE s) initS))))))) = s
  rw [updsF18 tmF17 s (Or.inl rfl) hty]
  rw [show ∀ x, postParse Cls.F18 x =
    { x with autopart := true, lvm := true } from fun x => rfl]
  apply autopart_ext
  · exact ha.symm
  · exact ite_eq_bool s.encrypted
  · exact fieldVal s.encrypted s.passphrase (fun hb => (hdep hb).1)
  · exact fieldVal s.encrypted s.escrowcert (fun hb => (hdep hb).2.1)
  · exact fieldBackup s.encrypted s.escrowcert s.backuppassphrase
      (fun hb => (hdep hb).2.2.2) hescb
  · exact fieldVal s.encrypted s.cipher (fun hb => (hdep hb).2.2.1)
  · exact (hlvm (by decide)).symm
  · rfl
  · exact (hft8 (by decide)).symm
  · exact (hnh (by decide)).symm
  · exact ((hnbs (by decide)).1).symm
  · exact ((hnbs (by decide)).2).symm

/-- Core round-trip for the F20 class. -/
theorem core_F20 (s : AutoPart) (hwf : WF Cls.F20 s) :
    ∃ upd, optparse (schF18 tmF20) (toksOf (lF18 tmF20 s)) = Except.ok upd ∧
      postParse Cls.F20 (upd initS) = s := by
  obtain ⟨ha, hpv, hev, hcv, hfv, hdep, hescb, hr1, hr2, hcip, hlvm, hty5,
    htyv, hft8, hbt, hnh, hnbs⟩ := hwf
  have hty : s.type = none ∨ s.type = some ATy.lvm ∨
      s.type = some ATy.btrfs ∨ s.type = some ATy.plain ∨
      (tmF20 = tmF20 ∧ s.type = some ATy.thinp) := by
    rcases htyv with hmem | ⟨_, hthin⟩
    · simp only [List.mem_cons, List.not_mem_nil, or_false] at hmem
      rcases hmem with h | h | h | h
      · exact Or.inl h
      · exact Or.inr (Or.inl h)
      · exact Or.inr (Or.inr (Or.inl h))
      · exact Or.inr (Or.inr (Or.inr (Or.inl h)))
    · exact Or.inr (Or.inr (Or.inr (Or.inr ⟨rfl, hthin⟩)))
  refine ⟨_, optparse_aligned (lF18 tmF20 s)
    (aligned_lF18 tmF20 s (Or.inr rfl)) (nodup_lF18 tmF20 s), ?_⟩
  show postParse Cls.F20 (updOf (cipherE s) (updOf (typeE tmF20 s)
    (updOf nolvm17E (updOf (backupE s) (updOf (escrowE s)
    (updOf (passE s) (updOf (encE s) initS))))))) = s
  rw [updsF18 tmF20 s (Or.inr rfl) hty]
  rw [show ∀ x, postParse Cls.F20 x =
    { x with autopart := true, lvm := true } from fun x => rfl]
  apply autopart_ext
  · exact ha.symm
  · exact ite_eq_bool s.encrypted
  · exact fieldVal s.encrypted s.passphrase (fun hb => (hdep hb).1)
  · exact fieldVal s.encrypted s.escrowcert (fun hb => (hdep hb).2.1)
  · exact fieldBackup s.encrypted s.escrowcert s.backuppassphrase
      (fun hb => (hdep hb).2.2.2) hescb
  · exact fieldVal s.encrypted s.cipher (fun hb => (hdep hb).2.2.1)
  · exact (hlvm (by decide)).symm
  · rfl
  · exact (hft8 (by decide)).symm
  · exact (hnh (by decide)).symm
  · exact ((hnbs (by decide)).1).symm
  · exact ((hnbs (by decide)).2).symm

/-- Core round-trip for F21. -/
theorem core_F21 (s : AutoPart) (hwf : WF Cls.F21 s) :
    ∃ upd, optparse schF21 (toksOf (lF21 s)) = Except.ok upd ∧
      postParse Cls.F21 (upd initS) = s := by
  obtain ⟨ha, hpv, hev, hcv, hfv, hdep, hescb, hr1, hr2, hcip, hlvm, hty5,
    htyv, hft8, hbt, hnh, hnbs⟩ := hwf
  have hty : s.type = none ∨ s.type = some ATy.lvm ∨
      s.type = some ATy.btrfs ∨ s.type = some ATy.plain ∨
      (tmF20 = tmF20 ∧ s.type = some ATy.thinp) := by
    rcases htyv with hmem | ⟨_, hthin⟩
    · simp only [List.mem_cons, List.not_mem_nil, or_false] at hmem
      rcases hmem with h | h | h | h
      · exact Or.inl h
      · exact Or.inr (Or.inl h)
      · exact Or.inr (Or.inr (Or.inl h))
      · exact Or.inr (Or.inr (Or.inr (Or.inl h)))
    · exact Or.inr (Or.inr (Or.inr (Or.inr ⟨rfl, hthin⟩)))
  refine ⟨_, optparse_aligned (lF21 s) (aligned_lF21 s) (nodup_lF21 s), ?_⟩
  show postParse Cls.F21 (updOf (fstypeE s) (updOf (cipherE s)
    (updOf (typeE tmF20 s) (updOf nolvm17E (updOf (backupE s)
    (updOf (escrowE s) (updOf (passE s) (updOf (encE s) initS)))))))) = s
  rw [updsF21 s hty]
  rw [show ∀ x, postParse Cls.F21 x =
    { x with autopart := true, lvm := true } from fun x => rfl]
  apply autopart_ext
  · exact ha.symm
  · exact ite_eq_bool s.encrypted
  · exact fieldVal s.encrypted s.passphrase (fun hb => (hdep hb).1)
  · exact fieldVal s.encrypted s.escrowcert (fun hb => (hdep hb).2.1)
  · exact fieldBackup s.encrypted s.escrowcert s.backuppassphrase
      (fun hb => (hdep hb).2.2.2) hescb
  · exact fieldVal s.encrypted s.cipher (fun hb => (hdep hb).2.2.1)
  · exact (hlvm (by decide)).symm
  · rfl
  · exact fieldVal2 s.fstype
  · exact (hnh (by decide)).symm
  · exact ((hnbs (by decide)).1).symm
  · exact ((hnbs (by decide)).2).symm

/-- Core round-trip for the F23 class, which shares the F21 schema. -/
theorem core_F23 (s : AutoPart) (hwf : WF Cls.F23 s) :
    ∃ upd, optparse schF21 (toksOf (lF21 s)) = Except.ok upd ∧
      postParse Cls.F23 (upd initS) = s := by
  obtain ⟨ha, hpv, hev, hcv, hfv, hdep, hescb, hr1, hr2, hcip, hlvm, hty5,
    htyv, hft8, hbt, hnh, hnbs⟩ := hwf
  have hty : s.type = none ∨ s.type = some ATy.lvm ∨
      s.type = some ATy.btrfs ∨ s.type = some ATy.plain ∨
      (tmF20 = tmF20 ∧ s.type = some ATy.thinp) := by
    rcases htyv with hmem | ⟨_, hthin⟩
    · simp only [List.mem_cons, List.not_mem_nil, or_false] at hmem
      rcases hmem with h | h | h | h
      · exact Or.inl h
      · exact Or.inr (Or.inl h)
      · exact Or.inr (Or.inr (Or.inl h))
      · exact Or.inr (Or.inr (Or.inr (Or.inl h)))
    · exact Or.inr (Or.inr (Or.inr (Or.inr ⟨rfl, hthin⟩)))
  refine ⟨_, optparse_aligned (lF21 s) (aligned_lF21 s) (nodup_lF21 s), ?_⟩
  show postParse Cls.F23 (updOf (fstypeE s) (updOf (cipherE s)
    (updOf (typeE tmF20 s) (updOf nolvm17E (updOf (backupE s)
    (updOf (escrowE s) (updOf (passE s) (updOf (encE s) initS)))))))) = s
  rw [updsF21 s hty]
  rw [show ∀ x, postParse Cls.F23 x =
    { x with autopart := true, lvm := true } from fun x => rfl]
  apply autopart_ext
  · exact ha.symm
  · exact ite_eq_bool s.encrypted
  · exact fieldVal s.encrypted s.passphrase (fun hb => (hdep hb).1)
  · exact fieldVal s.encrypted s.escrowcert (fun hb => (hdep hb).2.1)
  · exact fieldBackup s.encrypted s.escrowcert s.backuppassphrase
      (fun hb => (hdep hb).2.2.2) hescb
  · exact fieldVal s.encrypted s.cipher (fun hb => (hdep hb).2.2.1)
  · exact (hlvm (by decide)).symm
  · rfl
  · exact fieldVal2 s.fstype
  · exact (hnh (by decide)).symm
  · exact ((hnbs (by decide)).1).symm
  · exact ((hnbs (by decide)).2).symm

/-- Core round-trip for RHEL7. -/
theorem core_RHEL7 (s : AutoPart) (hwf : WF Cls.RHEL7 s) :
    ∃ upd, optparse schRHEL7 (toksOf (lRHEL7 s)) = Except.ok upd ∧
      postParse Cls.RHEL7 (upd initS) = s := by
  obtain ⟨ha, hpv, hev, hcv, hfv, hdep, hescb, hr1, hr2, hcip, hlvm, hty5,
    htyv, hft8, hbt, hnh, hnbs⟩ := hwf
  have hty : s.type = none ∨ s.type = some ATy.lvm ∨
      s.type = some ATy.btrfs ∨ s.type = some ATy.plain ∨
      (tmF20 = tmF20 ∧ s.type = some ATy.thinp) := by
    rcases htyv with hmem | ⟨_, hthin⟩
    · simp only [List.mem_cons, List.not_mem_nil, or_false] at hmem
      rcases hmem with h | h | h | h
      · exact Or.inl h
      · exact Or.inr (Or.inl h)
      · exact Or.inr (Or.inr (Or.inl h))
      · exact Or.inr (Or.inr (Or.inr (Or.inl h)))
    · exact Or.inr (Or.inr (Or.inr (Or.inr ⟨rfl, hthin⟩)))
  refine ⟨_, optparse_aligned (lRHEL7 s) (aligned_lRHEL7 s)
    (nodup_lRHEL7 s), ?_⟩
  show postParse Cls.RHEL7 (updOf (nohomeE s) (updOf (fstypeE s)
    (updOf (cipherE s) (updOf (typeE tmF20 s) (updOf nolvm17E
    (updOf (backupE s) (updOf (escrowE s) (updOf (passE s)
    (updOf (encE s) initS))))))))) = s
  rw [updsRHEL7 s hty]
  rw [show ∀ x, postParse Cls.RHEL7 x =
    { x with autopart := true, lvm := true } from fun x => rfl]
  apply autopart_ext
  · exact ha.symm
  · exact ite_eq_bool s.encrypted
  · exact fieldVal s.encrypted s.passphrase (fun hb => (hdep hb).1)
  · exact fieldVal s.encrypted s.escrowcert (fun hb => (hdep hb).2.1)
  · exact fieldBackup s.encrypted s.escrowcert s.backuppassphrase
      (fun hb => (hdep hb).2.2.2) hescb
  · exact fieldVal s.encrypted s.cipher (fun hb => (hdep hb).2.2.1)
  · exact (hlvm (by decide)).symm
  · rfl
  · exact fieldVal2 s.fstype
  · exact ite_eq_bool s.nohome
  · exact ((hnbs (by decide)).1).symm
  · exact ((hnbs (by decide)).2).symm

/-- Core round-trip for F26. -/
theorem core_F26 (s : AutoPart) (hwf : WF Cls.F26 s) :
    ∃ upd, optparse schF26 (toksOf (lF26 s)) = Except.ok upd ∧
      postParse Cls.F26 (upd initS) = s := by
  obtain ⟨ha, hpv, hev, hcv, hfv, hdep, hescb, hr1, hr2, hcip, hlvm, hty5,
    htyv, hft8, hbt, hnh, hnbs⟩ := hwf
  have hty : s.type = none ∨ s.type = some ATy.lvm ∨
      s.type = some ATy.btrfs ∨ s.type = some ATy.plain ∨
      (tmF20 = tmF20 ∧ s.type = some ATy.thinp) := by
    rcases htyv with hmem | ⟨_, hthin⟩
    · simp only [List.mem_cons, List.not_mem_nil, or_false] at hmem
      rcases hmem with h | h | h | h
      · exact Or.inl h
      · exact Or.inr (Or.inl h)
      · exact Or.inr (Or.inr (Or.inl h))
      · exact Or.inr (Or.inr (Or.inr (Or.inl h)))
    · exact Or.inr (Or.inr (Or.inr (Or.inr ⟨rfl, hthin⟩)))
  refine ⟨_, optparse_aligned (lF26 s) (aligned_lF26 s) (nodup_lF26 s), ?_⟩
  show postParse Cls.F26 (updOf (noswapE s) (updOf (nobootE s)
    (updOf (nohomeE s) (updOf (fstypeE s) (updOf (cipherE s)
    (updOf (typeE tmF20 s) (updOf nolvm17E (updOf (backupE s)
    (updOf (escrowE s) (updOf (passE s) (updOf (encE s) initS))))))))))) = s
  rw [updsF26 s hty]
  rw [show ∀ x, postParse Cls.F26 x =
    { x with autopart := true, lvm := true } from fun x => rfl]
  apply autopart_ext
  · exact ha.symm
  · exact ite_eq_bool s.encrypted
  · exact fieldVal s.encrypted s.passphrase (fun hb => (hdep hb).1)
  · exact fieldVal s.encrypted s.escrowcert (fun hb => (hdep hb).2.1)
  · exact fieldBackup s.encrypted s.escrowcert s.backuppassphrase
      (fun hb => (hdep hb).2.2.2) hescb
  · exact fieldVal s.encrypted s.cipher (fun hb => (hdep hb).2.2.1)
  · exact (hlvm (by decide)).symm
  · rfl
  · exact fieldVal2 s.fstype
  · exact ite_eq_bool s.nohome
  · exact ite_eq_bool s.noboot
  · exact ite_eq_bool s.noswap

/-- Evaluation of the RHEL6 parse on success in a conflict-free context. -/
theorem RHEL6_clean (s0 : AutoPart) (ctx : Ctx) (args : List Str)
    (upd : AutoPart → AutoPart)
    (hx : optparse schRHEL6 args = Except.ok upd)
    (hcc : conflictCmd ctx = none) :
    RHEL6_parse s0 ctx args =
      ({ upd s0 with autopart := true },
       { ctx with autopart_seen := true }, none) := by
  rw [RHEL6_parse_ok s0 ctx args upd hx]
  split
  · rename_i other hother
    rw [hcc] at hother
    exact Option.noConfusion hother
  · rfl

/-- Evaluation of the F20-style parse on success in a conflict-free
    context. -/
theorem ksparseF20_clean (sch : List OptSpec) (s0 : AutoPart) (ctx : Ctx)
    (args : List Str) (upd : AutoPart → AutoPart)
    (hx : optparse sch args = Except.ok upd)
    (hcc : conflictCmd ctx = none) :
    ksparseF20 sch s0 ctx args =
      ({ upd s0 with autopart := true, lvm := true },
       { ctx with autopart_seen := true }, none) := by
  rw [ksparseF20_ok sch s0 ctx args upd hx]
  split
  · rename_i other hother
    rw [hcc] at hother
    exact Option.noConfusion hother
  · rfl

/-- Evaluation of the F21-style parse on success in a conflict-free context
    on a state passing the two fstype checks. -/
theorem ksparseF21_clean (sch : List OptSpec) (s0 : AutoPart) (ctx : Ctx)
    (args : List Str) (upd : AutoPart → AutoPart)
    (hx : optparse sch args = Except.ok upd)
    (hcc : conflictCmd ctx = none)
    (h1 : ¬(upd s0).fstype = ("btrfs").data)
    (h2 : ¬(typeAsStr tmF20 (upd s0).type = some (("btrfs").data) ∧
      (upd s0).fstype ≠ [])) :
    ksparseF21 sch s0 ctx args =
      ({ upd s0 with autopart := true, lvm := true },
       { ctx with autopart_seen := true }, none) := by
  rw [ksparseF21_ok sch s0 ctx args upd hx]
  split
  · rename_i other hother
    rw [hcc] at hother
    exact Option.noConfusion hother
  · rw [if_neg h1, if_neg h2]

/-- C1 (amended): the serialize-then-reparse round-trip holds at every
    version class for every present state whose dependent options
    (passphrase, escrowcert, cipher, backuppassphrase) are unset unless
    their prerequisites are set, whose string values are free of
    whitespace and quote characters, and whose attributes outside the
    option surface of the class are at their defaults: tokenizing the
    serialized line yields the autopart word followed by the option
    tokens, and parsing those tokens from the initial state rebuilds
    exactly the original state.  The unrestricted claim is refuted by
    c1_roundtrip_cex. -/
theorem c1_roundtrip_amended (c : Cls) (s : AutoPart) (hwf : WF c s) :
    ∃ rest, tokenize (ksStr c s) = ("autopart").data :: rest ∧
      ksParse c initS initCtx rest =
        (s, { initCtx with autopart_seen := true }, none) := by
  cases c
  case FC3 =>
    obtain ⟨ha, hpv, hev, hcv, hfv, hdep, hescb, hr1, hr2, hcip, hlvm, hty5,
      htyv, hft8, hbt, hnh, hnbs⟩ := hwf
    refine ⟨[], ?_, ?_⟩
    · show tokenize (FC3_str s) = [("autopart").data]
      rw [show FC3_str s = ("autopart\n").data by
        simp [FC3_str, kickstartCommand_str, ha]]
      decide
    · show FC3_parse initS initCtx [] =
        (s, { initCtx with autopart_seen := true }, none)
      have hs : ({ initS with autopart := true } : AutoPart) = s := by
        apply autopart_ext
        · exact ha.symm
        · exact ((hr1 (by decide)).1).symm
        · exact ((hr1 (by decide)).2).symm
        · exact ((hr2 (by decide)).1).symm
        · exact ((hr2 (by decide)).2).symm
        · exact (hcip (by decide)).symm
        · exact (hlvm (by decide)).symm
        · exact (hty5 (by decide)).symm
        · exact (hft8 (by decide)).symm
        · exact (hnh (by decide)).symm
        · exact ((hnbs (by decide)).1).symm
        · exact ((hnbs (by decide)).2).symm
      rw [show FC3_parse initS initCtx [] =
        ({ initS with autopart := true },
         { initCtx with autopart_seen := true }, none) from rfl, hs]
  case F9 =>
    obtain ⟨upd, hopt, hpost⟩ := core_F9 s hwf
    obtain ⟨ha, hpv, hev, hcv, hfv, hdep, hescb, hr1, hr2, hcip, hlvm, hty5,
      htyv, hft8, hbt, hnh, hnbs⟩ := hwf
    refine ⟨(rawF9 s).map unquote, ?_, ?_⟩
    · show tokenize (F9_str s) = ("autopart").data :: (rawF9 s).map unquote
      rw [strA_F9 s ha]
      exact tokenize_lineOf (rawF9 s) (wordOK_rawF9 s hpv)
    · rw [toks_F9 s hpv]
      show ksparse schF9 initS initCtx (toksOf (lF9 s)) =
        (s, { initCtx with autopart_seen := true }, none)
      rw [ksparse_ok schF9 initS initCtx _ upd hopt]
      rw [show ({ upd initS with autopart := true } : AutoPart) =
        postParse Cls.F9 (upd initS) from rfl, hpost]
  case F12 =>
    obtain ⟨upd, hopt, hpost⟩ := core_F12 s hwf
    obtain ⟨ha, hpv, hev, hcv, hfv, hdep, hescb, hr1, hr2, hcip, hlvm, hty5,
      htyv, hft8, hbt, hnh, hnbs⟩ := hwf
    refine ⟨(rawF12 s).map unquote, ?_, ?_⟩
    · show tokenize (F12_str s) = ("autopart").data :: (rawF12 s).map unquote
      rw [strA_F12 s ha]
      exact tokenize_lineOf (rawF12 s) (wordOK_rawF12 s hpv hev)
    · rw [toks_F12 s hpv hev]
      show ksparse schF12 initS initCtx (toksOf (lF12 s)) =
        (s, { initCtx with autopart_seen := true }, none)
      rw [ksparse_ok schF12 initS initCtx _ upd hopt]
      rw [show ({ upd initS with autopart := true } : AutoPart) =
        postParse Cls.F12 (upd initS) from rfl, hpost]
  case RHEL6 =>
    obtain ⟨upd, hopt, hpost⟩ := core_RHEL6 s hwf
    obtain ⟨ha, hpv, hev, hcv, hfv, hdep, hescb, hr1, hr2, hcip, hlvm, hty5,
      htyv, hft8, hbt, hnh, hnbs⟩ := hwf
    refine ⟨(rawRHEL6 s).map unquote, ?_, ?_⟩
    · show tokenize (RHEL6_str s) =
        ("autopart").data :: (rawRHEL6 s).map unquote
      rw [strA_RHEL6 s ha]
      exact tokenize_lineOf (rawRHEL6 s) (wordOK_rawRHEL6 s hpv hev hcv)
    · rw [toks_RHEL6 s hpv hev hcv]
      show RHEL6_parse initS initCtx (toksOf (lRHEL6 s)) =
        (s, { initCtx with autopart_seen := true }, none)
      rw [RHEL6_clean initS initCtx _ upd hopt rfl]
      rw [show ({ upd initS with autopart := true } : AutoPart) =
        postParse Cls.RHEL6 (upd initS) from rfl, hpost]
  case F16 =>
    obtain ⟨upd, hopt, hpost⟩ := core_F16 s hwf
    obtain ⟨ha, hpv, hev, hcv, hfv, hdep, hescb, hr1, hr2, hcip, hlvm, hty5,
      htyv, hft8, hbt, hnh, hnbs⟩ := hwf
    refine ⟨(rawF16 s).map unquote, ?_, ?_⟩
    · show tokenize (F16_str s) = ("autopart").data :: (rawF16 s).map unquote
      rw [strA_F16 s ha]
      exact tokenize_lineOf (rawF16 s) (wordOK_rawF16 s hpv hev)
    · rw [toks_F16 s hpv hev]
      show ksparse schF16 initS initCtx (toksOf (lF16 s)) =
        (s, { initCtx with autopart_seen := true }, none)
      rw [ksparse_ok schF16 initS initCtx _ upd hopt]
      rw [show ({ upd initS with autopart := true } : AutoPart) =
        postParse Cls.F16 (upd initS) from rfl, hpost]
  case F17 =>
    obtain ⟨upd, hopt, hpost⟩ := core_F17 s hwf
    obtain ⟨ha, hpv, hev, hcv, hfv, hdep, hescb, hr1, hr2, hcip, hlvm, hty5,
      htyv, hft8, hbt, hnh, hnbs⟩ := hwf
    refine ⟨(rawF17 tmF17 s).map unquote, ?_, ?_⟩
    · show tokenize (F17_str tmF17 s) =
        ("autopart").data :: (rawF17 tmF17 s).map unquote
      rw [strA_F17 tmF17 s ha]
      exact tokenize_lineOf (rawF17 tmF17 s)
        (wordOK_rawF17 tmF17 s (Or.inl rfl) hpv hev)
    · rw [toks_F17 tmF17 s (Or.inl rfl) hpv hev (hlvm (by decide))]
      show ksparseF17 (schF17 tmF17) initS initCtx
        (toksOf (lF17 tmF17 s)) =
        (s, { initCtx with autopart_seen := true }, none)
      rw [ksparseF17_ok (schF17 tmF17) initS initCtx _ upd hopt]
      rw [show ({ upd initS with autopart := true, lvm := true } :
        AutoPart) = postParse Cls.F17 (upd initS) from rfl, hpost]
  case F18 =>
    obtain ⟨upd, hopt, hpost⟩ := core_F18 s hwf
    obtain ⟨ha, hpv, hev, hcv, hfv, hdep, hescb, hr1, hr2, hcip, hlvm, hty5,
      htyv, hft8, hbt, hnh, hnbs⟩ := hwf
    refine ⟨(rawF18 tmF17 s).map unquote, ?_, ?_⟩
    · show tokenize (F18_str tmF17 s) =
        ("autopart").data :: (rawF18 tmF17 s).map unquote
      rw [strA_F18 tmF17 s ha (Or.inl rfl)]
      exact tokenize_lineOf (rawF18 tmF17 s)
        (wordOK_rawF18 tmF17 s (Or.inl rfl) hpv hev hcv)
    · rw [toks_F18 tmF17 s (Or.inl rfl) hpv hev hcv (hlvm (by decide))]
      show ksparseF17 (schF18 tmF17) initS initCtx
        (toksOf (lF18 tmF17 s)) =
        (s, { initCtx with autopart_seen := true }, none)
      rw [ksparseF17_ok (schF18 tmF17) initS initCtx _ upd hopt]
      rw [show ({ upd initS with autopart := true, lvm := true } :
        AutoPart) = postParse Cls.F18 (upd initS) from rfl, hpost]
  case F20 =>
    obtain ⟨upd, hopt, hpost⟩ := core_F20 s hwf
    obtain ⟨ha, hpv, hev, hcv, hfv, hdep, hescb, hr1, hr2, hcip, hlvm, hty5,
      htyv, hft8, hbt, hnh, hnbs⟩ := hwf
    refine ⟨(rawF18 tmF20 s).map unquote, ?_, ?_⟩
    · show tokenize (F18_str tmF20 s) =
        ("autopart").data :: (rawF18 tmF20 s).map unquote
      rw [strA_F18 tmF20 s ha (Or.inr rfl)]
      exact tokenize_lineOf (rawF18 tmF20 s)
        (wordOK_rawF18 tmF20 s (Or.inr rfl) hpv hev hcv)
    · rw [toks_F18 tmF20 s (Or.inr rfl) hpv hev hcv (hlvm (by decide))]
      show ksparseF20 (schF18 tmF20) initS initCtx
        (toksOf (lF18 tmF20 s)) =
        (s, { initCtx with autopart_seen := true }, none)
      rw [ksparseF20_clean (schF18 tmF20) initS initCtx _ upd hopt rfl]
      rw [show ({ upd initS with autopart := true, lvm := true } :
        AutoPart) = postParse Cls.F20 (upd initS) from rfl, hpost]
  case F21 =>
    obtain ⟨upd, hopt, hpost⟩ := core_F21 s hwf
    obtain ⟨ha, hpv, hev, hcv, hfv, hdep, hescb, hr1, hr2, hcip, hlvm, hty5,
      htyv, hft8, hbt, hnh, hnbs⟩ := hwf
    have hfs : (upd initS).fstype = s.fstype := by
      rw [show (upd initS).fstype =
        (postParse Cls.F21 (upd initS)).fstype from rfl, hpost]
    have hts : (upd initS).type = s.type := by
      rw [show (upd initS).type =
        (postParse Cls.F21 (upd initS)).type from rfl, hpost]
    have h1 : ¬(upd initS).fstype = ("btrfs").data := by
      rw [hfs]
      exact (hbt (by decide)).1
    have h2 : ¬(typeAsStr tmF20 (upd initS).type = some (("btrfs").data) ∧
        (upd initS).fstype ≠ []) := by
      rw [hfs, hts]
      rintro ⟨hq, hne⟩
      exact (hbt (by decide)).2 ⟨typeAsStr_btrfs s.type hq, hne⟩
    refine ⟨(rawF21 tmF20 s).map unquote, ?_, ?_⟩
    · show tokenize (F21_str tmF20 s) =
        ("autopart").data :: (rawF21 tmF20 s).map unquote
      rw [strA_F21 tmF20 s ha (Or.inr rfl)]
      exact tokenize_lineOf (rawF21 tmF20 s)
        (wordOK_rawF21 tmF20 s (Or.inr rfl) hpv hev hcv hfv)
    · rw [toks_F21 s hpv hev hcv hfv (hlvm (by decide))]
      show ksparseF21 schF21 initS initCtx (toksOf (lF21 s)) =
        (s, { initCtx with autopart_seen := true }, none)
      rw [ksparseF21_clean schF21 initS initCtx _ upd hopt rfl h1 h2]
      rw [show ({ upd initS with autopart := true, lvm := true } :
        AutoPart) = postParse Cls.F21 (upd initS) from rfl, hpost]
  case RHEL7 =>
    obtain ⟨upd, hopt, hpost⟩ := core_RHEL7 s hwf
    obtain ⟨ha, hpv, hev, hcv, hfv, hdep, hescb, hr1, hr2, hcip, hlvm, hty5,
      htyv, hft8, hbt, hnh, hnbs⟩ := hwf
    have hfs : (upd initS).fstype = s.fstype := by
      rw [show (upd initS).fstype =
        (postParse Cls.RHEL7 (upd initS)).fstype from rfl, hpost]
    have hts : (upd initS).type = s.type := by
      rw [show (upd initS).type =
        (postParse Cls.RHEL7 (upd initS)).type from rfl, hpost]
    have h1 : ¬(upd initS).fstype = ("btrfs").data := by
      rw [hfs]
      exact (hbt (by decide)).1
    have h2 : ¬(typeAsStr tmF20 (upd initS).type = some (("btrfs").data) ∧
        (upd initS).fstype ≠ []) := by
      rw [hfs, hts]
      rintro ⟨hq, hne⟩
      exact (hbt (by decide)).2 ⟨typeAsStr_btrfs s.type hq, hne⟩
    refine ⟨(rawRHEL7 s).map unquote, ?_, ?_⟩
    · show tokenize (RHEL7_str s) =
        ("autopart").data :: (rawRHEL7 s).map unquote
      rw [strA_RHEL7 s ha hfv]
      exact tokenize_lineOf (rawRHEL7 s) (wordOK_rawRHEL7 s hpv hev hcv hfv)
    · rw [toks_RHEL7 s hpv hev hcv hfv (hlvm (by decide))]
      show reqpartCheck (ksparseF21 schRHEL7 initS initCtx
        (toksOf (lRHEL7 s))) =
        (s, { initCtx with autopart_seen := true }, none)
      rw [ksparseF21_clean schRHEL7 initS initCtx _ upd hopt rfl h1 h2]
      rw [reqpartCheck_none]
      rw [if_neg (show ¬({ initCtx with autopart_seen := true } :
        Ctx).reqpart_seen = true by decide)]
      rw [show ({ upd initS with autopart := true, lvm := true } :
        AutoPart) = postParse Cls.RHEL7 (upd initS) from rfl, hpost]
  case F23 =>
    obtain ⟨upd, hopt, hpost⟩ := core_F23 s hwf
    obtain ⟨ha, hpv, hev, hcv, hfv, hdep, hescb, hr1, hr2, hcip, hlvm, hty5,
      htyv, hft8, hbt, hnh, hnbs⟩ := hwf
    have hfs : (upd initS).fstype = s.fstype := by
      rw [show (upd initS).fstype =
        (postParse Cls.F23 (upd initS)).fstype from rfl, hpost]
    have hts : (upd initS).type = s.type := by
      rw [show (upd initS).type =
        (postParse Cls.F23 (upd initS)).type from rfl, hpost]
    have h1 : ¬(upd initS).fstype = ("btrfs").data := by
      rw [hfs]
      exact (hbt (by decide)).1
    have h2 : ¬(typeAsStr tmF20 (upd initS).type = some (("btrfs").data) ∧
        (upd initS).fstype ≠ []) := by
      rw [hfs, hts]
      rintro ⟨hq, hne⟩
      exact (hbt (by decide)).2 ⟨typeAsStr_btrfs s.type hq, hne⟩
    refine ⟨(rawF21 tmF20 s).map unquote, ?_, ?_⟩
    · show tokenize (F21_str tmF20 s) =
        ("autopart").data :: (rawF21 tmF20 s).map unquote
      rw [strA_F21 tmF20 s ha (Or.inr rfl)]
      exact tokenize_lineOf (rawF21 tmF20 s)
        (wordOK_rawF21 tmF20 s (Or.inr rfl) hpv hev hcv hfv)
    · rw [toks_F21 s hpv hev hcv hfv (hlvm (by decide))]
      show reqpartCheck (ksparseF21 schF21 initS initCtx
        (toksOf (lF21 s))) =
        (s, { initCtx with autopart_seen := true }, none)
      rw [ksparseF21_clean schF21 initS initCtx _ upd hopt rfl h1 h2]
      rw [reqpartCheck_none]
      rw [if_neg (show ¬({ initCtx with autopart_seen := true } :
        Ctx).reqpart_seen = true by decide)]
      rw [show ({ upd initS with autopart := true, lvm := true } :
        AutoPart) = postParse Cls.F23 (upd initS) from rfl, hpost]
  case F26 =>
    obtain ⟨upd, hopt, hpost⟩ := core_F26 s hwf
    obtain ⟨ha, hpv, hev, hcv, hfv, hdep, hescb, hr1, hr2, hcip, hlvm, hty5,
      htyv, hft8, hbt, hnh, hnbs⟩ := hwf
    have hfs : (upd initS).fstype = s.fstype := by
      rw [show (upd initS).fstype =
        (postParse Cls.F26 (upd initS)).fstype from rfl, hpost]
    have hts : (upd initS).type = s.type := by
      rw [show (upd initS).type =
        (postParse Cls.F26 (upd initS)).type from rfl, hpost]
    have h1 : ¬(upd initS).fstype = ("btrfs").data := by
      rw [hfs]
      exact (hbt (by decide)).1
    have h2 : ¬(typeAsStr tmF20 (upd initS).type = some (("btrfs").data) ∧
        (upd initS).fstype ≠ []) := by
      rw [hfs, hts]
      rintro ⟨hq, hne⟩
      exact (hbt (by decide)).2 ⟨typeAsStr_btrfs s.type hq, hne⟩
    refine ⟨(rawF26 s).map unquote, ?_, ?_⟩
    · show tokenize (F26_str s) =
        ("autopart").data :: (rawF26 s).map unquote
      rw [strA_F26 s ha hfv]
      exact tokenize_lineOf (rawF26 s) (wordOK_rawF26 s hpv hev hcv hfv)
    · rw [toks_F26 s hpv hev hcv hfv (hlvm (by decide))]
      show reqpartCheck (ksparseF21 schF26 initS initCtx
        (toksOf (lF26 s))) =
        (s, { initCtx with autopart_seen := true }, none)
      rw [ksparseF21_clean schF26 initS initCtx _ upd hopt rfl h1 h2]
      rw [reqpartCheck_none]
      rw [if_neg (show ¬({ initCtx with autopart_seen := true } :
        Ctx).reqpart_seen = true by decide)]
      rw [show ({ upd initS with autopart := true, lvm := true } :
        AutoPart) = postParse Cls.F26 (upd initS) from rfl, hpost]

/-- C1 counterexample: the state reached by parsing
    autopart --passphrase=abc without --encrypted under F9 parses
    successfully, but its serialization is the bare autopart line, and
    re-parsing that line does not reproduce the state: the passphrase is
    dropped because its emission is guarded by the encrypted flag. -/
theorem c1_roundtrip_cex :
    (ksParse Cls.F9 initS initCtx [("--passphrase=abc").data]).2.2 = none ∧
    tokenize (ksStr Cls.F9
      (ksParse Cls.F9 initS initCtx [("--passphrase=abc").data]).1) =
      [("autopart").data] ∧
    (ksParse Cls.F9 initS initCtx []).1 ≠
      (ksParse Cls.F9 initS initCtx [("--passphrase=abc").data]).1 := by
  decide

/-- C1 witness: the amended round-trip at F9 on an encrypted state with a
    passphrase. -/
theorem c1_roundtrip_amended_witness :
    WF Cls.F9 { initS with
      autopart := true
      encrypted := true
      passphrase := ("abc").data } ∧
    ∃ rest, tokenize (ksStr Cls.F9 { initS with
      autopart := true
      encrypted := true
      passphrase := ("abc").data }) = ("autopart").data :: rest ∧
      ksParse Cls.F9 initS initCtx rest =
        ({ initS with
          autopart := true
          encrypted := true
          passphrase := ("abc").data },
         { initCtx with autopart_seen := true }, none) := by
  have hwf : WF Cls.F9 { initS with
      autopart := true
      encrypted := true
      passphrase := ("abc").data } :=
    ⟨rfl, by decide, by decide, by decide, by decide,
     fun h => absurd h (by decide), fun _ => rfl,
     fun h => absurd h (by decide),
     fun _ => ⟨rfl, rfl⟩, fun _ => rfl, fun _ => rfl, fun _ => rfl,
     Or.inl (by decide), fun _ => rfl, fun h => absurd h (by decide),
     fun _ => rfl, fun _ => ⟨rfl, rfl⟩⟩
  exact ⟨hwf, c1_roundtrip_amended Cls.F9 _ hwf⟩
